import Mathlib

/-!
# Calendar bot: the event-creation dialog

A shallow embedding of the Telegram handlers of
`pkg/bots/telegram/handlers/calendar_handlers.go` and of the keyboards of
`pkg/bots/telegram/inline_keyboards/calendarInlineKeyboards`.

Every handler is a function from the outcomes of its external calls
(`Env`), the session store it reads (`Store`) and the inbound message or
callback to a `Result`: the trace of external calls it makes, in order, and
whether it ended in a nil-pointer panic.  The store after a handler is the
store before it with the successful `setSession` calls of the trace applied.

Session entries and correlation entries live in one key-value store under raw
keys.  `Redis` is that store, `redisTrace` applies both kinds of write, and
`runShared` handles a list of inbound updates of all eleven registered
handlers on it.
-/

namespace CalendarBot

/-! ## Data model -/

/-- An instant (`time.Time`), as the number of nanoseconds since the zero
instant (January 1, year 1, 00:00:00 UTC). -/
structure Time where
  nsec : Int
deriving DecidableEq, Repr

/-- A `time.Duration`: a number of nanoseconds. -/
abbrev Duration := Int

def Minute : Duration := 60 * 1000000000

def Hour : Duration := 60 * Minute

namespace Time

/-- The zero value `time.Time{}`. -/
def zero : Time := ⟨0⟩

/-- The method `t.IsZero()`. -/
def IsZero (t : Time) : Bool := t.nsec == 0

/-- The method `t.Add(d)`. -/
def Add (t : Time) (d : Duration) : Time := ⟨t.nsec + d⟩

end Time

/-- Modelled from the spec: the role constant `telegram.RoleRequired`, declared outside
the handlers; the spec calls it "required". -/
def RoleRequired : String := "required"

/-- Modelled from the spec: the status constant `telegram.StatusAccepted`, declared outside
the handlers; the spec calls it "accepted". -/
def StatusAccepted : String := "accepted"

/-- Modelled from the spec: the status constant `telegram.StatusNeedsAction`, declared
outside the handlers; the spec calls it "needs-action". -/
def StatusNeedsAction : String := "needs-action"

/-- The fields of `types.Location` the handlers use. -/
structure Location where
  Description : String
deriving DecidableEq, Repr

/-- The fields of `types.AttendeeEvent` the handlers use. -/
structure AttendeeEvent where
  Email : String
  Name : String
  Role : String
  Status : String
deriving DecidableEq, Repr

/-- The fields of `types.Calendar` the handlers use. -/
structure Calendar where
  UID : String
deriving DecidableEq, Repr

/-- The fields of `types.Event` the handlers and keyboards use. -/
structure Event where
  Uid : String
  From : Time
  To : Time
  FullDay : Bool
  Title : String
  Description : String
  Location : Location
  Organizer : AttendeeEvent
  Attendees : List AttendeeEvent
  Calendar : Calendar
  Call : String
deriving DecidableEq, Repr

/-- The zero value `types.AttendeeEvent{}`. -/
def AttendeeEvent.empty : AttendeeEvent := ⟨"", "", "", ""⟩

/-- The zero value `types.Event{}`. -/
def Event.empty : Event :=
  { Uid := "", From := Time.zero, To := Time.zero, FullDay := false, Title := "",
    Description := "", Location := ⟨""⟩, Organizer := AttendeeEvent.empty,
    Attendees := [], Calendar := ⟨""⟩, Call := "" }

/-- Modelled from the spec: the step constants `telegram.StepCreate*`, declared outside
the handlers; the spec lists them in this order, `Init` first. -/
inductive Step where
  | StepCreateInit
  | StepCreateFrom
  | StepCreateTo
  | StepCreateTitle
  | StepCreateDesc
  | StepCreateLocation
  | StepCreateUser
deriving DecidableEq, Repr

open Step

/-- The prompt reference `utils.CustomEditable`: what `MessageSig()` returns. -/
structure CustomEditable where
  MessageID : String
  ChatID : Int
deriving DecidableEq, Repr

/-- Modelled from the spec: the constructor `utils.InitCustomEditable`, declared outside
the handlers: a reference made of a message identifier and a chat identifier. -/
def InitCustomEditable (messageID : String) (chatID : Int) : CustomEditable :=
  ⟨messageID, chatID⟩

/-- The session record `types.BotRedisSession`. -/
structure BotRedisSession where
  IsDate : Bool
  IsCreate : Bool
  Step : Step
  Event : Event
  InfoMsg : CustomEditable
deriving DecidableEq, Repr

/-- The session `&types.BotRedisSession{IsDate: false}` that `getSession` creates: every
field at its zero value. -/
def newSession : BotRedisSession :=
  { IsDate := false, IsCreate := false, Step := StepCreateInit, Event := Event.empty,
    InfoMsg := ⟨"", 0⟩ }

/-- The texts of package `calendarMessages` that the handlers compare with or attach to
buttons; their values are declared outside the handlers. -/
structure Messages where
  CreateCancelText : String
  CreateEventHalfHour : String
  CreateEventHour : String
  CreateEventHourAndHalf : String
  CreateEventTwoHours : String
  CreateEventFourHours : String
  CreateEventSixHours : String
  CreateFullDay : String
  CancelDateReplyButton : String
  CreateEventCreateText : String
  MessageAlertBase : String
  ShowMoreButton : String
  ShowLessButton : String
  CallLinkButton : String
deriving DecidableEq, Repr

/-- The cancel keyword and the seven duration labels are eight different texts. -/
def Messages.LabelsDistinct (msgs : Messages) : Prop :=
  [msgs.CreateCancelText, msgs.CreateEventHalfHour, msgs.CreateEventHour,
   msgs.CreateEventHourAndHalf, msgs.CreateEventTwoHours, msgs.CreateEventFourHours,
   msgs.CreateEventSixHours, msgs.CreateFullDay].Nodup

instance (msgs : Messages) : Decidable msgs.LabelsDistinct := by
  unfold Messages.LabelsDistinct; infer_instance

/-- The callback endpoints `telegram.*` that the keyboards attach to buttons. -/
inductive Unique where
  | ShowFullEvent
  | ShowShortEvent
  | AlertCallbackYes
  | AlertCallbackNo
  | CancelCreateEvent
  | CreateEvent
  /-- The empty endpoint of a button that has none (a link button). -/
  | Unset
  | HandleGroupText
deriving DecidableEq, Repr

/-- The fields of `tb.InlineButton` the keyboards set. -/
structure InlineButton where
  Text : String
  Unique : Unique
  Data : String
  URL : String := ""
deriving DecidableEq, Repr

/-- An inbound `tb.Message`: sender, chat, whether the chat is private, and the text. -/
structure Message where
  SenderID : Int
  ChatID : Int
  Private : Bool
  Text : String
deriving DecidableEq, Repr

/-- An inbound `tb.Callback`: the presser, the message the button hangs on (its chat,
the sender of the message it replies to, if it is a reply, its identifier and its text)
and the payload. -/
structure Callback where
  SenderID : Int
  ChatID : Int
  Private : Bool
  ReplyToSender : Option Int
  Data : String
  MessageID : String
  Text : String
deriving DecidableEq, Repr

/-- The command names `telegram.Today`, `telegram.Next` and `telegram.Date`; their
values are declared outside the handlers. -/
structure Commands where
  Today : String
  Next : String
  Date : String
deriving DecidableEq, Repr

/-- The input of `CreateEvent`, `types.EventInput`; a nil pointer is `none`.  The
RFC 3339 texts of `From` and `To` are represented by the whole second they denote. -/
structure EventInput where
  Uid : Option String
  From : Option Int
  To : Option Int
  FullDay : Option Bool
  Title : Option String
  Description : Option String
  Location : Option Location
  Attendees : Option (List (String × String))
deriving DecidableEq, Repr

/-! ## External calls -/

/-- How a call of `setSession` ends. -/
inductive SetResult where
  | ok
  | marshalErr
  | redisErr
deriving DecidableEq, Repr

/-- The texts a handler sends through `bot.Send`. -/
inductive Prompt where
  | CreateCanceled
  | DateNotParsed
  | Draft (e : Event) (keyboard : List (List InlineButton))
  | CreateEventTo
  | CreateEventTitle
  | RedisSessionNotFound
  | InitDate
  | CreateInit
  | UserNotAuth
  | CancelDate
  /-- The text `calendarMessages.GetGroupAlertMessage(text)` with the keyboard
  `GroupAlertsButtons(text)`. -/
  | GroupAlert (text : String)
  | DateTitle (d : Time)
  | DateEventsNotFound
  /-- The short text of an event with the keyboard of `EventShowMoreInlineKeyboard`,
  `none` when there is no keyboard. -/
  | EventShort (e : Event) (keyboard : Option (List (List InlineButton)))
  | CreatedEvent (e : Event)
  | TodayTitle
  | TodayNotFound
  | NextTitle
  | NoClosestEvents
  /-- The full text of an event with the keyboard of `EventShowLessInlineKeyboard`. -/
  | EventFull (e : Event) (keyboard : List (List InlineButton))
  /-- The text `baseMessages.StartNoRegText()` with the keyboard of the link. -/
  | StartNoReg (link : String)
  /-- The text `baseMessages.StartRegText(info)`. -/
  | StartReg (email : String) (name : String)
deriving DecidableEq, Repr

/-- The answers a handler gives through `bot.Respond`. -/
inductive Answer where
  | Plain
  | UserNotAllow
  | CreateCanceled
  | EventCreated
  /-- The text `calendarMessages.RedisNotFoundMessage()`. -/
  | RedisNotFound
  /-- The text `calendarMessages.CallbackResponseHeader(event)`. -/
  | Header (e : Event)
deriving DecidableEq, Repr

/-- One external call of a handler. -/
inductive Effect where
  /-- The call `userUseCase.IsUserAuthenticatedByTelegramUserID`. -/
  | IsAuth (uid : Int)
  /-- The call `redisDB.Get` on the key of a user. -/
  | Get (uid : Int)
  /-- The call `setSession(session, user)` and how it ended; the store keeps the
  session when it ended with `ok`. -/
  | SetSession (uid : Int) (s : BotRedisSession) (r : SetResult)
  /-- The call `db.Set(event.Uid, event.Calendar.UID)` of `EventShowMoreInlineKeyboard`
  and whether it succeeded; the store keeps the entry when it did. -/
  | SetCorrelation (token : String) (cal : String) (ok : Bool)
  /-- The call `redisDB.Get(c.Data)` of `getEventByIdForCallback`. -/
  | GetCorrelation (token : String)
  | Send (chat : Int) (p : Prompt)
  | SendError (chat : Int)
  | Delete (ref : CustomEditable)
  | Respond (a : Answer) (alert : Bool)
  /-- The call `ParseDate(m)` and what it returned (`none` is nil). -/
  | ParseDate (text : String) (r : Option Time)
  | GetToken (uid : Int)
  | GetUserInfo (token : String)
  | GetEventsByDate (token : String) (d : Time)
  | CreateEvent (token : String) (inp : EventInput)
  | GetEventsToday (token : String)
  | GetClosestEvent (token : String)
  | GetEventByEventID (token : String) (calendarID : String) (eventID : String)
  | SendAuthError (chat : Int)
  /-- The call `bot.Edit` on a message. -/
  | Edit (ref : CustomEditable) (p : Prompt)
  | GenOauthLink (uid : Int)
deriving DecidableEq, Repr

/-- The outcomes of the external calls of one handler run. -/
structure Env where
  /-- `IsUserAuthenticatedByTelegramUserID`: `none` is an error. -/
  auth : Option Bool
  /-- `redisDB.Get` fails although the key may be there. -/
  getErr : Bool
  /-- `json.Unmarshal` of the stored session fails. -/
  unmarshalErr : Bool
  /-- How the `setSession` of the default session inside `getSession` ends. -/
  defaultSet : SetResult
  /-- The notification sent by a failing `getSession` returns an error. -/
  notifyErr : Bool
  /-- How the handler's own `setSession` ends. -/
  setRes : SetResult
  /-- `GetOrRefreshOAuthAccessTokenByTelegramUserID`: `none` is an error. -/
  token : Option String
  /-- `GetMailruUserInfo`: email and name, `none` is an error. -/
  userInfo : Option (String × String)
  /-- `ParseDate`: `none` is nil. -/
  parse : Option Time
  /-- `bot.Send` of the draft prompt: the signature of the new message, `none` when it
  returns a nil message and an error. -/
  sendRes : Option (String × Int)
  /-- `GetEventsByDate`: `none` is an error, `some none` is nil. -/
  events : Option (Option (List Event))
  /-- `CreateEvent` succeeds. -/
  createOk : Bool
  /-- `uuid.NewString()`. -/
  uuid : String
  /-- The event tokens for which the `db.Set` of `EventShowMoreInlineKeyboard` fails. -/
  correlationFail : List String
  /-- `GetEventsToday`: `none` is an error, `some none` is nil. -/
  eventsToday : Option (Option (List Event))
  /-- `GetClosestEvent`: `none` is an error, `some none` is nil. -/
  closest : Option (Option Event)
  /-- `GetEventByEventID`: `none` is an error. -/
  eventById : Option Event
  /-- `GenOauthLinkForTelegramID`: `none` is an error. -/
  oauthLink : Option String
  /-- The boolean `IsUserAuthenticatedByTelegramUserID` returns together with an error. -/
  authOnError : Bool
deriving DecidableEq, Repr

/-- What a handler run did: its external calls, in order, and whether it ended by
dereferencing a nil pointer. -/
structure Result where
  trace : List Effect
  panicked : Bool
deriving DecidableEq, Repr

/-- The session entries of the key-value store, by user ID (the key is
`strconv.Itoa(user.ID)`). -/
abbrev Store := Int → Option BotRedisSession

/-- The store after one external call. -/
def applyEffect (st : Store) : Effect → Store
  | .SetSession uid s .ok => fun k => if k = uid then some s else st k
  | _ => st

/-- The store after the external calls of a trace. -/
def applyTrace (st : Store) (t : List Effect) : Store :=
  t.foldl applyEffect st

/-- The correlation entries of the key-value store, by event token (the key is
`event.Uid`, the value the identifier of the calendar). -/
abbrev CorrStore := String → Option String

/-- The correlation entries after one external call. -/
def applyCorrEffect (cs : CorrStore) : Effect → CorrStore
  | .SetCorrelation token cal true => fun k => if k = token then some cal else cs k
  | _ => cs

/-- The correlation entries after the external calls of a trace. -/
def applyCorr (cs : CorrStore) (t : List Effect) : CorrStore :=
  t.foldl applyCorrEffect cs

/-- The messages edited through `bot.Edit` in a trace, in order. -/
def editedRefs : List Effect → List CustomEditable
  | [] => []
  | .Edit ref _ :: t => ref :: editedRefs t
  | _ :: t => editedRefs t

/-- The sessions passed to `setSession` in a trace, in order. -/
def savedSessions : List Effect → List BotRedisSession
  | [] => []
  | .SetSession _ s _ :: t => s :: savedSessions t
  | _ :: t => savedSessions t

/-- The calls of `ParseDate` in a trace, in order: the text and what was returned. -/
def parseCalls : List Effect → List (String × Option Time)
  | [] => []
  | .ParseDate text r :: t => (text, r) :: parseCalls t
  | _ :: t => parseCalls t

/-- The calls of `CreateEvent` in a trace, in order: the token and the input. -/
def createCalls : List Effect → List (String × EventInput)
  | [] => []
  | .CreateEvent token inp :: t => (token, inp) :: createCalls t
  | _ :: t => createCalls t

/-- The prompt references passed to `bot.Delete` in a trace, in order. -/
def deletedRefs : List Effect → List CustomEditable
  | [] => []
  | .Delete ref :: t => ref :: deletedRefs t
  | _ :: t => deletedRefs t

/-! ## Keyboards -/

/-- The function `CreateEventButtons` of `calendar_inline_keyboards.go`. -/
def CreateEventButtons (msgs : Messages) (event : Event) : List (List InlineButton) :=
  let btns : List (List InlineButton) := []
  let btns :=
    if !event.From.IsZero && !event.To.IsZero then
      btns ++ [[{ Text := msgs.CreateEventCreateText, Unique := .CreateEvent, Data := "" }]]
    else btns
  btns ++ [[{ Text := msgs.CreateCancelText, Unique := .CancelCreateEvent, Data := "" }]]

/-- A keyboard offers the create action when one of its buttons leads to the
`telegram.CreateEvent` endpoint. -/
def offersCreate (keyboard : List (List InlineButton)) : Bool :=
  keyboard.any fun row => row.any fun b => b.Unique == .CreateEvent

/-! ## Session store adapter -/

/-- The function `setSession`: its external calls and whether it returned nil. -/
def setSession (r : SetResult) (session : BotRedisSession) (uid : Int) :
    List Effect × Bool :=
  match r with
  | .ok => ([.SetSession uid session .ok], true)
  | r => ([.SetSession uid session r, .SendError uid], false)

/-- The function `getSession`: its external calls, the session pointer it returns
(`none` is nil) and whether the error it returns is non-nil. -/
def getSession (env : Env) (st : Store) (uid : Int) :
    List Effect × Option BotRedisSession × Bool :=
  match (if env.getErr then none else st uid) with
  | none =>
    let (t, ok) := setSession env.defaultSet newSession uid
    if ok then (.Get uid :: t, some newSession, false)
    else (.Get uid :: t ++ [.Send uid .RedisSessionNotFound], none, env.notifyErr)
  | some session =>
    if env.unmarshalErr then
      ([.Get uid, .Send uid .RedisSessionNotFound], none, env.notifyErr)
    else ([.Get uid], some session, false)

/-! ## The creation dialog -/

/-- The function `ParseDate` as a handler sees it: the call, and the error notice it
sends when it returns nil. -/
def ParseDate (env : Env) (m : Message) : List Effect :=
  match env.parse with
  | none => [.ParseDate m.Text none, .SendError m.ChatID]
  | some d => [.ParseDate m.Text (some d)]

/-- How the labelled `switch session.Step` of `handleCreateText` ends: by `return`, or
by leaving the switch with the session as mutated. -/
inductive SwitchExit where
  | returned (t : List Effect)
  | left (t : List Effect) (session : BotRedisSession)
deriving DecidableEq, Repr

/-- A duration case of the inner `switch m.Text` at `StepCreateTo`. -/
def durationCase (session : BotRedisSession) (d : Duration) (fullDay : Bool) :
    BotRedisSession :=
  let session :=
    if fullDay then { session with Event := { session.Event with FullDay := true } }
    else session
  let session :=
    { session with Event := { session.Event with To := session.Event.From.Add d } }
  if session.Event.Title = "" then { session with Step := StepCreateTitle } else session

/-- The date branch shared in shape by `StepCreateFrom` and `StepCreateTo`: the
resolver call and its two early returns. -/
def parseOrReturn (env : Env) (m : Message) (k : Time → BotRedisSession) : SwitchExit :=
  match env.parse with
  | none => .returned (ParseDate env m)
  | some d =>
    if d.IsZero then .returned (ParseDate env m ++ [.Send m.ChatID .DateNotParsed])
    else .left (ParseDate env m) (k d)

/-- The labelled `switch session.Step` of `handleCreateText`. -/
def createSwitch (msgs : Messages) (env : Env) (m : Message)
    (session : BotRedisSession) : SwitchExit :=
  match session.Step with
  | StepCreateFrom =>
    parseOrReturn env m fun d =>
      let session := { session with Event := { session.Event with From := d } }
      if session.Event.To.IsZero then { session with Step := StepCreateTo } else session
  | StepCreateTo =>
    if m.Text = msgs.CreateEventHalfHour then
      .left [] (durationCase session (30 * Minute) false)
    else if m.Text = msgs.CreateEventHour then
      .left [] (durationCase session (1 * Hour) false)
    else if m.Text = msgs.CreateEventHourAndHalf then
      .left [] (durationCase session (1 * Hour + 30 * Minute) false)
    else if m.Text = msgs.CreateEventTwoHours then
      .left [] (durationCase session (2 * Hour) false)
    else if m.Text = msgs.CreateEventFourHours then
      .left [] (durationCase session (4 * Hour) false)
    else if m.Text = msgs.CreateEventSixHours then
      .left [] (durationCase session (6 * Hour) false)
    else if m.Text = msgs.CreateFullDay then
      .left [] (durationCase session (24 * Hour) true)
    else
      parseOrReturn env m fun d =>
        let session :=
          if session.Event.Title = "" then { session with Step := StepCreateTitle }
          else session
        { session with Event := { session.Event with From := d } }
  | StepCreateTitle =>
    .left [] { session with Event := { session.Event with Title := m.Text } }
  | StepCreateDesc =>
    .left [] { session with Event := { session.Event with Description := m.Text } }
  | StepCreateUser =>
    .left [] { session with Event := { session.Event with
      Attendees := session.Event.Attendees ++
        [{ Email := m.Text, Name := "", Role := RoleRequired, Status := StatusNeedsAction }] } }
  | StepCreateLocation =>
    .left [] { session with Event := { session.Event with
      Location := { session.Event.Location with Description := m.Text } } }
  | StepCreateInit => .left [] session

/-- The reset shared by the cancel keyword, `HandleCancelCreateEvent` and
`HandleCreateEvent`: the dialog is switched off, the draft emptied, the old prompt
deleted and the prompt reference emptied. -/
def resetEffects (session : BotRedisSession) : List Effect :=
  if session.InfoMsg.ChatID ≠ 0 then [.Delete session.InfoMsg] else []

/-- The session after the reset. -/
def resetSession (session : BotRedisSession) : BotRedisSession :=
  { session with IsCreate := false, Step := StepCreateInit, Event := Event.empty,
                 InfoMsg := InitCustomEditable "" 0 }

/-- The function `handleCreateText`. -/
def handleCreateText (msgs : Messages) (env : Env) (m : Message)
    (session : BotRedisSession) : Result :=
  if msgs.CreateCancelText = m.Text then
    let (t, ok) := setSession env.setRes (resetSession session) m.SenderID
    if ok then ⟨resetEffects session ++ t ++ [.Send m.ChatID .CreateCanceled], false⟩
    else ⟨resetEffects session ++ t, false⟩
  else
    match createSwitch msgs env m session with
    | .returned t => ⟨t, false⟩
    | .left t session =>
      let t := t ++ resetEffects session ++
        [.Send m.ChatID (.Draft session.Event (CreateEventButtons msgs session.Event))]
      match env.sendRes with
      | none => ⟨t, true⟩
      | some sig =>
        let session := { session with InfoMsg := InitCustomEditable sig.1 sig.2 }
        let (t2, ok) := setSession env.setRes session m.SenderID
        if !ok then ⟨t ++ t2, false⟩
        else if session.Event.To.IsZero then
          ⟨t ++ t2 ++ [.Send m.ChatID .CreateEventTo], false⟩
        else if session.Event.Title = "" then
          ⟨t ++ t2 ++ [.Send m.ChatID .CreateEventTitle], false⟩
        else ⟨t ++ t2, false⟩

/-! ## The other handlers -/

/-- The call `strings.Contains(s, sub)`. -/
def strContains (s sub : String) : Bool := decide (sub.toList <:+: s.toList)

/-- The function `AuthMiddleware`: its external calls and its result. -/
def AuthMiddleware (env : Env) (uid chat : Int) : List Effect × Bool :=
  match env.auth with
  | none => ([.IsAuth uid], false)
  | some false => ([.IsAuth uid, .Send chat .UserNotAuth], false)
  | some true => ([.IsAuth uid], true)

/-- The function `GroupMiddleware`: its external calls and its result. -/
def GroupMiddleware (msgs : Messages) (m : Message) : List Effect × Bool :=
  if strContains m.Text msgs.MessageAlertBase then ([], false)
  else if !m.Private then ([.Send m.ChatID (.GroupAlert m.Text)], true)
  else ([], false)

/-- The function `HandleDate`. -/
def HandleDate (msgs : Messages) (env : Env) (st : Store) (m : Message) : Result :=
  let (t1, isAuth) := AuthMiddleware env m.SenderID m.ChatID
  if !isAuth then ⟨t1, false⟩
  else
    let (t2, isGroup) := GroupMiddleware msgs m
    if isGroup then ⟨t1 ++ t2, false⟩
    else
      match getSession env st m.SenderID with
      | (t3, _, true) => ⟨t1 ++ t2 ++ t3, false⟩
      | (t3, none, false) => ⟨t1 ++ t2 ++ t3, true⟩
      | (t3, some currSession, false) =>
        let currSession := { currSession with IsDate := true, IsCreate := false }
        let (t4, ok) := setSession env.setRes currSession m.SenderID
        if !ok then ⟨t1 ++ t2 ++ t3 ++ t4, false⟩
        else ⟨t1 ++ t2 ++ t3 ++ t4 ++ [.Send m.ChatID .InitDate], false⟩

/-- The function `HandleCreate`. -/
def HandleCreate (env : Env) (st : Store) (m : Message) : Result :=
  let (t1, isAuth) := AuthMiddleware env m.SenderID m.ChatID
  if !isAuth then ⟨t1, false⟩
  else
    match getSession env st m.SenderID with
    | (t2, _, true) => ⟨t1 ++ t2 ++ [.SendError m.ChatID], false⟩
    | (t2, none, false) => ⟨t1 ++ t2, true⟩
    | (t2, some session, false) =>
      let session := { session with IsDate := false, IsCreate := true, Event := Event.empty }
      match env.token with
      | none => ⟨t1 ++ t2 ++ [.GetToken m.SenderID, .SendError m.ChatID], false⟩
      | some token =>
        let session :=
          match env.userInfo with
          | none => session
          | some (email, name) =>
            { session with Event := { session.Event with
                Organizer := { Email := email, Name := name, Role := RoleRequired,
                               Status := StatusAccepted } } }
        let session := { session with Step := StepCreateFrom }
        let (t3, ok) := setSession env.setRes session m.SenderID
        let t := t1 ++ t2 ++ [.GetToken m.SenderID, .GetUserInfo token] ++ t3
        if !ok then ⟨t ++ [.SendError m.ChatID], false⟩
        else ⟨t ++ [.Send m.ChatID .CreateInit], false⟩

/-- The function `EventShowMoreInlineKeyboard`: its external call and the keyboard it
returns, `none` when it returns nil and an error. -/
def EventShowMoreInlineKeyboard (msgs : Messages) (env : Env) (event : Event) :
    List Effect × Option (List (List InlineButton)) :=
  if env.correlationFail.contains event.Uid then
    ([.SetCorrelation event.Uid event.Calendar.UID false], none)
  else
    ([.SetCorrelation event.Uid event.Calendar.UID true],
      some [[{ Text := msgs.ShowMoreButton, Unique := .ShowFullEvent, Data := event.Uid }]])

/-- The function `EventShowLessInlineKeyboard`. -/
def EventShowLessInlineKeyboard (msgs : Messages) (event : Event) :
    List (List InlineButton) :=
  let inlineKeyboard : List (List InlineButton) := []
  let inlineKeyboard :=
    if event.Call ≠ "" then
      inlineKeyboard ++
        [[{ Text := msgs.CallLinkButton, Unique := .Unset, Data := "", URL := event.Call }]]
    else inlineKeyboard
  inlineKeyboard ++
    [[{ Text := msgs.ShowLessButton, Unique := .ShowShortEvent, Data := event.Uid }]]

/-- The function `sendShortEvents`. -/
def sendShortEvents (msgs : Messages) (env : Env) (events : List Event) (isPrivate : Bool)
    (chat : Int) : List Effect :=
  match events with
  | [] => []
  | event :: rest =>
    (if isPrivate then
      let (t, keyboard) := EventShowMoreInlineKeyboard msgs env event
      t ++ [.Send chat (.EventShort event keyboard)]
    else [.Send chat (.EventShort event none)]) ++
      sendShortEvents msgs env rest isPrivate chat

/-- The function `handleDateText`. -/
def handleDateText (msgs : Messages) (env : Env) (m : Message)
    (session : BotRedisSession) : Result :=
  if msgs.CancelDateReplyButton = m.Text then
    let session := { session with IsDate := false }
    let (t, ok) := setSession env.setRes session m.SenderID
    if !ok then ⟨t, false⟩ else ⟨t ++ [.Send m.ChatID .CancelDate], false⟩
  else
    match env.parse with
    | none => ⟨ParseDate env m, false⟩
    | some d =>
      if !d.IsZero then
        let session := { session with IsDate := false }
        let (t, ok) := setSession env.setRes session m.SenderID
        if !ok then ⟨ParseDate env m ++ t, false⟩
        else
          match env.token with
          | none => ⟨ParseDate env m ++ t ++ [.GetToken m.SenderID, .SendError m.ChatID], false⟩
          | some token =>
            let t := ParseDate env m ++ t ++ [.GetToken m.SenderID, .GetEventsByDate token d]
            match env.events with
            | none => ⟨t ++ [.SendError m.ChatID], false⟩
            | some none => ⟨t ++ [.Send m.ChatID .DateEventsNotFound], false⟩
            | some (some events) =>
              ⟨t ++ [.Send m.ChatID (.DateTitle d)] ++
                sendShortEvents msgs env events m.Private m.ChatID, false⟩
      else ⟨ParseDate env m ++ [.Send m.ChatID .DateNotParsed], false⟩

/-- The function `HandleText`. -/
def HandleText (msgs : Messages) (env : Env) (st : Store) (m : Message) : Result :=
  match getSession env st m.SenderID with
  | (t, _, true) => ⟨t, false⟩
  | (t, none, false) => ⟨t, true⟩
  | (t, some session, false) =>
    if session.IsDate then
      ⟨t ++ (handleDateText msgs env m session).trace, (handleDateText msgs env m session).panicked⟩
    else if session.IsCreate then
      ⟨t ++ (handleCreateText msgs env m session).trace,
        (handleCreateText msgs env m session).panicked⟩
    else if m.Private then ⟨t ++ [.Send m.ChatID .RedisSessionNotFound], false⟩
    else ⟨t, false⟩

/-- The function `HandleCancelCreateEvent`. -/
def HandleCancelCreateEvent (env : Env) (st : Store) (c : Callback) : Result :=
  match c.ReplyToSender with
  | none => ⟨[], true⟩
  | some owner =>
    if c.SenderID ≠ owner then ⟨[.Respond .UserNotAllow true], false⟩
    else
      match getSession env st c.SenderID with
      | (t, _, true) => ⟨t, false⟩
      | (t, none, false) => ⟨t ++ [.Respond .CreateCanceled false], true⟩
      | (t, some session, false) =>
        let (t2, ok) := setSession env.setRes (resetSession session) c.SenderID
        let t := t ++ [.Respond .CreateCanceled false] ++ resetEffects session ++ t2
        if !ok then ⟨t, false⟩ else ⟨t ++ [.Send c.ChatID .CreateCanceled], false⟩

/-- The RFC 3339 text of an instant, `t.Format(time.RFC3339)`, represented by the whole
second it denotes. -/
def formatRFC3339 (t : Time) : Int := t.nsec / 1000000000

/-- The function `EventToEventInput`; the identifier `uuid.NewString()` is passed in. -/
def EventToEventInput (uuid : String) (event : Event) : EventInput :=
  { Uid := some uuid
    From := some (formatRFC3339 event.From)
    To := some (formatRFC3339 event.To)
    FullDay := some event.FullDay
    Title := if event.Title ≠ "" then some event.Title else some "Без названия"
    Description := if event.Description ≠ "" then some event.Description else some ""
    Location :=
      if event.Location.Description ≠ "" then some ⟨event.Location.Description⟩ else none
    Attendees :=
      if event.Attendees.length > 0 then
        some (event.Attendees.map fun attendee => (attendee.Email, attendee.Role))
      else none }

/-- The function `HandleCreateEvent`. -/
def HandleCreateEvent (env : Env) (st : Store) (c : Callback) : Result :=
  match c.ReplyToSender with
  | none => ⟨[], true⟩
  | some owner =>
    if c.SenderID ≠ owner then ⟨[.Respond .UserNotAllow true], false⟩
    else
      match getSession env st c.SenderID with
      | (t, _, true) => ⟨t, false⟩
      | (t, os, false) =>
        match env.token with
        | none => ⟨t ++ [.GetToken c.SenderID, .SendError c.ChatID], false⟩
        | some token =>
          match os with
          | none => ⟨t ++ [.GetToken c.SenderID], true⟩
          | some session =>
            let inpEvent := EventToEventInput env.uuid session.Event
            let t := t ++ [.GetToken c.SenderID, .CreateEvent token inpEvent]
            if !env.createOk then ⟨t ++ [.SendError c.ChatID], false⟩
            else
              let (t2, _) := setSession env.setRes (resetSession session) c.SenderID
              ⟨t ++ [.Respond .EventCreated false, .Send c.ChatID (.CreatedEvent session.Event)]
                ++ resetEffects session ++ t2, false⟩

/-! ## The dialog as a transition system -/

/-- An inbound update that reaches a handler of the dialog, which calls `getSession`
and `setSession`: the commands `/date` and `/create`, a text message, and a press on the
cancel or create button of a draft prompt.  (`HandleAlertYes` calls them only by calling
`HandleDate` on the asker's message, and the other handlers call neither; all eleven
handlers are the subject of `Inbound` and `dispatch`.) -/
inductive Update where
  | date (m : Message)
  | create (m : Message)
  | text (m : Message)
  | cancelCreate (c : Callback)
  | createEvent (c : Callback)
deriving DecidableEq, Repr

/-- The handler `InitHandlers` registers for an update. -/
def handle (msgs : Messages) (env : Env) (st : Store) : Update → Result
  | .date m => HandleDate msgs env st m
  | .create m => HandleCreate env st m
  | .text m => HandleText msgs env st m
  | .cancelCreate c => HandleCancelCreateEvent env st c
  | .createEvent c => HandleCreateEvent env st c

/-- The store after an update is handled. -/
def next (msgs : Messages) (env : Env) (st : Store) (u : Update) : Store :=
  applyTrace st (handle msgs env st u).trace

/-- The store with no entry. -/
def emptyStore : Store := fun _ => none

/-- The store after a list of updates, each with its outcomes, handled in order. -/
def runAll (msgs : Messages) (st : Store) : List (Env × Update) → Store
  | [] => st
  | (env, u) :: rest => runAll msgs (next msgs env st u) rest

/-- The seven duration shortcuts of the `StepCreateTo` prompt as the specification
lists them: label, duration, and whether the label is the full-day one. -/
def durationShortcuts (msgs : Messages) : List (String × Duration × Bool) :=
  [(msgs.CreateEventHalfHour, 30 * Minute, false),
   (msgs.CreateEventHour, 1 * Hour, false),
   (msgs.CreateEventHourAndHalf, 1 * Hour + 30 * Minute, false),
   (msgs.CreateEventTwoHours, 2 * Hour, false),
   (msgs.CreateEventFourHours, 4 * Hour, false),
   (msgs.CreateEventSixHours, 6 * Hour, false),
   (msgs.CreateFullDay, 24 * Hour, true)]

/-- Sample texts for the concrete runs below. -/
def sampleMessages : Messages :=
  { CreateCancelText := "cancel", CreateEventHalfHour := "30m", CreateEventHour := "1h",
    CreateEventHourAndHalf := "1h30m", CreateEventTwoHours := "2h",
    CreateEventFourHours := "4h", CreateEventSixHours := "6h", CreateFullDay := "day",
    CancelDateReplyButton := "stop", CreateEventCreateText := "create",
    MessageAlertBase := "@bot", ShowMoreButton := "more", ShowLessButton := "less",
    CallLinkButton := "call" }

/-- A sample event of the calendar "cal-1". -/
def sampleEvent : Event :=
  { Event.empty with Uid := "ev-1", Title := "Review", Calendar := ⟨"cal-1"⟩ }

/-- Sample outcomes for the concrete runs below: every external call succeeds, the
resolver answers with the instant 1000 and the new prompt is message "7" of chat 5. -/
def sampleEnv : Env :=
  { auth := some true, getErr := false, unmarshalErr := false, defaultSet := .ok,
    notifyErr := false, setRes := .ok, token := some "tok", userInfo := some ("a@b", "Ann"),
    parse := some ⟨1000⟩, sendRes := some ("7", 5), events := some none, createOk := true,
    uuid := "u-1", correlationFail := [], eventsToday := some none, closest := some none,
    eventById := some sampleEvent, oauthLink := some "https://o/1", authOnError := false }

/-- A sample session in the middle of a creation dialog. -/
def sampleSession : BotRedisSession :=
  { IsDate := false, IsCreate := true, Step := StepCreateFrom, Event := Event.empty,
    InfoMsg := ⟨"3", 5⟩ }

/-! ## Invariants of the dialog -/

/-- The session a handler run works on: the stored one, or the default one. -/
def Loaded (st : Store) (uid : Int) (s : BotRedisSession) : Prop :=
  s = newSession ∨ st uid = some s

/-- What a handler does to the session it works on before passing it to `setSession`. -/
inductive Trans (msgs : Messages) : BotRedisSession → BotRedisSession → Prop where
  | date (s : BotRedisSession) : Trans msgs s { s with IsDate := true, IsCreate := false }
  | create (s : BotRedisSession) (org : AttendeeEvent) :
      Trans msgs s { s with IsDate := false, IsCreate := true,
                            Event := { Event.empty with Organizer := org },
                            Step := StepCreateFrom }
  | dateText (s : BotRedisSession) : Trans msgs s { s with IsDate := false }
  | reset (s : BotRedisSession) : Trans msgs s (resetSession s)
  | createText (s s1 : BotRedisSession) (env : Env) (m : Message) (t : List Effect)
      (sig : CustomEditable) :
      createSwitch msgs env m s = .left t s1 → Trans msgs s { s1 with InfoMsg := sig }

/-- The user whose session entry the handler of an update reads and writes. -/
def Update.user : Update → Int
  | .date m => m.SenderID
  | .create m => m.SenderID
  | .text m => m.SenderID
  | .cancelCreate c => c.SenderID
  | .createEvent c => c.SenderID

/-- The two dialog flags are not both set. -/
def FlagsExclusive (s : BotRedisSession) : Prop :=
  ¬ (s.IsCreate = true ∧ s.IsDate = true)

/-- The draft's `To` is set only when its `From` is. -/
def ToNeedsFrom (s : BotRedisSession) : Prop :=
  s.Event.To.IsZero = false → s.Event.From.IsZero = false

/-- A full-day draft ends 24 hours after it starts. -/
def FullDaySpan (s : BotRedisSession) : Prop :=
  s.Event.FullDay = true → s.Event.To = s.Event.From.Add (24 * Hour)

/-- The inductive form of `ToNeedsFrom`: moreover a session at `StepCreateTo` has its
`From` set. -/
def FromInv (s : BotRedisSession) : Prop :=
  (s.Step = StepCreateTo → s.Event.From.IsZero = false) ∧ ToNeedsFrom s

/-- The inductive form of `FullDaySpan`: moreover a session at `StepCreateFrom` or
`StepCreateTo` is not full-day and has no title yet. -/
def FullDayInv (s : BotRedisSession) : Prop :=
  ((s.Step = StepCreateFrom ∨ s.Step = StepCreateTo) →
      s.Event.FullDay = false ∧ s.Event.Title = "") ∧ FullDaySpan s

/-- A store whose only entry is the sample session, under user 1. -/
def sampleStore : Store := fun k => if k = 1 then some sampleSession else none

/-- The session of user 1 after the sample dialog. -/
def sampleAfterRun : BotRedisSession :=
  { IsDate := false, IsCreate := true, Step := StepCreateTitle,
    Event := { Event.empty with
      From := ⟨1000⟩, To := ⟨86400000001000⟩, FullDay := true,
      Organizer := ⟨"a@b", "Ann", RoleRequired, StatusAccepted⟩ },
    InfoMsg := ⟨"7", 5⟩ }

/-- A sample draft with a title, a place and two attendees. -/
def sampleDraft : Event :=
  { Event.empty with
    From := ⟨1000⟩, To := ⟨2000⟩, Title := "Sync", Location := ⟨"Room 1"⟩,
    Organizer := ⟨"a@b", "Ann", RoleRequired, StatusAccepted⟩,
    Attendees := [⟨"x@y", "", RoleRequired, StatusNeedsAction⟩,
                  ⟨"z@w", "", RoleRequired, StatusNeedsAction⟩] }

/-- Whether an external call is a call of the calendar service. -/
def Effect.isCalendarCall : Effect → Bool
  | .GetEventsByDate _ _ => true
  | .CreateEvent _ _ => true
  | .GetEventsToday _ => true
  | .GetClosestEvent _ => true
  | .GetEventByEventID _ _ _ => true
  | _ => false

/-! ## Callbacks on events and group alerts -/

/-- The function `getEventByIdForCallback`: its external calls and the event it
returns, `none` when it returns nil. -/
def getEventByIdForCallback (env : Env) (cs : CorrStore) (c : Callback) :
    List Effect × Option Event :=
  match (if env.getErr then none else cs c.Data) with
  | none => ([.GetCorrelation c.Data, .Respond .RedisNotFound true], none)
  | some calUid =>
    match env.token with
    | none =>
      ([.GetCorrelation c.Data, .GetToken c.SenderID, .SendAuthError c.ChatID,
        .Respond .Plain false], none)
    | some token =>
      let t := [.GetCorrelation c.Data, .GetToken c.SenderID,
        .GetEventByEventID token calUid c.Data]
      match env.eventById with
      | none => (t ++ [.SendError c.ChatID, .Respond .Plain false], none)
      | some event => (t, some event)

/-- The function `HandleShowMore`. -/
def HandleShowMore (msgs : Messages) (env : Env) (cs : CorrStore) (c : Callback) : Result :=
  let (t1, isAuth) := AuthMiddleware env c.SenderID c.ChatID
  if !isAuth then ⟨t1 ++ [.Respond .Plain false], false⟩
  else
    match getEventByIdForCallback env cs c with
    | (t2, none) => ⟨t1 ++ t2, false⟩
    | (t2, some event) =>
      ⟨t1 ++ t2 ++ [.Respond (.Header event) false,
        .Edit ⟨c.MessageID, c.ChatID⟩
          (.EventFull event (EventShowLessInlineKeyboard msgs event))], false⟩

/-- The function `HandleShowLess`. -/
def HandleShowLess (msgs : Messages) (env : Env) (cs : CorrStore) (c : Callback) : Result :=
  let (t1, isAuth) := AuthMiddleware env c.SenderID c.ChatID
  if !isAuth then ⟨t1 ++ [.Respond .Plain false], false⟩
  else
    match getEventByIdForCallback env cs c with
    | (t2, none) => ⟨t1 ++ t2, false⟩
    | (t2, some event) =>
      let (t3, inlineKeyboard) := EventShowMoreInlineKeyboard msgs env event
      ⟨t1 ++ t2 ++ [.Respond .Plain false] ++ t3 ++
        [.Edit ⟨c.MessageID, c.ChatID⟩ (.EventShort event inlineKeyboard)], false⟩

/-- The function `HandleToday`. -/
def HandleToday (msgs : Messages) (env : Env) (m : Message) : Result :=
  let (t1, isAuth) := AuthMiddleware env m.SenderID m.ChatID
  if !isAuth then ⟨t1, false⟩
  else
    let (t2, isGroup) := GroupMiddleware msgs m
    if isGroup then ⟨t1 ++ t2, false⟩
    else
      match env.token with
      | none => ⟨t1 ++ t2 ++ [.GetToken m.SenderID, .SendError m.ChatID], false⟩
      | some token =>
        let t := t1 ++ t2 ++ [.GetToken m.SenderID, .GetEventsToday token]
        match env.eventsToday with
        | none => ⟨t ++ [.SendError m.ChatID], false⟩
        | some none => ⟨t ++ [.Send m.ChatID .TodayNotFound], false⟩
        | some (some events) =>
          ⟨t ++ [.Send m.ChatID .TodayTitle] ++
            sendShortEvents msgs env events m.Private m.ChatID, false⟩

/-- The function `HandleNext`. -/
def HandleNext (msgs : Messages) (env : Env) (m : Message) : Result :=
  let (t1, isAuth) := AuthMiddleware env m.SenderID m.ChatID
  if !isAuth then ⟨t1, false⟩
  else
    let (t2, isGroup) := GroupMiddleware msgs m
    if isGroup then ⟨t1 ++ t2, false⟩
    else
      match env.token with
      | none => ⟨t1 ++ t2 ++ [.GetToken m.SenderID, .SendError m.ChatID], false⟩
      | some token =>
        let t := t1 ++ t2 ++ [.GetToken m.SenderID, .GetClosestEvent token]
        match env.closest with
        | none => ⟨t ++ [.SendError m.ChatID], false⟩
        | some none => ⟨t ++ [.Send m.ChatID .NoClosestEvents], false⟩
        | some (some event) =>
          if m.Private then
            let (t3, inlineKeyboard) := EventShowMoreInlineKeyboard msgs env event
            ⟨t ++ [.Send m.ChatID .NextTitle] ++ t3 ++
              [.Send m.ChatID (.EventShort event inlineKeyboard)], false⟩
          else
            ⟨t ++ [.Send m.ChatID .NextTitle, .Send m.ChatID (.EventShort event none)], false⟩

/-- The function `HandleAlertYes`. -/
def HandleAlertYes (cmds : Commands) (msgs : Messages) (env : Env) (st : Store)
    (c : Callback) : Result :=
  match c.ReplyToSender with
  | none => ⟨[], true⟩
  | some owner =>
    if c.SenderID ≠ owner then ⟨[.Respond .UserNotAllow true], false⟩
    else
      let t : List Effect := [.Respond .Plain false, .Delete ⟨c.MessageID, c.ChatID⟩]
      let m : Message := ⟨owner, c.ChatID, c.Private, c.Text⟩
      if c.Data = cmds.Today then
        ⟨t ++ (HandleToday msgs env m).trace, (HandleToday msgs env m).panicked⟩
      else if c.Data = cmds.Next then
        ⟨t ++ (HandleNext msgs env m).trace, (HandleNext msgs env m).panicked⟩
      else if c.Data = cmds.Date then
        ⟨t ++ (HandleDate msgs env st m).trace, (HandleDate msgs env st m).panicked⟩
      else ⟨t, false⟩

/-- The function `HandleAlertNo`. -/
def HandleAlertNo (c : Callback) : Result :=
  match c.ReplyToSender with
  | none => ⟨[], true⟩
  | some owner =>
    if c.SenderID ≠ owner then ⟨[.Respond .UserNotAllow true], false⟩
    else ⟨[.Respond .Plain false, .Delete ⟨c.MessageID, c.ChatID⟩], false⟩

/-- Sample command names. -/
def sampleCommands : Commands := { Today := "/today", Next := "/next", Date := "/date" }

/-- The drafts shown by the draft prompts sent in a trace, in order. -/
def draftSends : List Effect → List Event
  | [] => []
  | .Send _ (.Draft e _) :: t => e :: draftSends t
  | _ :: t => draftSends t

/-- A sample dialog of user 1 that answers the duration prompt with a date: `/create`,
a start date, and another date in answer to the duration prompt. -/
def sampleRedefine : List (Env × Update) :=
  [(sampleEnv, .create ⟨1, 5, true, "/create"⟩),
   (sampleEnv, .text ⟨1, 5, true, "tomorrow"⟩),
   ({ sampleEnv with parse := some ⟨5000⟩ }, .text ⟨1, 5, true, "friday"⟩)]

/-! ## Group alerts and the start command -/

/-- The function `GroupAlertsButtons` of `calendar_inline_keyboards.go`. -/
def GroupAlertsButtons (cmds : Commands) (data : String) : List (List InlineButton) :=
  let inp := ""
  let inp := if strContains data cmds.Today then cmds.Today else inp
  let inp := if strContains data cmds.Next then cmds.Next else inp
  let inp := if strContains data cmds.Date then cmds.Date else inp
  [[{ Text := "Да", Unique := .AlertCallbackYes, Data := inp },
    { Text := "Нет", Unique := .AlertCallbackNo, Data := "" }]]

/-- The function `HandleStart` of `base_handlers.go`. -/
def HandleStart (env : Env) (m : Message) : Result :=
  match env.auth with
  | some _ => ⟨[.IsAuth m.SenderID, .SendError m.SenderID], false⟩
  | none =>
    if !env.authOnError then
      match env.oauthLink with
      | none => ⟨[.IsAuth m.SenderID, .GenOauthLink m.SenderID, .SendError m.SenderID], false⟩
      | some link =>
        ⟨[.IsAuth m.SenderID, .GenOauthLink m.SenderID,
          .Send m.SenderID (.StartNoReg link)], false⟩
    else
      match env.token with
      | none => ⟨[.IsAuth m.SenderID, .GetToken m.SenderID, .SendError m.SenderID], false⟩
      | some token =>
        match env.userInfo with
        | none =>
          ⟨[.IsAuth m.SenderID, .GetToken m.SenderID, .GetUserInfo token,
            .SendError m.SenderID], false⟩
        | some (email, name) =>
          ⟨[.IsAuth m.SenderID, .GetToken m.SenderID, .GetUserInfo token,
            .Send m.SenderID (.StartReg email name)], false⟩

/-! ## The option menu -/

/-- The button texts `calendarMessages.CreateEvent*Button` of the option menu; their
values are declared outside the keyboards. -/
structure OptionLabels where
  CreateEventChangeStartTimeButton : String
  CreateEventChangeStopTimeButton : String
  CreateEventAddTitleButton : String
  CreateEventChangeTitleButton : String
  CreateEventAddDescButton : String
  CreateEventChangeDescButton : String
  CreateEventAddLocationButton : String
  CreateEventChangeLocationButton : String
  CreateEventAddUser : String
deriving DecidableEq, Repr

/-- The zero value `tb.InlineButton{}`. -/
def InlineButton.zero : InlineButton := { Text := "", Unique := .Unset, Data := "" }

/-- A button of the option menu: its text is also its data. -/
def optionButton (text : String) : InlineButton :=
  { Text := text, Unique := .HandleGroupText, Data := text }

/-- The assignment `btns[i][j] = b` on a slice of slices: `none` is the run-time panic
of an index out of range. -/
def putButton (btns : List (List InlineButton)) (i j : Nat) (b : InlineButton) :
    Option (List (List InlineButton)) :=
  match btns[i]? with
  | none => none
  | some row => if j < row.length then some (btns.set i (row.set j b)) else none

/-- The function `GetCreateOptionButtons` of `calendar_inline_keyboards.go`; `none` is
an index out of range. -/
def GetCreateOptionButtons (labels : OptionLabels) (msgs : Messages)
    (session : BotRedisSession) : Option (List (List InlineButton)) := do
  let btns : List (List InlineButton) := List.replicate 5 (List.replicate 2 InlineButton.zero)
  let idx := 0
  let (btns, idx) ←
    if session.Step ≠ StepCreateFrom then do
      let btns ← putButton btns (idx / 2) (idx % 2)
        (optionButton labels.CreateEventChangeStartTimeButton)
      pure (btns, idx + 1)
    else pure (btns, idx)
  let (btns, idx) ←
    if session.Step ≠ StepCreateTo then do
      let btns ← putButton btns (idx / 2) (idx % 2)
        (optionButton labels.CreateEventChangeStopTimeButton)
      pure (btns, idx + 1)
    else pure (btns, idx)
  let (btns, idx) ←
    if session.Step ≠ StepCreateTitle then do
      let btns ← putButton btns (idx / 2) (idx % 2)
        (if session.Event.Title = "" then optionButton labels.CreateEventAddTitleButton
         else optionButton labels.CreateEventChangeTitleButton)
      pure (btns, idx + 1)
    else pure (btns, idx)
  let (btns, idx) ←
    if session.Step ≠ StepCreateDesc then do
      let btns ← putButton btns (idx / 2) (idx % 2)
        (if session.Event.Description = "" then optionButton labels.CreateEventAddDescButton
         else optionButton labels.CreateEventChangeDescButton)
      pure (btns, idx + 1)
    else pure (btns, idx)
  let (btns, idx) ←
    if session.Step ≠ StepCreateLocation then do
      let btns ← putButton btns (idx / 2) (idx % 2)
        (if session.Event.Location.Description = "" then
          optionButton labels.CreateEventAddLocationButton
         else optionButton labels.CreateEventChangeLocationButton)
      pure (btns, idx + 1)
    else pure (btns, idx)
  let (btns, idx) ←
    if session.Step ≠ StepCreateUser then do
      let btns ← putButton btns (idx / 2) (idx % 2) (optionButton labels.CreateEventAddUser)
      pure (btns, idx + 1)
    else pure (btns, idx)
  let btns ←
    if !session.Event.FullDay then
      putButton btns (idx / 2) (idx % 2) (optionButton msgs.CreateFullDay)
    else pure btns
  putButton btns 4 0 (optionButton msgs.CreateCancelText)

/-- The option buttons of the menu as the specification lists them: one per wizard
field whose step is not the current step, in the order start, end, title, description,
location, attendee, and then the full-day button when the draft is not full-day. -/
def optionButtons (labels : OptionLabels) (msgs : Messages) (session : BotRedisSession) :
    List InlineButton :=
  (if session.Step ≠ StepCreateFrom then
    [optionButton labels.CreateEventChangeStartTimeButton] else []) ++
  (if session.Step ≠ StepCreateTo then
    [optionButton labels.CreateEventChangeStopTimeButton] else []) ++
  (if session.Step ≠ StepCreateTitle then
    [if session.Event.Title = "" then optionButton labels.CreateEventAddTitleButton
     else optionButton labels.CreateEventChangeTitleButton] else []) ++
  (if session.Step ≠ StepCreateDesc then
    [if session.Event.Description = "" then optionButton labels.CreateEventAddDescButton
     else optionButton labels.CreateEventChangeDescButton] else []) ++
  (if session.Step ≠ StepCreateLocation then
    [if session.Event.Location.Description = "" then
      optionButton labels.CreateEventAddLocationButton
     else optionButton labels.CreateEventChangeLocationButton] else []) ++
  (if session.Step ≠ StepCreateUser then
    [optionButton labels.CreateEventAddUser] else []) ++
  (if session.Event.FullDay = false then [optionButton msgs.CreateFullDay] else [])

/-- Sample texts of the option menu. -/
def sampleLabels : OptionLabels :=
  { CreateEventChangeStartTimeButton := "start", CreateEventChangeStopTimeButton := "end",
    CreateEventAddTitleButton := "title+", CreateEventChangeTitleButton := "title",
    CreateEventAddDescButton := "desc+", CreateEventChangeDescButton := "desc",
    CreateEventAddLocationButton := "place+", CreateEventChangeLocationButton := "place",
    CreateEventAddUser := "guest+" }

/-! ## The shared key-value store -/

/-- A value of the one key-value store both kinds of entry live in: the JSON text of a
session, written by `setSession`, or a calendar identifier, written by
`EventShowMoreInlineKeyboard`. -/
inductive Blob where
  | session (s : BotRedisSession)
  | text (v : String)
deriving DecidableEq, Repr

/-- The key-value store by its string keys. -/
abbrev Redis := String → Option Blob

/-- The key of a user's session, `strconv.Itoa(user.ID)`. -/
def userKey (uid : Int) : String := toString uid

/-- The package `encoding/json` on sessions: the text `json.Marshal` gives for a
session, and what `json.Unmarshal` makes of a text that is no such text (`none` is an
error). -/
structure Json where
  marshal : BotRedisSession → String
  unmarshalText : String → Option BotRedisSession

/-- The key-value store after one external call. -/
def redisEffect (r : Redis) : Effect → Redis
  | .SetSession uid s .ok => fun k => if k = userKey uid then some (.session s) else r k
  | .SetCorrelation token cal true => fun k => if k = token then some (.text cal) else r k
  | _ => r

/-- The key-value store after the external calls of a trace. -/
def redisTrace (r : Redis) (t : List Effect) : Redis :=
  t.foldl redisEffect r

/-- The function `getSession` on the shared store: its external calls, the session
pointer it returns and whether the error it returns is non-nil. -/
def getSessionShared (json : Json) (env : Env) (r : Redis) (uid : Int) :
    List Effect × Option BotRedisSession × Bool :=
  match (if env.getErr then none else r (userKey uid)) with
  | none =>
    let (t, ok) := setSession env.defaultSet newSession uid
    if ok then (.Get uid :: t, some newSession, false)
    else (.Get uid :: t ++ [.Send uid .RedisSessionNotFound], none, env.notifyErr)
  | some (.session session) =>
    if env.unmarshalErr then
      ([.Get uid, .Send uid .RedisSessionNotFound], none, env.notifyErr)
    else ([.Get uid], some session, false)
  | some (.text v) =>
    match json.unmarshalText v with
    | none => ([.Get uid, .Send uid .RedisSessionNotFound], none, env.notifyErr)
    | some session => ([.Get uid], some session, false)

/-- What `redisDB.Get(c.Data)` of `getEventByIdForCallback` reads on the shared store
for an event token. -/
def lookupCalendar (json : Json) (r : Redis) (token : String) : Option String :=
  match r token with
  | none => none
  | some (.text v) => some v
  | some (.session s) => some (json.marshal s)

/-- The session entries of the shared store, where every user key holds a session or
nothing. -/
def sessionEntries (r : Redis) : Store := fun uid =>
  match r (userKey uid) with
  | some (.session s) => some s
  | _ => none

/-- A sample of `encoding/json`: a session is written as an object, and a calendar
identifier is not the text of a session. -/
def sampleJson : Json := { marshal := fun _ => "{}", unmarshalText := fun _ => none }

/-- A shared store whose only entry is the sample session, under user 1. -/
def sampleRedis : Redis := fun k => if k = "1" then some (.session sampleSession) else none

/-- A sample event whose identifier is the decimal text of the user ID 1. -/
def sampleClash : Event := { sampleEvent with Uid := "1" }

/-! ## The handlers on the shared store -/

/-- An inbound update of one of the eleven handlers `InitHandlers` registers: the four
commands, a text message, and a press on an expand, collapse, yes, no, cancel or create
button. -/
inductive Inbound where
  | today (m : Message)
  | next (m : Message)
  | date (m : Message)
  | create (m : Message)
  | text (m : Message)
  | showMore (c : Callback)
  | showLess (c : Callback)
  | alertYes (c : Callback)
  | alertNo (c : Callback)
  | cancelCreate (c : Callback)
  | createEvent (c : Callback)
deriving DecidableEq, Repr

/-- The user whose session key the handler of an inbound update may read and write. -/
def Inbound.user : Inbound → Int
  | .today m => m.SenderID
  | .next m => m.SenderID
  | .date m => m.SenderID
  | .create m => m.SenderID
  | .text m => m.SenderID
  | .showMore c => c.SenderID
  | .showLess c => c.SenderID
  | .alertYes c => c.SenderID
  | .alertNo c => c.SenderID
  | .cancelCreate c => c.SenderID
  | .createEvent c => c.SenderID

/-- The handler `InitHandlers` registers for an inbound update, on what it reads of the
store: the session entries and the calendar identifiers by token. -/
def dispatch (cmds : Commands) (msgs : Messages) (env : Env) (st : Store) (cs : CorrStore) :
    Inbound → Result
  | .today m => HandleToday msgs env m
  | .next m => HandleNext msgs env m
  | .date m => HandleDate msgs env st m
  | .create m => HandleCreate env st m
  | .text m => HandleText msgs env st m
  | .showMore c => HandleShowMore msgs env cs c
  | .showLess c => HandleShowLess msgs env cs c
  | .alertYes c => HandleAlertYes cmds msgs env st c
  | .alertNo c => HandleAlertNo c
  | .cancelCreate c => HandleCancelCreateEvent env st c
  | .createEvent c => HandleCreateEvent env st c

/-- The session entries `getSession` finds in the shared store: under a user key, the
session of a session text, and for any other text what `json.Unmarshal` makes of it
(the default session stands in where it fails, see `envView`). -/
def sessionView (json : Json) (r : Redis) : Store := fun uid =>
  match r (userKey uid) with
  | none => none
  | some (.session s) => some s
  | some (.text v) => some ((json.unmarshalText v).getD newSession)

/-- The outcomes of the external calls as `getSession` meets them on the shared store
for a user: when the user key holds a text that is no session text, whether
`json.Unmarshal` fails is decided by that text. -/
def envView (json : Json) (env : Env) (r : Redis) (uid : Int) : Env :=
  match r (userKey uid) with
  | some (.text v) => { env with unmarshalErr := (json.unmarshalText v).isNone }
  | _ => env

/-- The handler of an inbound update run on the shared store.  A handler calls
`getSession` for the user of the update only, and for that user `getSession` on the two
views is `getSessionShared` on the store (`getSession_view`). -/
def handleShared (json : Json) (cmds : Commands) (msgs : Messages) (env : Env) (r : Redis)
    (u : Inbound) : Result :=
  dispatch cmds msgs (envView json env r u.user) (sessionView json r) (lookupCalendar json r) u

/-- The shared store after a list of inbound updates, each with the outcomes of its
external calls, handled in order. -/
def runShared (json : Json) (cmds : Commands) (msgs : Messages) (r : Redis) :
    List (Env × Inbound) → Redis
  | [] => r
  | (env, u) :: rest =>
    runShared json cmds msgs (redisTrace r (handleShared json cmds msgs env r u).trace) rest

/-- The shared store with no entry. -/
def emptyRedis : Redis := fun _ => none

/-- The events the calendar service hands out in a handler run. -/
def envEvents (env : Env) : List Event :=
  (match env.events with
    | some (some events) => events
    | _ => []) ++
  (match env.eventsToday with
    | some (some events) => events
    | _ => []) ++
  (match env.closest with
    | some (some event) => [event]
    | _ => []) ++
  (match env.eventById with
    | some event => [event]
    | none => [])

/-- An event whose correlation entry cannot be read as a session: its `Uid` is the key
of no user, or its calendar identifier is not the text of a session. -/
def Event.Harmless (json : Json) (event : Event) : Prop :=
  (∀ uid : Int, event.Uid ≠ userKey uid) ∨ json.unmarshalText event.Calendar.UID = none

/-- The calendar service hands out only harmless events in a handler run. -/
def HarmlessEvents (json : Json) (env : Env) : Prop :=
  ∀ event ∈ envEvents env, event.Harmless json

/-- The correlation entries written in a trace, in order: token and calendar
identifier. -/
def corrWrites : List Effect → List (String × String)
  | [] => []
  | .SetCorrelation token cal _ :: t => (token, cal) :: corrWrites t
  | _ :: t => corrWrites t

/-- The sessions `getSession` can find in a shared store satisfy a property: every
session text holds a session with the property, and no user key holds a text that is
read as a session. -/
def RedisInv (P : BotRedisSession → Prop) (json : Json) (r : Redis) : Prop :=
  (∀ key s, r key = some (.session s) → P s) ∧
  (∀ uid v, r (userKey uid) = some (.text v) → json.unmarshalText v = none)

/-- A sample dialog of user 1 in a private chat on the shared store: `/today` with one
event listed, `/date`, `/create`, a start date and the full-day label. -/
def sampleRun : List (Env × Inbound) :=
  [({ sampleEnv with eventsToday := some (some [sampleEvent]) },
      .today ⟨1, 5, true, "/today"⟩),
   (sampleEnv, .date ⟨1, 5, true, "/date"⟩),
   (sampleEnv, .create ⟨1, 5, true, "/create"⟩),
   (sampleEnv, .text ⟨1, 5, true, "tomorrow"⟩),
   (sampleEnv, .text ⟨1, 5, true, "day"⟩)]

/-! ## Theorems -/

/-! ### Traces of `handleCreateText` -/

theorem savedSessions_append (a b : List Effect) :
    savedSessions (a ++ b) = savedSessions a ++ savedSessions b := by
  induction a with
  | nil => rfl
  | cons e a ih => cases e <;> simp [savedSessions, ih]

theorem parseCalls_append (a b : List Effect) :
    parseCalls (a ++ b) = parseCalls a ++ parseCalls b := by
  induction a with
  | nil => rfl
  | cons e a ih => cases e <;> simp [parseCalls, ih]

theorem deletedRefs_append (a b : List Effect) :
    deletedRefs (a ++ b) = deletedRefs a ++ deletedRefs b := by
  induction a with
  | nil => rfl
  | cons e a ih => cases e <;> simp [deletedRefs, ih]

theorem savedSessions_resetEffects (s : BotRedisSession) :
    savedSessions (resetEffects s) = [] := by
  unfold resetEffects; split <;> rfl

theorem parseCalls_resetEffects (s : BotRedisSession) :
    parseCalls (resetEffects s) = [] := by
  unfold resetEffects; split <;> rfl

theorem savedSessions_setSession (r : SetResult) (s : BotRedisSession) (uid : Int) :
    savedSessions (setSession r s uid).1 = [s] := by
  cases r <;> rfl

theorem parseCalls_setSession (r : SetResult) (s : BotRedisSession) (uid : Int) :
    parseCalls (setSession r s uid).1 = [] := by
  cases r <;> rfl

/-- The run of `handleCreateText` when the switch is left and the draft prompt is
delivered: the calls of the switch, the retired prompt, the new prompt, the save, and
the follow-up question if any. -/
theorem handleCreateText_left (msgs : Messages) (env : Env) (m : Message)
    (session s1 : BotRedisSession) (t : List Effect) (sig : String × Int)
    (hc : m.Text ≠ msgs.CreateCancelText)
    (hsw : createSwitch msgs env m session = .left t s1) (hsend : env.sendRes = some sig) :
    ∃ rest, (handleCreateText msgs env m session).trace =
      t ++ resetEffects s1 ++
        [.Send m.ChatID (.Draft s1.Event (CreateEventButtons msgs s1.Event))] ++
        (setSession env.setRes { s1 with InfoMsg := InitCustomEditable sig.1 sig.2 }
          m.SenderID).1 ++ rest ∧
      savedSessions rest = [] ∧ parseCalls rest = [] := by
  have hc' : ¬ msgs.CreateCancelText = m.Text := fun e => hc e.symm
  simp only [handleCreateText, hc', if_false, hsw, hsend]
  split
  · exact ⟨[], by simp, rfl, rfl⟩
  · split
    · exact ⟨_, rfl, rfl, rfl⟩
    · split
      · exact ⟨_, rfl, rfl, rfl⟩
      · exact ⟨[], by simp, rfl, rfl⟩

/-- What `handleCreateText` saves when the switch is left and the draft prompt is
delivered: the session of the switch with the reference of the new prompt. -/
theorem savedSessions_handleCreateText_left (msgs : Messages) (env : Env) (m : Message)
    (session s1 : BotRedisSession) (t : List Effect) (sig : String × Int)
    (hc : m.Text ≠ msgs.CreateCancelText)
    (hsw : createSwitch msgs env m session = .left t s1) (hsend : env.sendRes = some sig) :
    savedSessions (handleCreateText msgs env m session).trace =
      savedSessions t ++ [{ s1 with InfoMsg := InitCustomEditable sig.1 sig.2 }] := by
  obtain ⟨rest, htr, hs, _⟩ := handleCreateText_left msgs env m session s1 t sig hc hsw hsend
  simp [htr, savedSessions_append, savedSessions_resetEffects, savedSessions_setSession, hs,
    savedSessions]

/-- The resolver calls of `handleCreateText` when the switch is left and the draft
prompt is delivered are those of the switch. -/
theorem parseCalls_handleCreateText_left (msgs : Messages) (env : Env) (m : Message)
    (session s1 : BotRedisSession) (t : List Effect) (sig : String × Int)
    (hc : m.Text ≠ msgs.CreateCancelText)
    (hsw : createSwitch msgs env m session = .left t s1) (hsend : env.sendRes = some sig) :
    parseCalls (handleCreateText msgs env m session).trace = parseCalls t := by
  obtain ⟨rest, htr, _, hp⟩ := handleCreateText_left msgs env m session s1 t sig hc hsw hsend
  simp [htr, parseCalls_append, parseCalls_resetEffects, parseCalls_setSession, hp,
    parseCalls]

/-- The switch at `StepCreateTo` on a duration label. -/
theorem createSwitch_duration (msgs : Messages) (env : Env) (m : Message)
    (session : BotRedisSession) (label : String) (d : Duration) (fullDay : Bool)
    (hl : msgs.LabelsDistinct) (hstep : session.Step = StepCreateTo)
    (hmem : (label, d, fullDay) ∈ durationShortcuts msgs) (htext : m.Text = label) :
    createSwitch msgs env m session = .left [] (durationCase session d fullDay) := by
  simp only [Messages.LabelsDistinct, List.nodup_cons, List.mem_cons, List.mem_singleton,
    not_or, List.not_mem_nil, not_false_eq_true, List.nodup_nil, and_true] at hl
  obtain ⟨-, ⟨a2, a3, a4, a5, a6, a7⟩, ⟨b3, b4, b5, b6, b7⟩,
    ⟨d4, d5, d6, d7⟩, ⟨e5, e6, e7⟩, ⟨f6, f7⟩, g7⟩ := hl
  simp only [durationShortcuts, List.mem_cons, Prod.mk.injEq, List.mem_singleton,
    List.not_mem_nil, or_false] at hmem
  unfold createSwitch
  rw [hstep]
  rcases hmem with ⟨rfl, rfl, rfl⟩ | ⟨rfl, rfl, rfl⟩ | ⟨rfl, rfl, rfl⟩ | ⟨rfl, rfl, rfl⟩ |
      ⟨rfl, rfl, rfl⟩ | ⟨rfl, rfl, rfl⟩ | ⟨rfl, rfl, rfl⟩ <;>
    simp only [htext, if_true, if_false, Ne.symm a2, Ne.symm a3, Ne.symm a4, Ne.symm a5,
      Ne.symm a6, Ne.symm a7, Ne.symm b3, Ne.symm b4, Ne.symm b5, Ne.symm b6, Ne.symm b7,
      Ne.symm d4, Ne.symm d5, Ne.symm d6, Ne.symm d7, Ne.symm e5, Ne.symm e6, Ne.symm e7,
      Ne.symm f6, Ne.symm f7, Ne.symm g7]

theorem mem_parseCalls (l : List Effect) (text : String) (r : Option Time) :
    Effect.ParseDate text r ∈ l ↔ (text, r) ∈ parseCalls l := by
  induction l with
  | nil => simp [parseCalls]
  | cons e l ih => cases e <;> simp [parseCalls, ih]

/-- The resolver calls of `handleCreateText`, whatever the outcomes of its external
calls: none on the cancel keyword, those of the switch otherwise. -/
theorem parseCalls_handleCreateText (msgs : Messages) (env : Env) (m : Message)
    (session : BotRedisSession) :
    parseCalls (handleCreateText msgs env m session).trace =
      if msgs.CreateCancelText = m.Text then []
      else match createSwitch msgs env m session with
        | .returned t => parseCalls t
        | .left t _ => parseCalls t := by
  unfold handleCreateText
  split
  · cases hr : env.setRes <;>
      simp [setSession, parseCalls_append, parseCalls_resetEffects, parseCalls]
  · cases hsw : createSwitch msgs env m session with
    | returned t => rfl
    | left t s1 =>
      cases hs : env.sendRes with
      | none => simp [parseCalls_append, parseCalls_resetEffects, parseCalls]
      | some sig =>
        cases hr : env.setRes <;>
          simp only [setSession] <;> split_ifs <;>
          simp [parseCalls_append, parseCalls_resetEffects, parseCalls]

/-- At `StepCreateFrom`, and at `StepCreateTo` on a text that is no duration label, the
switch is the date branch. -/
theorem createSwitch_parse (msgs : Messages) (env : Env) (m : Message)
    (session : BotRedisSession)
    (hstep : session.Step = StepCreateFrom ∨
      (session.Step = StepCreateTo ∧ m.Text ∉ (durationShortcuts msgs).map Prod.fst)) :
    ∃ k, createSwitch msgs env m session = parseOrReturn env m k := by
  rcases hstep with h | ⟨h, hn⟩
  · exact ⟨_, by unfold createSwitch; rw [h]⟩
  · simp only [durationShortcuts, List.map_cons, List.map_nil, List.mem_cons,
      List.mem_singleton, List.not_mem_nil, or_false, not_or] at hn
    obtain ⟨n1, n2, n3, n4, n5, n6, n7⟩ := hn
    refine ⟨fun d => { (if session.Event.Title = "" then { session with Step := StepCreateTitle }
        else session) with Event := { (if session.Event.Title = "" then
          { session with Step := StepCreateTitle } else session).Event with From := d } }, ?_⟩
    unfold createSwitch; rw [h]; simp only [n1, n2, n3, n4, n5, n6, n7, if_false]

/-- C1: on the cancel keyword `handleCreateText` passes to `setSession` exactly one
session, the loaded one with `IsCreate = false`, `Step = StepCreateInit`, the empty
event and the empty prompt reference; it never calls the date resolver, it does not
panic, and the whole run is the same whatever step the session was at. -/
theorem handleCreateText_cancel (msgs : Messages) (env : Env) (m : Message)
    (session : BotRedisSession) (h : m.Text = msgs.CreateCancelText) :
    savedSessions (handleCreateText msgs env m session).trace =
        [{ IsDate := session.IsDate, IsCreate := false, Step := StepCreateInit,
           Event := Event.empty, InfoMsg := InitCustomEditable "" 0 }] ∧
      parseCalls (handleCreateText msgs env m session).trace = [] ∧
      (handleCreateText msgs env m session).panicked = false ∧
      ∀ step : Step, handleCreateText msgs env m { session with Step := step } =
        handleCreateText msgs env m session := by
  have hs : ∀ step : Step, resetSession { session with Step := step } = resetSession session :=
    fun _ => rfl
  refine ⟨?_, ?_, ?_, ?_⟩
  · cases hr : env.setRes <;>
      by_cases hc : session.InfoMsg.ChatID = 0 <;>
      simp [handleCreateText, h, setSession, hr, resetEffects, hc, savedSessions, resetSession]
  · cases hr : env.setRes <;>
      by_cases hc : session.InfoMsg.ChatID = 0 <;>
      simp [handleCreateText, h, setSession, hr, resetEffects, hc, parseCalls]
  · cases hr : env.setRes <;> simp [handleCreateText, h, setSession, hr]
  · intro step
    simp [handleCreateText, h, hs, resetEffects]

theorem handleCreateText_cancel_witness :
    savedSessions (handleCreateText sampleMessages sampleEnv ⟨1, 5, true, "cancel"⟩
        { sampleSession with Step := StepCreateUser }).trace =
      [{ IsDate := false, IsCreate := false, Step := StepCreateInit,
         Event := Event.empty, InfoMsg := InitCustomEditable "" 0 }] :=
  (handleCreateText_cancel sampleMessages sampleEnv ⟨1, 5, true, "cancel"⟩
    { sampleSession with Step := StepCreateUser } (by decide)).1

/-- C2: at `StepCreateFrom`, for a text other than the cancel keyword that the resolver
resolves to a non-zero instant `d`, and a draft prompt that is delivered,
`handleCreateText` passes to `setSession` exactly one session: its `From` is `d`, its
`To` is the loaded one, and its step is `StepCreateTo` when the loaded `To` is zero and
still `StepCreateFrom` when it is not. -/
theorem handleCreateText_from (msgs : Messages) (env : Env) (m : Message)
    (session : BotRedisSession) (d : Time) (sig : String × Int)
    (hstep : session.Step = StepCreateFrom) (hcancel : m.Text ≠ msgs.CreateCancelText)
    (hparse : env.parse = some d) (hd : d.IsZero = false) (hsend : env.sendRes = some sig) :
    ∃ s', savedSessions (handleCreateText msgs env m session).trace = [s'] ∧
      s'.Event.From = d ∧ s'.Event.To = session.Event.To ∧
      (session.Event.To.IsZero = true → s'.Step = StepCreateTo) ∧
      (session.Event.To.IsZero = false → s'.Step = StepCreateFrom) := by
  obtain ⟨s1, hsw, h1, h2, h3, h4⟩ : ∃ s1, createSwitch msgs env m session =
      .left [.ParseDate m.Text (some d)] s1 ∧ s1.Event.From = d ∧
      s1.Event.To = session.Event.To ∧
      (session.Event.To.IsZero = true → s1.Step = StepCreateTo) ∧
      (session.Event.To.IsZero = false → s1.Step = StepCreateFrom) := by
    by_cases hto : session.Event.To.IsZero = true
    · exact ⟨_, by simp [createSwitch, hstep, parseOrReturn, hparse, hd, ParseDate]; rfl,
        by simp [hto], by simp [hto], by simp [hto], by simp [hto]⟩
    · exact ⟨_, by simp [createSwitch, hstep, parseOrReturn, hparse, hd, ParseDate]; rfl,
        by simp [hto], by simp [hto], by simp [hto], by simp [hto, hstep]⟩
  refine ⟨_, savedSessions_handleCreateText_left msgs env m session s1 _ sig hcancel hsw hsend,
    h1, h2, h3, h4⟩

theorem handleCreateText_from_witness :
    ∃ s', savedSessions (handleCreateText sampleMessages sampleEnv ⟨1, 5, true, "tomorrow"⟩
        sampleSession).trace = [s'] ∧
      s'.Event.From = ⟨1000⟩ ∧ s'.Event.To = sampleSession.Event.To ∧
      (sampleSession.Event.To.IsZero = true → s'.Step = StepCreateTo) ∧
      (sampleSession.Event.To.IsZero = false → s'.Step = StepCreateFrom) :=
  handleCreateText_from sampleMessages sampleEnv ⟨1, 5, true, "tomorrow"⟩ sampleSession
    ⟨1000⟩ ("7", 5) rfl (by decide) rfl rfl rfl

/-- C3: at `StepCreateTo`, for each of the seven duration labels with its duration `d`,
and a draft prompt that is delivered, `handleCreateText` passes to `setSession` exactly
one session: its `To` is the loaded `From` plus `d`, its `From` is the loaded one, its
`FullDay` is true for the full-day label and the loaded flag for the other six, its
step is `StepCreateTitle` when the title is empty and the loaded step when it is not;
the resolver is not called. -/
theorem handleCreateText_duration (msgs : Messages) (env : Env) (m : Message)
    (session : BotRedisSession) (label : String) (d : Duration) (fullDay : Bool)
    (sig : String × Int) (hl : msgs.LabelsDistinct) (hstep : session.Step = StepCreateTo)
    (hmem : (label, d, fullDay) ∈ durationShortcuts msgs) (htext : m.Text = label)
    (hsend : env.sendRes = some sig) :
    ∃ s', savedSessions (handleCreateText msgs env m session).trace = [s'] ∧
      s'.Event.To = session.Event.From.Add d ∧
      s'.Event.From = session.Event.From ∧
      s'.Event.FullDay = (if fullDay then true else session.Event.FullDay) ∧
      s'.Step = (if session.Event.Title = "" then StepCreateTitle else session.Step) ∧
      parseCalls (handleCreateText msgs env m session).trace = [] := by
  have hsw := createSwitch_duration msgs env m session label d fullDay hl hstep hmem htext
  have hc : m.Text ≠ msgs.CreateCancelText := by
    intro e
    have hin : label ∈ (durationShortcuts msgs).map Prod.fst := List.mem_map.2 ⟨_, hmem, rfl⟩
    have hnd := hl
    simp only [Messages.LabelsDistinct, List.nodup_cons] at hnd
    apply hnd.1
    rw [← e, htext]
    simpa [durationShortcuts] using hin
  refine ⟨_, savedSessions_handleCreateText_left msgs env m session _ _ sig hc hsw hsend,
    ?_, ?_, ?_, ?_, ?_⟩
  · cases fullDay <;> by_cases ht : session.Event.Title = "" <;> simp [durationCase, ht]
  · cases fullDay <;> by_cases ht : session.Event.Title = "" <;> simp [durationCase, ht]
  · cases fullDay <;> by_cases ht : session.Event.Title = "" <;> simp [durationCase, ht]
  · cases fullDay <;> by_cases ht : session.Event.Title = "" <;> simp [durationCase, ht]
  · rw [parseCalls_handleCreateText_left msgs env m session _ _ sig hc hsw hsend]; rfl

theorem handleCreateText_duration_witness :
    ∃ s', savedSessions (handleCreateText sampleMessages sampleEnv ⟨1, 5, true, "day"⟩
        { sampleSession with Step := StepCreateTo }).trace = [s'] ∧
      s'.Event.To = sampleSession.Event.From.Add (24 * Hour) ∧
      s'.Event.From = sampleSession.Event.From ∧
      s'.Event.FullDay = (if true then true else sampleSession.Event.FullDay) ∧
      s'.Step = (if sampleSession.Event.Title = "" then StepCreateTitle else StepCreateTo) ∧
      parseCalls (handleCreateText sampleMessages sampleEnv ⟨1, 5, true, "day"⟩
        { sampleSession with Step := StepCreateTo }).trace = [] :=
  handleCreateText_duration sampleMessages sampleEnv ⟨1, 5, true, "day"⟩
    { sampleSession with Step := StepCreateTo } "day" (24 * Hour) true ("7", 5)
    (by decide) rfl (by simp [durationShortcuts, sampleMessages]) rfl rfl

/-- C4: at `StepCreateFrom`, or at `StepCreateTo` on a text that is no duration label,
when the resolver call of the run returns nil or the zero instant, `handleCreateText`
calls `setSession` and `bot.Delete` not at all and leaves every store as it is; on the
zero instant its calls are the resolver and the "date not parsed" prompt, on nil they
are the resolver and the error notice. -/
theorem handleCreateText_unresolved (msgs : Messages) (env : Env) (m : Message)
    (session : BotRedisSession)
    (hstep : session.Step = StepCreateFrom ∨
      (session.Step = StepCreateTo ∧ m.Text ∉ (durationShortcuts msgs).map Prod.fst))
    (hfail : Effect.ParseDate m.Text none ∈ (handleCreateText msgs env m session).trace ∨
      Effect.ParseDate m.Text (some Time.zero) ∈ (handleCreateText msgs env m session).trace) :
    savedSessions (handleCreateText msgs env m session).trace = [] ∧
      deletedRefs (handleCreateText msgs env m session).trace = [] ∧
      (∀ st : Store, applyTrace st (handleCreateText msgs env m session).trace = st) ∧
      (handleCreateText msgs env m session).panicked = false ∧
      (Effect.ParseDate m.Text (some Time.zero) ∈ (handleCreateText msgs env m session).trace →
        (handleCreateText msgs env m session).trace =
          [.ParseDate m.Text (some Time.zero), .Send m.ChatID .DateNotParsed]) ∧
      (Effect.ParseDate m.Text none ∈ (handleCreateText msgs env m session).trace →
        (handleCreateText msgs env m session).trace =
          [.ParseDate m.Text none, .SendError m.ChatID]) := by
  have hcalls := parseCalls_handleCreateText msgs env m session
  rw [mem_parseCalls, mem_parseCalls] at hfail
  by_cases hc : msgs.CreateCancelText = m.Text
  · rw [if_pos hc] at hcalls
    simp [hcalls] at hfail
  · rw [if_neg hc] at hcalls
    obtain ⟨k, hk⟩ := createSwitch_parse msgs env m session hstep
    cases hp : env.parse with
    | none =>
      have hsw : createSwitch msgs env m session =
          .returned [.ParseDate m.Text none, .SendError m.ChatID] := by
        simp [hk, parseOrReturn, hp, ParseDate]
      have htr : (handleCreateText msgs env m session).trace =
          [.ParseDate m.Text none, .SendError m.ChatID] := by
        simp [handleCreateText, hc, hsw]
      have hpn : (handleCreateText msgs env m session).panicked = false := by
        simp [handleCreateText, hc, hsw]
      rw [htr]
      exact ⟨rfl, rfl, fun _ => rfl, hpn, by simp, by simp⟩
    | some d =>
      by_cases hd : d.IsZero = true
      · have hz : d = Time.zero := by
          cases d with
          | mk n => simp [Time.IsZero] at hd; simp [Time.zero, hd]
        subst hz
        have hsw : createSwitch msgs env m session =
            .returned [.ParseDate m.Text (some Time.zero), .Send m.ChatID .DateNotParsed] := by
          simp [hk, parseOrReturn, hp, ParseDate, hd]
        have htr : (handleCreateText msgs env m session).trace =
            [.ParseDate m.Text (some Time.zero), .Send m.ChatID .DateNotParsed] := by
          simp [handleCreateText, hc, hsw]
        have hpn : (handleCreateText msgs env m session).panicked = false := by
          simp [handleCreateText, hc, hsw]
        rw [htr]
        exact ⟨rfl, rfl, fun _ => rfl, hpn, by simp, by simp⟩
      · have hsw : createSwitch msgs env m session =
            .left [.ParseDate m.Text (some d)] (k d) := by
          simp [hk, parseOrReturn, hp, ParseDate, hd]
        rw [hsw] at hcalls
        have hne : d ≠ Time.zero := fun e => hd (by rw [e]; rfl)
        simp [hcalls, parseCalls] at hfail
        exact absurd hfail.symm hne

theorem handleCreateText_unresolved_witness :
    savedSessions (handleCreateText sampleMessages { sampleEnv with parse := none }
        ⟨1, 5, true, "soon"⟩ sampleSession).trace = [] :=
  (handleCreateText_unresolved sampleMessages { sampleEnv with parse := none }
    ⟨1, 5, true, "soon"⟩ sampleSession (Or.inl rfl) (Or.inl (by decide))).1

/-- C6, as the code has it: the menu built by `CreateEventButtons` offers the create
action if and only if the draft's `From` and `To` are both non-zero; the title is not
looked at. -/
theorem CreateEventButtons_offersCreate (msgs : Messages) (event : Event) :
    offersCreate (CreateEventButtons msgs event) = true ↔
      event.From.IsZero = false ∧ event.To.IsZero = false := by
  cases hf : event.From.IsZero <;> cases ht : event.To.IsZero <;>
    simp [CreateEventButtons, offersCreate, hf, ht]

/-- C6 fails as stated: a draft with `From` and `To` set and an empty title is offered
the create action. -/
theorem CreateEventButtons_untitled_offersCreate :
    offersCreate (CreateEventButtons sampleMessages
        { Event.empty with From := ⟨1000⟩, To := ⟨2000⟩ }) = true ∧
      ({ Event.empty with From := ⟨1000⟩, To := ⟨2000⟩ } : Event).Title = "" := by
  decide

/-- The run of `getSession` for a user whose entry is read and deserialised. -/
theorem getSession_loaded (env : Env) (st : Store) (uid : Int) (session : BotRedisSession)
    (hget : env.getErr = false) (hun : env.unmarshalErr = false)
    (hst : st uid = some session) :
    getSession env st uid = ([.Get uid], some session, false) := by
  simp [getSession, hget, hun, hst]

/-- C5, as the code has it: `HandleCreateEvent` pressed by the owner validates nothing.
Whatever the draft, once the session is loaded and the token lookup succeeds it calls
`CreateEvent` exactly once, with `EventToEventInput` of the draft; when that call fails
it saves nothing, leaves the store as it is and sends the generic error notice; when it
succeeds it saves the reset session. -/
theorem HandleCreateEvent_no_validation (env : Env) (st : Store) (c : Callback)
    (session : BotRedisSession) (token : String)
    (howner : c.ReplyToSender = some c.SenderID) (hget : env.getErr = false)
    (hun : env.unmarshalErr = false) (hst : st c.SenderID = some session)
    (htok : env.token = some token) :
    createCalls (HandleCreateEvent env st c).trace =
        [(token, EventToEventInput env.uuid session.Event)] ∧
      (env.createOk = false →
        savedSessions (HandleCreateEvent env st c).trace = [] ∧
        applyTrace st (HandleCreateEvent env st c).trace = st ∧
        Effect.SendError c.ChatID ∈ (HandleCreateEvent env st c).trace) ∧
      (env.createOk = true →
        savedSessions (HandleCreateEvent env st c).trace = [resetSession session]) := by
  have hg := getSession_loaded env st c.SenderID session hget hun hst
  refine ⟨?_, ?_, ?_⟩
  · cases hco : env.createOk <;> cases hr : env.setRes <;>
      by_cases hi : session.InfoMsg.ChatID = 0 <;>
      simp [HandleCreateEvent, howner, hg, htok, hco, hr, setSession, resetEffects, hi,
        createCalls]
  · intro hco
    simp [HandleCreateEvent, howner, hg, htok, hco, savedSessions, applyTrace, applyEffect]
  · intro hco
    cases hr : env.setRes <;>
      by_cases hi : session.InfoMsg.ChatID = 0 <;>
      simp [HandleCreateEvent, howner, hg, htok, hco, hr, setSession, resetEffects, hi,
        savedSessions]

theorem HandleCreateEvent_no_validation_witness :
    createCalls (HandleCreateEvent sampleEnv sampleStore ⟨1, 5, true, some 1, "", "9", ""⟩).trace =
      [("tok", EventToEventInput sampleEnv.uuid sampleSession.Event)] :=
  (HandleCreateEvent_no_validation sampleEnv sampleStore ⟨1, 5, true, some 1, "", "9", ""⟩
    sampleSession "tok" rfl rfl rfl rfl rfl).1

/-- C5 fails as stated: on a session whose draft has `From` and `To` unset and an empty
title, `HandleCreateEvent` pressed by the owner does call `CreateEvent`, and it saves a
session whose step is no longer the stored one. -/
theorem HandleCreateEvent_incomplete_draft_created :
    sampleSession.Event.From.IsZero = true ∧ sampleSession.Event.To.IsZero = true ∧
      sampleSession.Event.Title = "" ∧
      createCalls (HandleCreateEvent sampleEnv sampleStore ⟨1, 5, true, some 1, "", "9", ""⟩).trace =
        [("tok", EventToEventInput "u-1" Event.empty)] ∧
      (applyTrace sampleStore
          (HandleCreateEvent sampleEnv sampleStore ⟨1, 5, true, some 1, "", "9", ""⟩).trace 1).map
        (fun s => s.Step) = some StepCreateInit ∧
      sampleSession.Step = StepCreateFrom := by
  decide

/-- C7: for every prior session of an authenticated user, when the session is loaded
and the token lookup succeeds `HandleCreate` passes to `setSession` exactly one session:
`IsCreate` is true, `IsDate` false, the step `StepCreateFrom`, and the draft is the empty
event but for its organizer, which is empty or the user's email and name with role
"required" and status "accepted". -/
theorem HandleCreate_fresh_draft (env : Env) (st : Store) (m : Message)
    (prior : BotRedisSession) (token : String)
    (hauth : env.auth = some true) (hget : env.getErr = false)
    (hun : env.unmarshalErr = false) (hst : st m.SenderID = some prior)
    (htok : env.token = some token) :
    ∃ s', savedSessions (HandleCreate env st m).trace = [s'] ∧
      s'.IsCreate = true ∧ s'.IsDate = false ∧ s'.Step = StepCreateFrom ∧
      s'.Event = { Event.empty with Organizer := s'.Event.Organizer } ∧
      s'.Event.From = Time.zero ∧ s'.Event.To = Time.zero ∧ s'.Event.FullDay = false ∧
      s'.Event.Title = "" ∧ s'.Event.Description = "" ∧
      s'.Event.Location.Description = "" ∧ s'.Event.Attendees = [] ∧
      (s'.Event.Organizer = AttendeeEvent.empty ∨
        ∃ email name, env.userInfo = some (email, name) ∧
          s'.Event.Organizer = ⟨email, name, RoleRequired, StatusAccepted⟩) := by
  have hg := getSession_loaded env st m.SenderID prior hget hun hst
  cases hu : env.userInfo with
  | none =>
    refine ⟨{ prior with IsDate := false, IsCreate := true, Event := Event.empty,
                         Step := StepCreateFrom }, ?_, rfl, rfl, rfl, rfl, rfl, rfl, rfl, rfl,
      rfl, rfl, rfl, Or.inl rfl⟩
    cases hr : env.setRes <;>
      simp [HandleCreate, AuthMiddleware, hauth, hg, htok, hu, hr, setSession, savedSessions]
  | some info =>
    obtain ⟨email, name⟩ := info
    refine ⟨{ prior with IsDate := false, IsCreate := true,
                         Event := { Event.empty with
                           Organizer := ⟨email, name, RoleRequired, StatusAccepted⟩ },
                         Step := StepCreateFrom }, ?_, rfl, rfl, rfl, rfl, rfl, rfl, rfl, rfl,
      rfl, rfl, rfl, Or.inr ⟨email, name, rfl, rfl⟩⟩
    cases hr : env.setRes <;>
      simp [HandleCreate, AuthMiddleware, hauth, hg, htok, hu, hr, setSession, savedSessions]

theorem HandleCreate_fresh_draft_witness :
    ∃ s', savedSessions (HandleCreate sampleEnv sampleStore ⟨1, 5, true, "/create"⟩).trace =
        [s'] ∧
      s'.IsCreate = true ∧ s'.IsDate = false ∧ s'.Step = StepCreateFrom ∧
      s'.Event = { Event.empty with Organizer := s'.Event.Organizer } ∧
      s'.Event.From = Time.zero ∧ s'.Event.To = Time.zero ∧ s'.Event.FullDay = false ∧
      s'.Event.Title = "" ∧ s'.Event.Description = "" ∧
      s'.Event.Location.Description = "" ∧ s'.Event.Attendees = [] ∧
      (s'.Event.Organizer = AttendeeEvent.empty ∨
        ∃ email name, sampleEnv.userInfo = some (email, name) ∧
          s'.Event.Organizer = ⟨email, name, RoleRequired, StatusAccepted⟩) :=
  HandleCreate_fresh_draft sampleEnv sampleStore ⟨1, 5, true, "/create"⟩ sampleSession "tok"
    rfl rfl rfl rfl rfl

/-! ### Sessions written by the handlers -/

theorem getSession_spec (env : Env) (st : Store) (uid : Int) :
    (∀ s' ∈ savedSessions (getSession env st uid).1, s' = newSession) ∧
      ∀ s, (getSession env st uid).2.1 = some s → Loaded st uid s := by
  unfold getSession Loaded
  cases env.getErr <;> cases hst : st uid <;> cases env.defaultSet <;>
    cases env.unmarshalErr <;> simp [setSession, savedSessions, hst]

theorem savedSessions_AuthMiddleware (env : Env) (uid chat : Int) :
    savedSessions (AuthMiddleware env uid chat).1 = [] := by
  unfold AuthMiddleware
  rcases env.auth with _ | _ | _ <;> rfl

theorem savedSessions_GroupMiddleware (msgs : Messages) (m : Message) :
    savedSessions (GroupMiddleware msgs m).1 = [] := by
  unfold GroupMiddleware
  split_ifs <;> rfl

theorem savedSessions_ParseDate (env : Env) (m : Message) :
    savedSessions (ParseDate env m) = [] := by
  unfold ParseDate
  cases env.parse <;> rfl

theorem savedSessions_sendShortEvents (msgs : Messages) (env : Env) (events : List Event)
    (isPrivate : Bool) (chat : Int) :
    savedSessions (sendShortEvents msgs env events isPrivate chat) = [] := by
  induction events with
  | nil => rfl
  | cons e rest ih =>
    have hk : savedSessions (EventShowMoreInlineKeyboard msgs env e).1 = [] := by
      unfold EventShowMoreInlineKeyboard
      split <;> rfl
    cases isPrivate <;>
      simp [sendShortEvents, savedSessions_append, ih, savedSessions, hk]

theorem savedSessions_parseOrReturn (env : Env) (m : Message) (k : Time → BotRedisSession) :
    match parseOrReturn env m k with
    | .returned t => savedSessions t = []
    | .left t _ => savedSessions t = [] := by
  unfold parseOrReturn
  cases hp : env.parse with
  | none => simp [savedSessions_ParseDate]
  | some d =>
    by_cases hd : d.IsZero = true <;>
      simp [hd, savedSessions_ParseDate, savedSessions_append, savedSessions]

/-- The switch of `handleCreateText` never calls `setSession`. -/
theorem savedSessions_createSwitch (msgs : Messages) (env : Env) (m : Message)
    (session : BotRedisSession) :
    match createSwitch msgs env m session with
    | .returned t => savedSessions t = []
    | .left t _ => savedSessions t = [] := by
  unfold createSwitch
  cases session.Step <;> simp only [] <;>
    first
    | exact savedSessions_parseOrReturn env m _
    | rfl
    | (split_ifs <;> first | rfl | exact savedSessions_parseOrReturn env m _)

/-- Every session `handleCreateText` passes to `setSession` comes from the one it was
given by the reset or by the switch. -/
theorem handleCreateText_saved (msgs : Messages) (env : Env) (m : Message)
    (s s' : BotRedisSession) (h : s' ∈ savedSessions (handleCreateText msgs env m s).trace) :
    Trans msgs s s' := by
  have hsw := savedSessions_createSwitch msgs env m s
  unfold handleCreateText at h
  split_ifs at h with hc
  · cases hr : env.setRes <;>
      simp [setSession, hr, savedSessions_append, savedSessions_resetEffects,
        savedSessions] at h <;>
      (subst h; exact Trans.reset s)
  · cases hcs : createSwitch msgs env m s with
    | returned t =>
      rw [hcs] at hsw h
      simp only at hsw h
      simp [hsw] at h
    | left t s1 =>
      rw [hcs] at hsw h
      simp only at hsw h
      cases hs : env.sendRes with
      | none =>
        simp [hs, savedSessions_append, savedSessions_resetEffects, savedSessions, hsw] at h
      | some sig =>
        have : s' = { s1 with InfoMsg := InitCustomEditable sig.1 sig.2 } := by
          cases hr : env.setRes <;>
            simp only [hs, setSession, hr] at h <;> split_ifs at h <;>
            simpa [savedSessions_append, savedSessions_resetEffects, savedSessions, hsw]
              using h
        subst this
        exact Trans.createText s s1 env m t _ hcs

/-- Every session `handleDateText` passes to `setSession` is the one it was given with
`IsDate` switched off. -/
theorem handleDateText_saved (msgs : Messages) (env : Env) (m : Message)
    (s s' : BotRedisSession) (h : s' ∈ savedSessions (handleDateText msgs env m s).trace) :
    Trans msgs s s' := by
  have : s' = { s with IsDate := false } := by
    unfold handleDateText at h
    have hp := savedSessions_ParseDate env m
    cases hr : env.setRes <;> cases hpar : env.parse <;> cases htok : env.token <;>
      rcases hev : env.events with _ | _ | _ <;>
      simp only [hr, hpar, htok, hev, setSession] at h <;> split_ifs at h <;>
      simp [savedSessions_append, savedSessions, hp, savedSessions_sendShortEvents] at h <;>
      exact h
  subst this
  exact Trans.dateText s

/-- The last steps of the proofs below: a saved session is one saved by `getSession` or
the transformed session. -/
theorem saved_cases (msgs : Messages) (st : Store) (uid : Int) (t : List Effect)
    (s0 s1 s' : BotRedisSession)
    (hsv : ∀ s' ∈ savedSessions t, s' = newSession)
    (hld : ∀ s, some s0 = some s → Loaded st uid s) (htr : Trans msgs s0 s1)
    (h : s' ∈ savedSessions t ∨ s' = s1) :
    s' = newSession ∨ ∃ s, Loaded st uid s ∧ Trans msgs s s' := by
  rcases h with h | h
  · exact Or.inl (hsv _ h)
  · subst h; exact Or.inr ⟨s0, hld _ rfl, htr⟩

theorem HandleDate_saved (msgs : Messages) (env : Env) (st : Store) (m : Message)
    (s' : BotRedisSession) (h : s' ∈ savedSessions (HandleDate msgs env st m).trace) :
    s' = newSession ∨ ∃ s, Loaded st m.SenderID s ∧ Trans msgs s s' := by
  obtain ⟨hsv, hld⟩ := getSession_spec env st m.SenderID
  have ha := savedSessions_AuthMiddleware env m.SenderID m.ChatID
  have hg := savedSessions_GroupMiddleware msgs m
  unfold HandleDate at h
  generalize AuthMiddleware env m.SenderID m.ChatID = a at h ha
  generalize GroupMiddleware msgs m = g at h hg
  generalize getSession env st m.SenderID = gs at h hsv hld
  obtain ⟨t1, isAuth⟩ := a
  obtain ⟨t2, isGroup⟩ := g
  obtain ⟨t3, os, e⟩ := gs
  simp only at ha hg hsv hld h
  cases isAuth <;> cases isGroup <;> cases e <;> cases os <;>
    simp [savedSessions_append, ha, hg] at h
  · exact Or.inl (hsv _ h)
  · split_ifs at h <;>
      simp [savedSessions_append, ha, hg, savedSessions_setSession, savedSessions] at h <;>
      exact saved_cases msgs st _ t3 _ _ s' hsv hld (Trans.date _) h
  · exact Or.inl (hsv _ h)
  · exact Or.inl (hsv _ h)

theorem HandleCreate_saved (msgs : Messages) (env : Env) (st : Store) (m : Message)
    (s' : BotRedisSession) (h : s' ∈ savedSessions (HandleCreate env st m).trace) :
    s' = newSession ∨ ∃ s, Loaded st m.SenderID s ∧ Trans msgs s s' := by
  obtain ⟨hsv, hld⟩ := getSession_spec env st m.SenderID
  have ha := savedSessions_AuthMiddleware env m.SenderID m.ChatID
  unfold HandleCreate at h
  generalize AuthMiddleware env m.SenderID m.ChatID = a at h ha
  generalize getSession env st m.SenderID = gs at h hsv hld
  obtain ⟨t1, isAuth⟩ := a
  obtain ⟨t3, os, e⟩ := gs
  simp only at ha hsv hld h
  cases isAuth <;> cases e <;> cases os <;>
    simp [savedSessions_append, ha, savedSessions] at h
  · exact Or.inl (hsv _ h)
  · cases htok : env.token with
    | none =>
      simp [htok, savedSessions_append, ha, savedSessions] at h
      exact Or.inl (hsv _ h)
    | some token =>
      rcases hu : env.userInfo with _ | ⟨email, name⟩ <;>
        simp only [htok, hu] at h <;> split_ifs at h <;>
        simp [savedSessions_append, ha, savedSessions_setSession, savedSessions] at h <;>
        exact saved_cases msgs st _ t3 _ _ s' hsv hld (Trans.create _ _) h
  · exact Or.inl (hsv _ h)
  · exact Or.inl (hsv _ h)

theorem HandleText_saved (msgs : Messages) (env : Env) (st : Store) (m : Message)
    (s' : BotRedisSession) (h : s' ∈ savedSessions (HandleText msgs env st m).trace) :
    s' = newSession ∨ ∃ s, Loaded st m.SenderID s ∧ Trans msgs s s' := by
  obtain ⟨hsv, hld⟩ := getSession_spec env st m.SenderID
  unfold HandleText at h
  generalize getSession env st m.SenderID = gs at h hsv hld
  obtain ⟨t3, os, e⟩ := gs
  simp only at hsv hld h
  cases e <;> cases os <;> simp only [] at h
  · exact Or.inl (hsv _ h)
  · rename_i s0
    split_ifs at h <;> simp [savedSessions_append, savedSessions] at h
    · rcases h with h | h
      · exact Or.inl (hsv _ h)
      · exact Or.inr ⟨s0, hld _ rfl, handleDateText_saved msgs env m s0 s' h⟩
    · rcases h with h | h
      · exact Or.inl (hsv _ h)
      · exact Or.inr ⟨s0, hld _ rfl, handleCreateText_saved msgs env m s0 s' h⟩
    · exact Or.inl (hsv _ h)
    · exact Or.inl (hsv _ h)
  · exact Or.inl (hsv _ h)
  · exact Or.inl (hsv _ h)

theorem HandleCancelCreateEvent_saved (msgs : Messages) (env : Env) (st : Store)
    (c : Callback) (s' : BotRedisSession)
    (h : s' ∈ savedSessions (HandleCancelCreateEvent env st c).trace) :
    s' = newSession ∨ ∃ s, Loaded st c.SenderID s ∧ Trans msgs s s' := by
  obtain ⟨hsv, hld⟩ := getSession_spec env st c.SenderID
  unfold HandleCancelCreateEvent at h
  generalize getSession env st c.SenderID = gs at h hsv hld
  obtain ⟨t3, os, e⟩ := gs
  simp only at hsv hld h
  cases hrt : c.ReplyToSender with
  | none => simp [hrt, savedSessions] at h
  | some owner =>
    simp only [hrt] at h
    split_ifs at h
    · simp [savedSessions] at h
    · cases e <;> cases os <;> simp only [] at h
      · simp [savedSessions_append, savedSessions] at h
        exact Or.inl (hsv _ h)
      · split_ifs at h <;>
          simp [savedSessions_append, savedSessions_resetEffects, savedSessions_setSession,
            savedSessions] at h <;>
          exact saved_cases msgs st _ t3 _ _ s' hsv hld (Trans.reset _) h
      · exact Or.inl (hsv _ h)
      · exact Or.inl (hsv _ h)

theorem HandleCreateEvent_saved (msgs : Messages) (env : Env) (st : Store)
    (c : Callback) (s' : BotRedisSession)
    (h : s' ∈ savedSessions (HandleCreateEvent env st c).trace) :
    s' = newSession ∨ ∃ s, Loaded st c.SenderID s ∧ Trans msgs s s' := by
  obtain ⟨hsv, hld⟩ := getSession_spec env st c.SenderID
  unfold HandleCreateEvent at h
  generalize getSession env st c.SenderID = gs at h hsv hld
  obtain ⟨t3, os, e⟩ := gs
  simp only at hsv hld h
  cases hrt : c.ReplyToSender with
  | none => simp [hrt, savedSessions] at h
  | some owner =>
    by_cases hown : c.SenderID = owner
    · cases e <;> cases os <;> cases htok : env.token <;> cases hco : env.createOk <;>
        simp [hrt, hown, htok, hco, savedSessions_append, savedSessions_resetEffects,
          savedSessions_setSession, savedSessions] at h <;>
        first
        | exact Or.inl (hsv _ h)
        | exact saved_cases msgs st _ t3 _ _ s' hsv hld (Trans.reset _) h
    · simp [hrt, hown, savedSessions] at h

theorem handle_saved (msgs : Messages) (env : Env) (st : Store) (u : Update)
    (s' : BotRedisSession) (h : s' ∈ savedSessions (handle msgs env st u).trace) :
    s' = newSession ∨ ∃ s, Loaded st u.user s ∧ Trans msgs s s' := by
  cases u with
  | date m => exact HandleDate_saved msgs env st m s' h
  | create m => exact HandleCreate_saved msgs env st m s' h
  | text m => exact HandleText_saved msgs env st m s' h
  | cancelCreate c => exact HandleCancelCreateEvent_saved msgs env st c s' h
  | createEvent c => exact HandleCreateEvent_saved msgs env st c s' h

/-- A property of sessions that holds of the default session and survives every
transformation a handler applies holds of every session a handler passes to
`setSession`, provided it holds of the stored session of the user. -/
theorem handle_preserves (msgs : Messages) (P : BotRedisSession → Prop)
    (h0 : P newSession) (htr : ∀ s s', P s → Trans msgs s s' → P s')
    (env : Env) (st : Store) (u : Update) (hst : ∀ s, st u.user = some s → P s)
    (s' : BotRedisSession) (h : s' ∈ savedSessions (handle msgs env st u).trace) : P s' := by
  rcases handle_saved msgs env st u s' h with rfl | ⟨s, hl, ht⟩
  · exact h0
  · rcases hl with rfl | hl
    · exact htr _ _ h0 ht
    · exact htr _ _ (hst s hl) ht

theorem parseOrReturn_left (env : Env) (m : Message) (k : Time → BotRedisSession)
    (t : List Effect) (s1 : BotRedisSession) (h : parseOrReturn env m k = .left t s1) :
    ∃ d, d.IsZero = false ∧ s1 = k d := by
  unfold parseOrReturn at h
  cases hp : env.parse with
  | none => simp [hp] at h
  | some d =>
    by_cases hd : d.IsZero = true
    · simp [hp, hd] at h
    · simp [hp, hd] at h
      exact ⟨d, by simpa using hd, h.2.symm⟩

/-- The sessions with which the switch of `handleCreateText` can be left. -/
theorem createSwitch_left_cases (msgs : Messages) (env : Env) (m : Message)
    (s s1 : BotRedisSession) (t : List Effect)
    (h : createSwitch msgs env m s = .left t s1) :
    (s.Step = StepCreateFrom ∧ ∃ d, d.IsZero = false ∧
        s1 = { s with Event := { s.Event with From := d },
                      Step := if s.Event.To.IsZero then StepCreateTo else s.Step }) ∨
      (s.Step = StepCreateTo ∧ ∃ d fullDay, s1 = durationCase s d fullDay ∧
        (fullDay = true → d = 24 * Hour)) ∨
      (s.Step = StepCreateTo ∧ ∃ d, d.IsZero = false ∧
        s1 = { s with Event := { s.Event with From := d },
                      Step := if s.Event.Title = "" then StepCreateTitle else s.Step }) ∨
      (s.Step = StepCreateTitle ∧ ∃ x, s1 = { s with Event := { s.Event with Title := x } }) ∨
      (s.Step ≠ StepCreateFrom ∧ s.Step ≠ StepCreateTo ∧ s1.Step = s.Step ∧
        s1.IsDate = s.IsDate ∧ s1.IsCreate = s.IsCreate ∧
        s1.Event.From = s.Event.From ∧ s1.Event.To = s.Event.To ∧
        s1.Event.FullDay = s.Event.FullDay ∧ s1.Event.Title = s.Event.Title) := by
  unfold createSwitch at h
  rcases hstep : s.Step <;> rw [hstep] at h <;> simp only [] at h
  · cases h
    exact Or.inr (Or.inr (Or.inr (Or.inr (by simp [hstep]))))
  · obtain ⟨d, hd, rfl⟩ := parseOrReturn_left env m _ t s1 h
    refine Or.inl ⟨rfl, d, hd, ?_⟩
    by_cases hto : s.Event.To.IsZero = true <;> simp [hto, hstep]
  · by_cases h1 : m.Text = msgs.CreateEventHalfHour
    · rw [if_pos h1] at h; cases h
      exact Or.inr (Or.inl ⟨rfl, _, false, rfl, by simp⟩)
    rw [if_neg h1] at h
    by_cases h2 : m.Text = msgs.CreateEventHour
    · rw [if_pos h2] at h; cases h
      exact Or.inr (Or.inl ⟨rfl, _, false, rfl, by simp⟩)
    rw [if_neg h2] at h
    by_cases h3 : m.Text = msgs.CreateEventHourAndHalf
    · rw [if_pos h3] at h; cases h
      exact Or.inr (Or.inl ⟨rfl, _, false, rfl, by simp⟩)
    rw [if_neg h3] at h
    by_cases h4 : m.Text = msgs.CreateEventTwoHours
    · rw [if_pos h4] at h; cases h
      exact Or.inr (Or.inl ⟨rfl, _, false, rfl, by simp⟩)
    rw [if_neg h4] at h
    by_cases h5 : m.Text = msgs.CreateEventFourHours
    · rw [if_pos h5] at h; cases h
      exact Or.inr (Or.inl ⟨rfl, _, false, rfl, by simp⟩)
    rw [if_neg h5] at h
    by_cases h6 : m.Text = msgs.CreateEventSixHours
    · rw [if_pos h6] at h; cases h
      exact Or.inr (Or.inl ⟨rfl, _, false, rfl, by simp⟩)
    rw [if_neg h6] at h
    by_cases h7 : m.Text = msgs.CreateFullDay
    · rw [if_pos h7] at h; cases h
      exact Or.inr (Or.inl ⟨rfl, _, true, rfl, fun _ => rfl⟩)
    rw [if_neg h7] at h
    obtain ⟨d, hd, rfl⟩ := parseOrReturn_left env m _ t s1 h
    refine Or.inr (Or.inr (Or.inl ⟨rfl, d, hd, ?_⟩))
    by_cases hti : s.Event.Title = "" <;> simp [hti, hstep]
  · cases h
    exact Or.inr (Or.inr (Or.inr (Or.inl ⟨rfl, _, rfl⟩)))
  · cases h
    exact Or.inr (Or.inr (Or.inr (Or.inr (by simp [hstep]))))
  · cases h
    exact Or.inr (Or.inr (Or.inr (Or.inr (by simp [hstep]))))
  · cases h
    exact Or.inr (Or.inr (Or.inr (Or.inr (by simp [hstep]))))

theorem FlagsExclusive_trans (msgs : Messages) (s s' : BotRedisSession)
    (hs : FlagsExclusive s) (ht : Trans msgs s s') : FlagsExclusive s' := by
  cases ht with
  | date => simp [FlagsExclusive]
  | create org => simp [FlagsExclusive]
  | dateText => simp [FlagsExclusive]
  | reset => simp [FlagsExclusive, resetSession]
  | createText s1 env m t sig hsw =>
    unfold FlagsExclusive at hs ⊢
    rcases createSwitch_left_cases msgs env m s s1 t hsw with
      ⟨_, d, _, rfl⟩ | ⟨_, d, fd, rfl, _⟩ | ⟨_, d, _, rfl⟩ | ⟨_, x, rfl⟩ |
      ⟨_, _, _, h1, h2, _⟩
    · exact hs
    · cases fd <;> by_cases hti : s.Event.Title = "" <;> simpa [durationCase, hti] using hs
    · exact hs
    · exact hs
    · simpa [h1, h2] using hs

theorem FromInv_trans (msgs : Messages) (s s' : BotRedisSession)
    (hs : FromInv s) (ht : Trans msgs s s') : FromInv s' := by
  cases ht with
  | date => exact hs
  | create org => simp [FromInv, ToNeedsFrom, Event.empty, Time.IsZero, Time.zero]
  | dateText => exact hs
  | reset => simp [FromInv, ToNeedsFrom, resetSession, Event.empty, Time.IsZero, Time.zero]
  | createText s1 env m t sig hsw =>
    unfold FromInv ToNeedsFrom at hs ⊢
    rcases createSwitch_left_cases msgs env m s s1 t hsw with
      ⟨_, d, hd, rfl⟩ | ⟨hst, d, fd, rfl, _⟩ | ⟨_, d, hd, rfl⟩ | ⟨hst, x, rfl⟩ |
      ⟨_, h0, h1, _, _, h2, h3, _⟩
    · simp [hd]
    · have hf := hs.1 hst
      cases fd <;> by_cases hti : s.Event.Title = "" <;> simp [durationCase, hti, hf]
    · simp [hd]
    · simpa [hst] using hs.2
    · simp only [h1, h2, h3]
      exact hs

theorem FullDayInv_trans (msgs : Messages) (s s' : BotRedisSession)
    (hs : FullDayInv s) (ht : Trans msgs s s') : FullDayInv s' := by
  cases ht with
  | date => exact hs
  | create org => simp [FullDayInv, FullDaySpan, Event.empty]
  | dateText => exact hs
  | reset => simp [FullDayInv, FullDaySpan, resetSession, Event.empty]
  | createText s1 env m t sig hsw =>
    unfold FullDayInv FullDaySpan at hs ⊢
    rcases createSwitch_left_cases msgs env m s s1 t hsw with
      ⟨hst, d, hd, rfl⟩ | ⟨hst, d, fd, rfl, hfd⟩ | ⟨hst, d, hd, rfl⟩ | ⟨hst, x, rfl⟩ |
      ⟨h4, h0, h1, _, _, h2, h3, h5, h6⟩
    · have hf := hs.1 (Or.inl hst)
      simp [hf.1, hf.2]
    · have hf := hs.1 (Or.inr hst)
      cases fd
      · simp [durationCase, hf.1, hf.2]
      · simp [durationCase, hf.1, hf.2, hfd rfl]
    · have hf := hs.1 (Or.inr hst)
      simp [hf.1, hf.2]
    · simpa [hst] using hs.2
    · simp only [h1, h2, h3, h5, h6]
      exact hs

/-! ### The input of `CreateEvent` -/

/-- C11: for every draft event the input built by `EventToEventInput` has `Uid`, `From`,
`To`, `FullDay`, `Title` and `Description` set (non-nil): `FullDay` is the draft's flag,
`Title` is the draft title when that is non-empty and the placeholder "Без названия"
when it is empty, and `Description` is the draft description (the empty string when
unset). -/
theorem EventToEventInput_required (uuid : String) (event : Event) :
    (EventToEventInput uuid event).Uid = some uuid ∧
      (EventToEventInput uuid event).From = some (formatRFC3339 event.From) ∧
      (EventToEventInput uuid event).To = some (formatRFC3339 event.To) ∧
      (EventToEventInput uuid event).FullDay = some event.FullDay ∧
      (EventToEventInput uuid event).Title =
        some (if event.Title = "" then "Без названия" else event.Title) ∧
      (EventToEventInput uuid event).Description = some event.Description := by
  refine ⟨rfl, rfl, rfl, rfl, ?_, ?_⟩
  · by_cases h : event.Title = "" <;> simp [EventToEventInput, h]
  · by_cases h : event.Description = "" <;> simp [EventToEventInput, h]

/-- C12: `EventToEventInput` sets `Location` exactly when the draft's location
description is non-empty, to that description; it sets `Attendees` exactly when the
draft has an attendee, and then the list has, position by position, the email and role
of the draft's attendees (so the same length and order); the organizer plays no part in
the result. -/
theorem EventToEventInput_optional (uuid : String) (event : Event) :
    (EventToEventInput uuid event).Location =
        (if event.Location.Description = "" then none
         else some ⟨event.Location.Description⟩) ∧
      ((EventToEventInput uuid event).Attendees = none ↔ event.Attendees = []) ∧
      (∀ l, (EventToEventInput uuid event).Attendees = some l →
        l.length = event.Attendees.length ∧
        ∀ i : Nat, l[i]? = (event.Attendees[i]?).map fun a => (a.Email, a.Role)) ∧
      (∀ organizer : AttendeeEvent,
        EventToEventInput uuid { event with Organizer := organizer } =
          EventToEventInput uuid event) := by
  refine ⟨?_, ?_, ?_, fun _ => rfl⟩
  · by_cases h : event.Location.Description = "" <;> simp [EventToEventInput, h]
  · cases h : event.Attendees <;> simp [EventToEventInput, h]
  · intro l hl
    cases h : event.Attendees with
    | nil => simp [EventToEventInput, h] at hl
    | cons a rest =>
      simp [EventToEventInput, h] at hl
      subst hl
      refine ⟨by simp, fun i => ?_⟩
      cases i <;> simp

theorem EventToEventInput_optional_witness :
    [("x@y", RoleRequired), ("z@w", RoleRequired)].length = sampleDraft.Attendees.length :=
  ((EventToEventInput_optional "u-1" sampleDraft).2.2.1
    [("x@y", RoleRequired), ("z@w", RoleRequired)] (by decide)).1

/-! ### The create and cancel buttons -/

/-- The run of `HandleCreateEvent` pressed by the owner when the session is loaded and
both the token lookup and `CreateEvent` succeed. -/
theorem HandleCreateEvent_trace (env : Env) (st : Store) (c : Callback)
    (session : BotRedisSession) (token : String)
    (howner : c.ReplyToSender = some c.SenderID) (hget : env.getErr = false)
    (hun : env.unmarshalErr = false) (hst : st c.SenderID = some session)
    (htok : env.token = some token) (hok : env.createOk = true) :
    HandleCreateEvent env st c =
      ⟨[.Get c.SenderID, .GetToken c.SenderID,
          .CreateEvent token (EventToEventInput env.uuid session.Event),
          .Respond .EventCreated false, .Send c.ChatID (.CreatedEvent session.Event)] ++
        resetEffects session ++
        (setSession env.setRes (resetSession session) c.SenderID).1, false⟩ := by
  have hg := getSession_loaded env st c.SenderID session hget hun hst
  simp [HandleCreateEvent, howner, hg, htok, hok]

/-- The run of `HandleCancelCreateEvent` pressed by the owner when the session is
loaded. -/
theorem HandleCancelCreateEvent_trace (env : Env) (st : Store) (c : Callback)
    (session : BotRedisSession)
    (howner : c.ReplyToSender = some c.SenderID) (hget : env.getErr = false)
    (hun : env.unmarshalErr = false) (hst : st c.SenderID = some session) :
    (HandleCancelCreateEvent env st c).trace =
      [.Get c.SenderID, .Respond .CreateCanceled false] ++ resetEffects session ++
        (setSession env.setRes (resetSession session) c.SenderID).1 ++
        (if env.setRes = .ok then [.Send c.ChatID .CreateCanceled] else []) := by
  have hg := getSession_loaded env st c.SenderID session hget hun hst
  cases hr : env.setRes <;> simp [HandleCancelCreateEvent, howner, hg, hr, setSession]

theorem createCalls_append (a b : List Effect) :
    createCalls (a ++ b) = createCalls a ++ createCalls b := by
  induction a with
  | nil => rfl
  | cons e a ih => cases e <;> simp [createCalls, ih]

theorem createCalls_resetEffects (s : BotRedisSession) :
    createCalls (resetEffects s) = [] := by
  unfold resetEffects; split <;> rfl

theorem createCalls_setSession (r : SetResult) (s : BotRedisSession) (uid : Int) :
    createCalls (setSession r s uid).1 = [] := by
  cases r <;> rfl

theorem deletedRefs_resetEffects (s : BotRedisSession) :
    deletedRefs (resetEffects s) = if s.InfoMsg.ChatID ≠ 0 then [s.InfoMsg] else [] := by
  unfold resetEffects; split <;> rfl

theorem deletedRefs_setSession (r : SetResult) (s : BotRedisSession) (uid : Int) :
    deletedRefs (setSession r s uid).1 = [] := by
  cases r <;> rfl

/-- C16: when `HandleCreateEvent` is pressed by the owner, the session is loaded and
both the token lookup and `CreateEvent` succeed, `CreateEvent` is called exactly once,
with `EventToEventInput` of the draft; after it exactly one session is passed to
`setSession`: `IsCreate` false, `StepCreateInit`, the empty event and the empty prompt
reference; and the previous prompt is deleted exactly when its reference has a non-zero
`ChatID`. -/
theorem HandleCreateEvent_success (env : Env) (st : Store) (c : Callback)
    (session : BotRedisSession) (token : String)
    (howner : c.ReplyToSender = some c.SenderID) (hget : env.getErr = false)
    (hun : env.unmarshalErr = false) (hst : st c.SenderID = some session)
    (htok : env.token = some token) (hok : env.createOk = true) :
    createCalls (HandleCreateEvent env st c).trace =
        [(token, EventToEventInput env.uuid session.Event)] ∧
      savedSessions (HandleCreateEvent env st c).trace =
        [{ IsDate := session.IsDate, IsCreate := false, Step := StepCreateInit,
           Event := Event.empty, InfoMsg := InitCustomEditable "" 0 }] ∧
      deletedRefs (HandleCreateEvent env st c).trace =
        (if session.InfoMsg.ChatID ≠ 0 then [session.InfoMsg] else []) ∧
      (∃ pre post, (HandleCreateEvent env st c).trace =
        pre ++ .CreateEvent token (EventToEventInput env.uuid session.Event) :: post ∧
        savedSessions pre = [] ∧ savedSessions post = [resetSession session]) ∧
      (HandleCreateEvent env st c).panicked = false := by
  rw [HandleCreateEvent_trace env st c session token howner hget hun hst htok hok]
  refine ⟨?_, ?_, ?_, ?_, rfl⟩
  · simp [createCalls_append, createCalls_resetEffects, createCalls_setSession, createCalls]
  · simp [savedSessions_append, savedSessions_resetEffects, savedSessions_setSession,
      savedSessions, resetSession]
  · simp only [deletedRefs_append, deletedRefs_resetEffects, deletedRefs_setSession]
    simp [deletedRefs]
  · refine ⟨[.Get c.SenderID, .GetToken c.SenderID],
      [.Respond .EventCreated false, .Send c.ChatID (.CreatedEvent session.Event)] ++
        resetEffects session ++ (setSession env.setRes (resetSession session) c.SenderID).1,
      by simp, rfl, ?_⟩
    simp [savedSessions_append, savedSessions_resetEffects, savedSessions_setSession,
      savedSessions]

theorem HandleCreateEvent_success_witness :
    deletedRefs (HandleCreateEvent sampleEnv sampleStore ⟨1, 5, true, some 1, "", "9", ""⟩).trace =
      (if sampleSession.InfoMsg.ChatID ≠ 0 then [sampleSession.InfoMsg] else []) :=
  (HandleCreateEvent_success sampleEnv sampleStore ⟨1, 5, true, some 1, "", "9", ""⟩ sampleSession
    "tok" rfl rfl rfl rfl rfl rfl).2.2.1

theorem getSession_noCalendar (env : Env) (st : Store) (uid : Int) :
    (getSession env st uid).1.filter Effect.isCalendarCall = [] := by
  unfold getSession
  cases env.getErr <;> cases st uid <;> cases env.defaultSet <;>
    cases env.unmarshalErr <;> simp [setSession, Effect.isCalendarCall]

theorem resetEffects_noCalendar (s : BotRedisSession) :
    (resetEffects s).filter Effect.isCalendarCall = [] := by
  unfold resetEffects
  split <;> simp [Effect.isCalendarCall]

theorem setSession_noCalendar (r : SetResult) (s : BotRedisSession) (uid : Int) :
    (setSession r s uid).1.filter Effect.isCalendarCall = [] := by
  cases r <;> simp [setSession, Effect.isCalendarCall]

/-- The run of `HandleCancelCreateEvent` has no call of the calendar service, whatever
the callback, the store and the outcomes of its external calls. -/
theorem HandleCancelCreateEvent_noCalendar (env : Env) (st : Store) (c : Callback) :
    (HandleCancelCreateEvent env st c).trace.filter Effect.isCalendarCall = [] := by
  have hg := getSession_noCalendar env st c.SenderID
  unfold HandleCancelCreateEvent
  generalize getSession env st c.SenderID = gs at hg
  obtain ⟨t, os, err⟩ := gs
  simp only at hg
  cases hrt : c.ReplyToSender with
  | none => simp
  | some owner =>
    by_cases hown : c.SenderID = owner
    · cases err <;> cases os <;> simp only [hown, ne_eq, not_true_eq_false, if_false] <;>
        (try split_ifs) <;>
        simp [List.filter_append, hg, resetEffects_noCalendar, setSession_noCalendar,
          Effect.isCalendarCall]
    · simp [hown, Effect.isCalendarCall]

/-- C17: for every session, loaded by each of the three handlers, the session
`HandleCancelCreateEvent` (pressed by the owner) passes to `setSession` is the one a
successful `HandleCreateEvent` passes and the one `handleCreateText` passes on the
cancel keyword, namely the reset session; and no run of `HandleCancelCreateEvent` has a
call of the calendar service. -/
theorem cancel_button_saves_reset (msgs : Messages) (envCancel envCreate envText : Env)
    (st : Store) (c : Callback) (m : Message) (session : BotRedisSession) (token : String)
    (howner : c.ReplyToSender = some c.SenderID) (hst : st c.SenderID = some session)
    (hget : envCancel.getErr = false) (hun : envCancel.unmarshalErr = false)
    (hget2 : envCreate.getErr = false) (hun2 : envCreate.unmarshalErr = false)
    (htok : envCreate.token = some token) (hok : envCreate.createOk = true)
    (htext : m.Text = msgs.CreateCancelText) :
    savedSessions (HandleCancelCreateEvent envCancel st c).trace = [resetSession session] ∧
      savedSessions (HandleCreateEvent envCreate st c).trace =
        savedSessions (HandleCancelCreateEvent envCancel st c).trace ∧
      savedSessions (handleCreateText msgs envText m session).trace =
        savedSessions (HandleCancelCreateEvent envCancel st c).trace ∧
      ∀ (env : Env) (st1 : Store) (c1 : Callback),
        (HandleCancelCreateEvent env st1 c1).trace.filter Effect.isCalendarCall = [] := by
  have h1 : savedSessions (HandleCancelCreateEvent envCancel st c).trace =
      [resetSession session] := by
    rw [HandleCancelCreateEvent_trace envCancel st c session howner hget hun hst]
    split_ifs <;>
      simp [savedSessions_append, savedSessions_resetEffects, savedSessions_setSession,
        savedSessions]
  have h2 : savedSessions (HandleCreateEvent envCreate st c).trace =
      [resetSession session] := by
    rw [HandleCreateEvent_trace envCreate st c session token howner hget2 hun2 hst htok hok]
    simp [savedSessions_append, savedSessions_resetEffects, savedSessions_setSession,
      savedSessions]
  have h3 : savedSessions (handleCreateText msgs envText m session).trace =
      [resetSession session] := by
    cases hr : envText.setRes <;>
      simp [handleCreateText, htext, setSession, hr, savedSessions_append,
        savedSessions_resetEffects, savedSessions]
  exact ⟨h1, by rw [h1, h2], by rw [h1, h3], HandleCancelCreateEvent_noCalendar⟩

theorem cancel_button_saves_reset_witness :
    savedSessions (HandleCancelCreateEvent sampleEnv sampleStore
        ⟨1, 5, true, some 1, "", "9", ""⟩).trace = [resetSession sampleSession] :=
  (cancel_button_saves_reset sampleMessages sampleEnv sampleEnv sampleEnv sampleStore
    ⟨1, 5, true, some 1, "", "9", ""⟩ ⟨1, 5, true, "cancel"⟩ sampleSession "tok"
    rfl rfl rfl rfl rfl rfl rfl rfl rfl).1

/-! ### The text steps -/

/-- C18: for every session and every text other than the cancel keyword, duration and
menu labels included, when the draft prompt is delivered `handleCreateText` passes to
`setSession` exactly one session: at `StepCreateTitle` the loaded one with the title
set to the text, at `StepCreateDesc` with the description set to the text, at
`StepCreateLocation` with the location description set to the text; the step and every
other draft field are the loaded ones, and the resolver is not called. -/
theorem handleCreateText_text_fields (msgs : Messages) (env : Env) (m : Message)
    (session : BotRedisSession) (sig : String × Int)
    (hcancel : m.Text ≠ msgs.CreateCancelText) (hsend : env.sendRes = some sig) :
    (session.Step = StepCreateTitle →
      savedSessions (handleCreateText msgs env m session).trace =
          [{ session with Event := { session.Event with Title := m.Text },
                          InfoMsg := InitCustomEditable sig.1 sig.2 }] ∧
        parseCalls (handleCreateText msgs env m session).trace = []) ∧
    (session.Step = StepCreateDesc →
      savedSessions (handleCreateText msgs env m session).trace =
          [{ session with Event := { session.Event with Description := m.Text },
                          InfoMsg := InitCustomEditable sig.1 sig.2 }] ∧
        parseCalls (handleCreateText msgs env m session).trace = []) ∧
    (session.Step = StepCreateLocation →
      savedSessions (handleCreateText msgs env m session).trace =
          [{ session with Event := { session.Event with Location := ⟨m.Text⟩ },
                          InfoMsg := InitCustomEditable sig.1 sig.2 }] ∧
        parseCalls (handleCreateText msgs env m session).trace = []) := by
  refine ⟨fun hstep => ?_, fun hstep => ?_, fun hstep => ?_⟩
  · have hsw : createSwitch msgs env m session =
        .left [] { session with Event := { session.Event with Title := m.Text } } := by
      unfold createSwitch; rw [hstep]
    exact ⟨savedSessions_handleCreateText_left msgs env m session _ _ sig hcancel hsw hsend,
      parseCalls_handleCreateText_left msgs env m session _ _ sig hcancel hsw hsend⟩
  · have hsw : createSwitch msgs env m session =
        .left [] { session with Event := { session.Event with Description := m.Text } } := by
      unfold createSwitch; rw [hstep]
    exact ⟨savedSessions_handleCreateText_left msgs env m session _ _ sig hcancel hsw hsend,
      parseCalls_handleCreateText_left msgs env m session _ _ sig hcancel hsw hsend⟩
  · have hsw : createSwitch msgs env m session =
        .left [] { session with Event := { session.Event with Location := ⟨m.Text⟩ } } := by
      unfold createSwitch; rw [hstep]
    exact ⟨savedSessions_handleCreateText_left msgs env m session _ _ sig hcancel hsw hsend,
      parseCalls_handleCreateText_left msgs env m session _ _ sig hcancel hsw hsend⟩

theorem handleCreateText_text_fields_witness :
    savedSessions (handleCreateText sampleMessages sampleEnv ⟨1, 5, true, "1h"⟩
        { sampleSession with Step := StepCreateTitle }).trace =
      [{ sampleSession with Step := StepCreateTitle,
                            Event := { sampleSession.Event with Title := "1h" },
                            InfoMsg := InitCustomEditable "7" 5 }] :=
  ((handleCreateText_text_fields sampleMessages sampleEnv ⟨1, 5, true, "1h"⟩
    { sampleSession with Step := StepCreateTitle } ("7", 5) (by decide) rfl).1 rfl).1

/-- C19: at `StepCreateUser`, for every text other than the cancel keyword, when the
draft prompt is delivered `handleCreateText` passes to `setSession` exactly one session:
the loaded one with one attendee appended at the end of the list, whose email is the
text, whose role is "required" and whose status is "needs-action"; the earlier
attendees, the step and every other draft field are the loaded ones. -/
theorem handleCreateText_user (msgs : Messages) (env : Env) (m : Message)
    (session : BotRedisSession) (sig : String × Int)
    (hstep : session.Step = StepCreateUser)
    (hcancel : m.Text ≠ msgs.CreateCancelText) (hsend : env.sendRes = some sig) :
    savedSessions (handleCreateText msgs env m session).trace =
        [{ session with
            Event := { session.Event with
              Attendees := session.Event.Attendees ++
                [{ Email := m.Text, Name := "", Role := RoleRequired,
                   Status := StatusNeedsAction }] },
            InfoMsg := InitCustomEditable sig.1 sig.2 }] ∧
      parseCalls (handleCreateText msgs env m session).trace = [] := by
  have hsw : createSwitch msgs env m session =
      .left [] { session with
        Event := { session.Event with
          Attendees := session.Event.Attendees ++
            [{ Email := m.Text, Name := "", Role := RoleRequired,
               Status := StatusNeedsAction }] } } := by
    unfold createSwitch; rw [hstep]
  exact ⟨savedSessions_handleCreateText_left msgs env m session _ _ sig hcancel hsw hsend,
    parseCalls_handleCreateText_left msgs env m session _ _ sig hcancel hsw hsend⟩

theorem handleCreateText_user_witness :
    savedSessions (handleCreateText sampleMessages sampleEnv ⟨1, 5, true, "q@r"⟩
        { sampleSession with Step := StepCreateUser, Event := sampleDraft }).trace =
      [{ sampleSession with
          Step := StepCreateUser,
          Event := { sampleDraft with
            Attendees := sampleDraft.Attendees ++
              [{ Email := "q@r", Name := "", Role := RoleRequired,
                 Status := StatusNeedsAction }] },
          InfoMsg := InitCustomEditable "7" 5 }] :=
  (handleCreateText_user sampleMessages sampleEnv ⟨1, 5, true, "q@r"⟩
    { sampleSession with Step := StepCreateUser, Event := sampleDraft } ("7", 5)
    rfl (by decide) rfl).1

/-- C20: at `StepCreateTo`, for every text that is neither the cancel keyword nor a
duration label and that the resolver resolves to a non-zero instant `d`, when the draft
prompt is delivered `handleCreateText` passes to `setSession` exactly one session: the
loaded one with `From` set to `d`, and every other draft field (`To`, `FullDay`, title,
description, location, organizer, attendees) as loaded; the step moves to
`StepCreateTitle` when the title is empty. -/
theorem handleCreateText_to_redefines_from (msgs : Messages) (env : Env) (m : Message)
    (session : BotRedisSession) (d : Time) (sig : String × Int)
    (hstep : session.Step = StepCreateTo) (hcancel : m.Text ≠ msgs.CreateCancelText)
    (hlabel : m.Text ∉ (durationShortcuts msgs).map Prod.fst)
    (hparse : env.parse = some d) (hd : d.IsZero = false) (hsend : env.sendRes = some sig) :
    savedSessions (handleCreateText msgs env m session).trace =
      [{ session with
          Event := { session.Event with From := d },
          Step := if session.Event.Title = "" then StepCreateTitle else session.Step,
          InfoMsg := InitCustomEditable sig.1 sig.2 }] := by
  simp only [durationShortcuts, List.map_cons, List.map_nil, List.mem_cons,
    List.mem_singleton, List.not_mem_nil, or_false, not_or] at hlabel
  obtain ⟨n1, n2, n3, n4, n5, n6, n7⟩ := hlabel
  have hsw : createSwitch msgs env m session =
      .left [.ParseDate m.Text (some d)]
        { session with
          Event := { session.Event with From := d },
          Step := if session.Event.Title = "" then StepCreateTitle else session.Step } := by
    unfold createSwitch
    rw [hstep]
    simp only [n1, n2, n3, n4, n5, n6, n7, if_false, parseOrReturn, hparse, hd, ParseDate]
    by_cases ht : session.Event.Title = "" <;> simp [ht, hstep]
  rw [savedSessions_handleCreateText_left msgs env m session _ _ sig hcancel hsw hsend]
  rfl

theorem handleCreateText_to_redefines_from_witness :
    savedSessions (handleCreateText sampleMessages { sampleEnv with parse := some ⟨5000⟩ }
        ⟨1, 5, true, "friday"⟩
        { sampleSession with Step := StepCreateTo, Event := sampleDraft }).trace =
      [{ sampleSession with
          Event := { sampleDraft with From := ⟨5000⟩ },
          Step := if sampleDraft.Title = "" then StepCreateTitle else StepCreateTo,
          InfoMsg := InitCustomEditable "7" 5 }] :=
  handleCreateText_to_redefines_from sampleMessages { sampleEnv with parse := some ⟨5000⟩ }
    ⟨1, 5, true, "friday"⟩
    { sampleSession with Step := StepCreateTo, Event := sampleDraft } ⟨5000⟩ ("7", 5)
    rfl (by decide) (by decide) rfl rfl rfl

/-! ### Ownership and correlation -/

/-- C13: for each of `HandleAlertYes`, `HandleAlertNo`, `HandleCancelCreateEvent` and
`HandleCreateEvent`, on a callback whose message replies to a message of another user
than the presser, the whole run is one "not allowed" alert response: no session is read
or written, no message deleted, no command handler run and no calendar service called,
and the run does not panic. -/
theorem foreign_presser_rejected (cmds : Commands) (msgs : Messages) (env : Env)
    (st : Store) (c : Callback) (owner : Int)
    (hreply : c.ReplyToSender = some owner) (hne : c.SenderID ≠ owner) :
    HandleAlertYes cmds msgs env st c = ⟨[.Respond .UserNotAllow true], false⟩ ∧
      HandleAlertNo c = ⟨[.Respond .UserNotAllow true], false⟩ ∧
      HandleCancelCreateEvent env st c = ⟨[.Respond .UserNotAllow true], false⟩ ∧
      HandleCreateEvent env st c = ⟨[.Respond .UserNotAllow true], false⟩ := by
  refine ⟨?_, ?_, ?_, ?_⟩
  · simp [HandleAlertYes, hreply, hne]
  · simp [HandleAlertNo, hreply, hne]
  · simp [HandleCancelCreateEvent, hreply, hne]
  · simp [HandleCreateEvent, hreply, hne]

theorem foreign_presser_rejected_witness :
    HandleAlertYes sampleCommands sampleMessages sampleEnv sampleStore
        ⟨2, 5, false, some 1, "/date", "9", "@bot /date"⟩ =
      ⟨[.Respond .UserNotAllow true], false⟩ :=
  (foreign_presser_rejected sampleCommands sampleMessages sampleEnv sampleStore
    ⟨2, 5, false, some 1, "/date", "9", "@bot /date"⟩ 1 rfl (by decide)).1

theorem editedRefs_append (a b : List Effect) :
    editedRefs (a ++ b) = editedRefs a ++ editedRefs b := by
  induction a with
  | nil => rfl
  | cons e a ih => cases e <;> simp [editedRefs, ih]

/-- The run of `AuthMiddleware` edits no message and writes no entry. -/
theorem AuthMiddleware_quiet (env : Env) (uid chat : Int) (cs : CorrStore) (st : Store) :
    editedRefs (AuthMiddleware env uid chat).1 = [] ∧
      applyCorr cs (AuthMiddleware env uid chat).1 = cs ∧
      applyTrace st (AuthMiddleware env uid chat).1 = st ∧
      (AuthMiddleware env uid chat).1.filter Effect.isCalendarCall = [] := by
  unfold AuthMiddleware
  rcases env.auth with _ | _ | _ <;> exact ⟨rfl, rfl, rfl, rfl⟩

/-- C14: on a callback whose token has no entry in the correlation store,
`getEventByIdForCallback` looks the token up, answers with the "not found" alert and
returns no event, so it requests no access token and calls no `GetEventByEventID`; and
`HandleShowMore` and `HandleShowLess` then end after it (or after the plain response of
a failed authentication check): they edit no message, write no correlation entry and
no session, and call no calendar service. -/
theorem missing_token_not_found (msgs : Messages) (env : Env) (cs : CorrStore)
    (st : Store) (c : Callback) (hmiss : cs c.Data = none) :
    getEventByIdForCallback env cs c =
        ([.GetCorrelation c.Data, .Respond .RedisNotFound true], none) ∧
      (HandleShowMore msgs env cs c).trace =
        (AuthMiddleware env c.SenderID c.ChatID).1 ++
          (if (AuthMiddleware env c.SenderID c.ChatID).2 then
            [.GetCorrelation c.Data, .Respond .RedisNotFound true]
           else [.Respond .Plain false]) ∧
      (HandleShowLess msgs env cs c).trace = (HandleShowMore msgs env cs c).trace ∧
      editedRefs (HandleShowMore msgs env cs c).trace = [] ∧
      applyCorr cs (HandleShowMore msgs env cs c).trace = cs ∧
      applyTrace st (HandleShowMore msgs env cs c).trace = st ∧
      (HandleShowMore msgs env cs c).trace.filter Effect.isCalendarCall = [] := by
  have hg : getEventByIdForCallback env cs c =
      ([.GetCorrelation c.Data, .Respond .RedisNotFound true], none) := by
    unfold getEventByIdForCallback
    cases env.getErr <;> simp [hmiss]
  obtain ⟨ha1, ha2, ha3, ha4⟩ := AuthMiddleware_quiet env c.SenderID c.ChatID cs st
  have hm : (HandleShowMore msgs env cs c).trace =
      (AuthMiddleware env c.SenderID c.ChatID).1 ++
        (if (AuthMiddleware env c.SenderID c.ChatID).2 then
          [.GetCorrelation c.Data, .Respond .RedisNotFound true]
         else [.Respond .Plain false]) := by
    unfold HandleShowMore
    rw [hg]
    cases hb : (AuthMiddleware env c.SenderID c.ChatID).2 <;> simp [hb]
  have hl : (HandleShowLess msgs env cs c).trace = (HandleShowMore msgs env cs c).trace := by
    rw [hm]
    unfold HandleShowLess
    rw [hg]
    cases hb : (AuthMiddleware env c.SenderID c.ChatID).2 <;> simp [hb]
  refine ⟨hg, hm, hl, ?_, ?_, ?_, ?_⟩
  · rw [hm, editedRefs_append, ha1]
    split <;> rfl
  · rw [hm]
    unfold applyCorr at ha2 ⊢
    rw [List.foldl_append, ha2]
    split <;> rfl
  · rw [hm]
    unfold applyTrace at ha3 ⊢
    rw [List.foldl_append, ha3]
    split <;> rfl
  · rw [hm, List.filter_append, ha4]
    split <;> rfl

theorem missing_token_not_found_witness :
    getEventByIdForCallback sampleEnv (fun _ => none)
        ⟨1, 5, true, none, "ev-1", "9", ""⟩ =
      ([.GetCorrelation "ev-1", .Respond .RedisNotFound true], none) :=
  (missing_token_not_found sampleMessages sampleEnv (fun _ => none) sampleStore
    ⟨1, 5, true, none, "ev-1", "9", ""⟩ rfl).1

/-- C15: when the store write of `EventShowMoreInlineKeyboard` succeeds, the
correlation store afterwards maps the event's `Uid` to the `UID` of its calendar and
the keyboard returned is one expand button whose `Data` is that `Uid`; a later callback
carrying that `Data`, with the lookup and the token request succeeding, then makes
`getEventByIdForCallback` call `GetEventByEventID` with that calendar and that event
identifier.  When the store write fails no keyboard is returned and the store is as
before. -/
theorem EventShowMoreInlineKeyboard_correlates (msgs : Messages) (env : Env)
    (cs : CorrStore) (event : Event) :
    (event.Uid ∉ env.correlationFail →
      applyCorr cs (EventShowMoreInlineKeyboard msgs env event).1 event.Uid =
          some event.Calendar.UID ∧
        (EventShowMoreInlineKeyboard msgs env event).2 =
          some [[{ Text := msgs.ShowMoreButton, Unique := .ShowFullEvent,
                   Data := event.Uid }]] ∧
        ∀ (later : Env) (c : Callback) (token : String),
          c.Data = event.Uid → later.getErr = false → later.token = some token →
          Effect.GetEventByEventID token event.Calendar.UID event.Uid ∈
            (getEventByIdForCallback later
              (applyCorr cs (EventShowMoreInlineKeyboard msgs env event).1) c).1) ∧
    (event.Uid ∈ env.correlationFail →
      (EventShowMoreInlineKeyboard msgs env event).2 = none ∧
        applyCorr cs (EventShowMoreInlineKeyboard msgs env event).1 = cs) := by
  constructor
  · intro hok
    have hk : EventShowMoreInlineKeyboard msgs env event =
        ([.SetCorrelation event.Uid event.Calendar.UID true],
          some [[{ Text := msgs.ShowMoreButton, Unique := .ShowFullEvent,
                   Data := event.Uid }]]) := by
      simp [EventShowMoreInlineKeyboard, hok]
    have hcs : applyCorr cs (EventShowMoreInlineKeyboard msgs env event).1 event.Uid =
        some event.Calendar.UID := by
      rw [hk]
      simp [applyCorr, applyCorrEffect]
    refine ⟨hcs, by rw [hk], ?_⟩
    intro later c token hdata hget htok
    unfold getEventByIdForCallback
    rw [hdata, hget]
    simp only [Bool.false_eq_true, if_false, hcs, htok]
    cases later.eventById <;> simp
  · intro hfail
    have hk : EventShowMoreInlineKeyboard msgs env event =
        ([.SetCorrelation event.Uid event.Calendar.UID false], none) := by
      simp [EventShowMoreInlineKeyboard, hfail]
    rw [hk]
    exact ⟨rfl, rfl⟩

theorem EventShowMoreInlineKeyboard_correlates_witness :
    applyCorr (fun _ => none)
        (EventShowMoreInlineKeyboard sampleMessages sampleEnv sampleEvent).1 "ev-1" =
      some "cal-1" :=
  ((EventShowMoreInlineKeyboard_correlates sampleMessages sampleEnv (fun _ => none)
    sampleEvent).1 (by decide)).1

/-! ### The session store adapter -/

/-- C21: for a user with no entry in the session store and a store that accepts the
write, `getSession` looks the key up, saves the default session and returns it with a
nil error; the session has both flags off, the empty event and the empty prompt
reference, and the store afterwards holds it under the user's ID. -/
theorem getSession_default (env : Env) (st : Store) (uid : Int)
    (hmiss : st uid = none) (hset : env.defaultSet = .ok) :
    getSession env st uid =
        ([.Get uid, .SetSession uid newSession .ok], some newSession, false) ∧
      applyTrace st (getSession env st uid).1 uid = some newSession ∧
      newSession.IsDate = false ∧ newSession.IsCreate = false ∧
      newSession.Event = Event.empty ∧ newSession.InfoMsg = InitCustomEditable "" 0 := by
  have h : getSession env st uid =
      ([.Get uid, .SetSession uid newSession .ok], some newSession, false) := by
    unfold getSession
    cases env.getErr <;> simp [hmiss, hset, setSession]
  refine ⟨h, ?_, rfl, rfl, rfl, rfl⟩
  rw [h]
  simp [applyTrace, applyEffect]

theorem getSession_default_witness :
    getSession sampleEnv emptyStore 1 =
      ([.Get 1, .SetSession 1 newSession .ok], some newSession, false) :=
  (getSession_default sampleEnv emptyStore 1 rfl rfl).1

/-- C22 fails on the code: when the store write of the default session fails, or the
stored session fails to deserialise, and the notification to the user is delivered,
`getSession` returns a nil session together with a nil error (the error it returns is
the notification's); `HandleText` then passes its error check and dereferences the nil
session. -/
theorem getSession_nil_session_nil_error :
    (getSession { sampleEnv with defaultSet := .redisErr } emptyStore 1).2 = (none, false) ∧
      (getSession { sampleEnv with unmarshalErr := true } sampleStore 1).2 = (none, false) ∧
      (HandleText sampleMessages { sampleEnv with defaultSet := .redisErr } emptyStore
        ⟨1, 5, true, "hello"⟩).panicked = true := by
  decide

/-- C23: after `setSession(s1, u)` and then `setSession(s2, u)` both succeed,
`getSession(u)` (its lookup and deserialisation succeeding) returns `s2` with a nil
error, whatever `s1` and the store before were; and a successful `setSession` for `u`
leaves the entry of every other user as it was. -/
theorem last_save_wins (env : Env) (st : Store) (u : Int) (s1 s2 : BotRedisSession)
    (hget : env.getErr = false) (hun : env.unmarshalErr = false) :
    (getSession env
        (applyTrace st ((setSession .ok s1 u).1 ++ (setSession .ok s2 u).1)) u).2 =
        (some s2, false) ∧
      ∀ (v : Int) (s : BotRedisSession), v ≠ u →
        applyTrace st (setSession .ok s u).1 v = st v := by
  constructor
  · have hst : applyTrace st ((setSession .ok s1 u).1 ++ (setSession .ok s2 u).1) u =
        some s2 := by
      simp [applyTrace, applyEffect, setSession]
    rw [getSession_loaded env _ u s2 hget hun hst]
  · intro v s hv
    simp [applyTrace, applyEffect, setSession, hv]

theorem last_save_wins_witness :
    (getSession sampleEnv
        (applyTrace sampleStore
          ((setSession .ok sampleAfterRun 1).1 ++ (setSession .ok newSession 1).1)) 1).2 =
      (some newSession, false) :=
  (last_save_wins sampleEnv sampleStore 1 sampleAfterRun newSession rfl rfl).1

/-! ### The draft prompt -/

/-- When the date branch leaves the switch, its trace is the resolver call. -/
theorem parseOrReturn_left_trace (env : Env) (m : Message) (k : Time → BotRedisSession)
    (t : List Effect) (s1 : BotRedisSession) (h : parseOrReturn env m k = .left t s1) :
    ∃ d, t = [.ParseDate m.Text (some d)] ∧ s1 = k d := by
  unfold parseOrReturn at h
  cases hp : env.parse with
  | none => simp [hp] at h
  | some d =>
    by_cases hd : d.IsZero = true
    · simp [hp, hd] at h
    · simp [hp, hd, ParseDate] at h
      exact ⟨d, h.1.symm, h.2.symm⟩

theorem durationCase_infoMsg (s : BotRedisSession) (d : Duration) (fullDay : Bool) :
    (durationCase s d fullDay).InfoMsg = s.InfoMsg := by
  cases fullDay <;> by_cases ht : s.Event.Title = "" <;> simp [durationCase, ht]

/-- When the switch of `handleCreateText` is left, the prompt reference of the session
is the loaded one and the switch has deleted and sent nothing. -/
theorem createSwitch_left_frame (msgs : Messages) (env : Env) (m : Message)
    (s s1 : BotRedisSession) (t : List Effect)
    (h : createSwitch msgs env m s = .left t s1) :
    s1.InfoMsg = s.InfoMsg ∧ deletedRefs t = [] ∧ draftSends t = [] := by
  unfold createSwitch at h
  rcases hstep : s.Step <;> rw [hstep] at h <;> simp only [] at h
  · cases h; exact ⟨rfl, rfl, rfl⟩
  · obtain ⟨d, rfl, rfl⟩ := parseOrReturn_left_trace env m _ t s1 h
    refine ⟨?_, rfl, rfl⟩
    by_cases hto : s.Event.To.IsZero = true <;> simp [hto]
  · by_cases h1 : m.Text = msgs.CreateEventHalfHour
    · rw [if_pos h1] at h; cases h
      exact ⟨durationCase_infoMsg _ _ _, rfl, rfl⟩
    rw [if_neg h1] at h
    by_cases h2 : m.Text = msgs.CreateEventHour
    · rw [if_pos h2] at h; cases h
      exact ⟨durationCase_infoMsg _ _ _, rfl, rfl⟩
    rw [if_neg h2] at h
    by_cases h3 : m.Text = msgs.CreateEventHourAndHalf
    · rw [if_pos h3] at h; cases h
      exact ⟨durationCase_infoMsg _ _ _, rfl, rfl⟩
    rw [if_neg h3] at h
    by_cases h4 : m.Text = msgs.CreateEventTwoHours
    · rw [if_pos h4] at h; cases h
      exact ⟨durationCase_infoMsg _ _ _, rfl, rfl⟩
    rw [if_neg h4] at h
    by_cases h5 : m.Text = msgs.CreateEventFourHours
    · rw [if_pos h5] at h; cases h
      exact ⟨durationCase_infoMsg _ _ _, rfl, rfl⟩
    rw [if_neg h5] at h
    by_cases h6 : m.Text = msgs.CreateEventSixHours
    · rw [if_pos h6] at h; cases h
      exact ⟨durationCase_infoMsg _ _ _, rfl, rfl⟩
    rw [if_neg h6] at h
    by_cases h7 : m.Text = msgs.CreateFullDay
    · rw [if_pos h7] at h; cases h
      exact ⟨durationCase_infoMsg _ _ _, rfl, rfl⟩
    rw [if_neg h7] at h
    obtain ⟨d, rfl, rfl⟩ := parseOrReturn_left_trace env m _ t s1 h
    refine ⟨?_, rfl, rfl⟩
    by_cases hti : s.Event.Title = "" <;> simp [hti]
  · cases h; exact ⟨rfl, rfl, rfl⟩
  · cases h; exact ⟨rfl, rfl, rfl⟩
  · cases h; exact ⟨rfl, rfl, rfl⟩
  · cases h; exact ⟨rfl, rfl, rfl⟩

theorem draftSends_append (a b : List Effect) :
    draftSends (a ++ b) = draftSends a ++ draftSends b := by
  induction a with
  | nil => rfl
  | cons e a ih =>
    cases e with
    | Send chat p => cases p <;> simp [draftSends, ih]
    | _ => simp [draftSends, ih]

/-- The run of `handleCreateText` when the switch is left and the draft prompt is
delivered, with what follows the save: nothing, or one of the two follow-up questions. -/
theorem handleCreateText_left_rest (msgs : Messages) (env : Env) (m : Message)
    (session s1 : BotRedisSession) (t : List Effect) (sig : String × Int)
    (hc : m.Text ≠ msgs.CreateCancelText)
    (hsw : createSwitch msgs env m session = .left t s1) (hsend : env.sendRes = some sig) :
    ∃ rest, (handleCreateText msgs env m session).trace =
      t ++ resetEffects s1 ++
        [.Send m.ChatID (.Draft s1.Event (CreateEventButtons msgs s1.Event))] ++
        (setSession env.setRes { s1 with InfoMsg := InitCustomEditable sig.1 sig.2 }
          m.SenderID).1 ++ rest ∧
      (rest = [] ∨ rest = [.Send m.ChatID .CreateEventTo] ∨
        rest = [.Send m.ChatID .CreateEventTitle]) ∧
      (handleCreateText msgs env m session).panicked = false := by
  have hc' : ¬ msgs.CreateCancelText = m.Text := fun e => hc e.symm
  simp only [handleCreateText, hc', if_false, hsw, hsend]
  split
  · exact ⟨[], by simp, Or.inl rfl, rfl⟩
  · split
    · exact ⟨_, rfl, Or.inr (Or.inl rfl), rfl⟩
    · split
      · exact ⟨_, rfl, Or.inr (Or.inr rfl), rfl⟩
      · exact ⟨[], by simp, Or.inl rfl, rfl⟩

/-- C24: when `handleCreateText` completes a step branch and the draft prompt is
delivered, its run is: the calls of the branch, which delete and send nothing; the
delete of the loaded prompt, issued exactly when the loaded reference has a non-zero
`ChatID`; then the one draft prompt; then calls among which nothing is deleted, no
draft prompt is sent, and exactly one session is passed to `setSession`, whose
`InfoMsg` is the reference of the new prompt. -/
theorem handleCreateText_prompt_replaced (msgs : Messages) (env : Env) (m : Message)
    (session s1 : BotRedisSession) (t : List Effect) (sig : String × Int)
    (hc : m.Text ≠ msgs.CreateCancelText)
    (hsw : createSwitch msgs env m session = .left t s1) (hsend : env.sendRes = some sig) :
    ∃ post, (handleCreateText msgs env m session).trace =
        t ++ (if session.InfoMsg.ChatID ≠ 0 then [.Delete session.InfoMsg] else []) ++
          [.Send m.ChatID (.Draft s1.Event (CreateEventButtons msgs s1.Event))] ++ post ∧
      deletedRefs t = [] ∧ draftSends t = [] ∧
      deletedRefs post = [] ∧ draftSends post = [] ∧
      savedSessions post = [{ s1 with InfoMsg := InitCustomEditable sig.1 sig.2 }] ∧
      (handleCreateText msgs env m session).panicked = false := by
  obtain ⟨hinfo, hdel, hdraft⟩ := createSwitch_left_frame msgs env m session s1 t hsw
  obtain ⟨rest, htr, hrest, hpan⟩ :=
    handleCreateText_left_rest msgs env m session s1 t sig hc hsw hsend
  have hre : resetEffects s1 =
      (if session.InfoMsg.ChatID ≠ 0 then [.Delete session.InfoMsg] else []) := by
    unfold resetEffects; rw [hinfo]
  refine ⟨(setSession env.setRes { s1 with InfoMsg := InitCustomEditable sig.1 sig.2 }
      m.SenderID).1 ++ rest, ?_, hdel, hdraft, ?_, ?_, ?_, hpan⟩
  · rw [htr, hre]; simp only [List.append_assoc]
  · rw [deletedRefs_append, deletedRefs_setSession]
    rcases hrest with rfl | rfl | rfl <;> rfl
  · have hset : draftSends (setSession env.setRes
        { s1 with InfoMsg := InitCustomEditable sig.1 sig.2 } m.SenderID).1 = [] := by
      cases env.setRes <;> rfl
    rw [draftSends_append, hset]
    rcases hrest with rfl | rfl | rfl <;> rfl
  · rw [savedSessions_append, savedSessions_setSession]
    rcases hrest with rfl | rfl | rfl <;> rfl

theorem handleCreateText_prompt_replaced_witness :
    ∃ post, (handleCreateText sampleMessages sampleEnv ⟨1, 5, true, "Sync"⟩
          { sampleSession with Step := StepCreateTitle }).trace =
        [] ++ (if sampleSession.InfoMsg.ChatID ≠ 0 then [.Delete sampleSession.InfoMsg]
               else []) ++
          [.Send 5 (.Draft { Event.empty with Title := "Sync" }
            (CreateEventButtons sampleMessages { Event.empty with Title := "Sync" }))] ++
          post ∧
      deletedRefs ([] : List Effect) = [] ∧ draftSends ([] : List Effect) = [] ∧
      deletedRefs post = [] ∧ draftSends post = [] ∧
      savedSessions post =
        [{ sampleSession with Step := StepCreateTitle,
                              Event := { Event.empty with Title := "Sync" },
                              InfoMsg := InitCustomEditable "7" 5 }] ∧
      (handleCreateText sampleMessages sampleEnv ⟨1, 5, true, "Sync"⟩
          { sampleSession with Step := StepCreateTitle }).panicked = false :=
  handleCreateText_prompt_replaced sampleMessages sampleEnv ⟨1, 5, true, "Sync"⟩
    { sampleSession with Step := StepCreateTitle }
    { sampleSession with Step := StepCreateTitle,
                         Event := { Event.empty with Title := "Sync" } }
    [] ("7", 5) (by decide) rfl rfl

/-- C26 fails on the code: when `bot.Send` of the draft prompt returns no message,
`handleCreateText` goes on to take the signature of the missing message and ends in a
nil-pointer panic, after deleting the old prompt and before any `setSession`. -/
theorem handleCreateText_send_failure_panics :
    (handleCreateText sampleMessages { sampleEnv with sendRes := none }
        ⟨1, 5, true, "Sync"⟩ { sampleSession with Step := StepCreateTitle }).panicked = true ∧
      savedSessions (handleCreateText sampleMessages { sampleEnv with sendRes := none }
        ⟨1, 5, true, "Sync"⟩ { sampleSession with Step := StepCreateTitle }).trace = [] ∧
      deletedRefs (handleCreateText sampleMessages { sampleEnv with sendRes := none }
        ⟨1, 5, true, "Sync"⟩ { sampleSession with Step := StepCreateTitle }).trace =
        [⟨"3", 5⟩] := by
  decide

/-- C27 fails on the code: after `/create`, a start date and a second date typed in
answer to the duration prompt, the stored session is at `StepCreateTitle` with `To`
still zero; the handler has just asked for the duration again, and the duration label
typed in answer is stored as the title. -/
theorem title_step_with_unset_end :
    (runAll sampleMessages emptyStore sampleRedefine 1).map
        (fun s => (s.Step, s.Event.To.IsZero, s.Event.Title)) =
        some (StepCreateTitle, true, "") ∧
      (handle sampleMessages { sampleEnv with parse := some ⟨5000⟩ }
          (runAll sampleMessages emptyStore (sampleRedefine.take 2))
          (.text ⟨1, 5, true, "friday"⟩)).trace.getLast? =
        some (.Send 5 .CreateEventTo) ∧
      (runAll sampleMessages emptyStore
          (sampleRedefine ++ [(sampleEnv, .text ⟨1, 5, true, "1h"⟩)]) 1).map
        (fun s => (s.Step, s.Event.To.IsZero, s.Event.Title)) =
        some (StepCreateTitle, true, "1h") := by
  decide

/-! ### Group alerts and the start command -/

/-- C25: for a command text that contains exactly one of the command names,
`GroupAlertsButtons` puts that name in the `Data` of the Yes button; `HandleAlertYes`
pressed by the asker with that `Data` answers, deletes the alert and then runs exactly
the matching handler (`HandleToday`, `HandleNext` or `HandleDate`) on the alert message
with the asker as sender; `HandleAlertNo` pressed by the asker answers and deletes the
alert and runs no handler. -/
theorem group_alert_dispatch (cmds : Commands) (msgs : Messages) (env : Env) (st : Store)
    (c : Callback) (text : String) (howner : c.ReplyToSender = some c.SenderID) :
    (strContains text cmds.Today = true → strContains text cmds.Next = false →
      strContains text cmds.Date = false →
      GroupAlertsButtons cmds text =
          [[{ Text := "Да", Unique := .AlertCallbackYes, Data := cmds.Today },
            { Text := "Нет", Unique := .AlertCallbackNo, Data := "" }]] ∧
        (c.Data = cmds.Today →
          HandleAlertYes cmds msgs env st c =
            ⟨[.Respond .Plain false, .Delete ⟨c.MessageID, c.ChatID⟩] ++
              (HandleToday msgs env ⟨c.SenderID, c.ChatID, c.Private, c.Text⟩).trace,
             (HandleToday msgs env ⟨c.SenderID, c.ChatID, c.Private, c.Text⟩).panicked⟩)) ∧
    (strContains text cmds.Today = false → strContains text cmds.Next = true →
      strContains text cmds.Date = false →
      GroupAlertsButtons cmds text =
          [[{ Text := "Да", Unique := .AlertCallbackYes, Data := cmds.Next },
            { Text := "Нет", Unique := .AlertCallbackNo, Data := "" }]] ∧
        (c.Data = cmds.Next →
          HandleAlertYes cmds msgs env st c =
            ⟨[.Respond .Plain false, .Delete ⟨c.MessageID, c.ChatID⟩] ++
              (HandleNext msgs env ⟨c.SenderID, c.ChatID, c.Private, c.Text⟩).trace,
             (HandleNext msgs env ⟨c.SenderID, c.ChatID, c.Private, c.Text⟩).panicked⟩)) ∧
    (strContains text cmds.Today = false → strContains text cmds.Next = false →
      strContains text cmds.Date = true →
      GroupAlertsButtons cmds text =
          [[{ Text := "Да", Unique := .AlertCallbackYes, Data := cmds.Date },
            { Text := "Нет", Unique := .AlertCallbackNo, Data := "" }]] ∧
        (c.Data = cmds.Date →
          HandleAlertYes cmds msgs env st c =
            ⟨[.Respond .Plain false, .Delete ⟨c.MessageID, c.ChatID⟩] ++
              (HandleDate msgs env st ⟨c.SenderID, c.ChatID, c.Private, c.Text⟩).trace,
             (HandleDate msgs env st
               ⟨c.SenderID, c.ChatID, c.Private, c.Text⟩).panicked⟩)) ∧
    HandleAlertNo c =
      ⟨[.Respond .Plain false, .Delete ⟨c.MessageID, c.ChatID⟩], false⟩ := by
  refine ⟨?_, ?_, ?_, ?_⟩
  · intro h1 h2 h3
    refine ⟨by simp [GroupAlertsButtons, h1, h2, h3], fun hd => ?_⟩
    simp [HandleAlertYes, howner, hd]
  · intro h1 h2 h3
    have hne : cmds.Next ≠ cmds.Today := by
      intro e; rw [e, h1] at h2; exact absurd h2 (by decide)
    refine ⟨by simp [GroupAlertsButtons, h1, h2, h3], fun hd => ?_⟩
    simp [HandleAlertYes, howner, hd, hne]
  · intro h1 h2 h3
    have hne1 : cmds.Date ≠ cmds.Today := by
      intro e; rw [e, h1] at h3; exact absurd h3 (by decide)
    have hne2 : cmds.Date ≠ cmds.Next := by
      intro e; rw [e, h2] at h3; exact absurd h3 (by decide)
    refine ⟨by simp [GroupAlertsButtons, h1, h2, h3], fun hd => ?_⟩
    simp [HandleAlertYes, howner, hd, hne1, hne2]
  · simp [HandleAlertNo, howner]

theorem group_alert_dispatch_witness :
    GroupAlertsButtons sampleCommands "/next" =
      [[{ Text := "Да", Unique := .AlertCallbackYes, Data := "/next" },
        { Text := "Нет", Unique := .AlertCallbackNo, Data := "" }]] :=
  ((group_alert_dispatch sampleCommands sampleMessages sampleEnv sampleStore
    ⟨1, 5, false, some 1, "/next", "9", "@bot /next"⟩ "/next" rfl).2.1
      (by decide) (by decide) (by decide)).1

/-- C30 fails on the code: when the authentication lookup returns no error, whether
the user is authenticated or not, `HandleStart` sends the error notice (the error "Test
error" it has just made) and returns without a start message; the start message with
the registration link is sent when the lookup fails. -/
theorem HandleStart_error_on_successful_lookup :
    HandleStart { sampleEnv with auth := some true } ⟨1, 1, true, "/start"⟩ =
        ⟨[.IsAuth 1, .SendError 1], false⟩ ∧
      HandleStart { sampleEnv with auth := some false } ⟨1, 1, true, "/start"⟩ =
        ⟨[.IsAuth 1, .SendError 1], false⟩ ∧
      HandleStart { sampleEnv with auth := none } ⟨1, 1, true, "/start"⟩ =
        ⟨[.IsAuth 1, .GenOauthLink 1, .Send 1 (.StartNoReg "https://o/1")], false⟩ := by
  decide

/-! ### The option menu -/

set_option maxHeartbeats 4000000 in
/-- C29: for every session `GetCreateOptionButtons` ends without an index out of
range and returns 5 rows of 2 buttons; read row by row, the grid is the option buttons
(one per wizard field whose step is not the current one, then the full-day button
exactly when the draft is not full-day), at most 7 of them and all within rows 0 to 3,
then empty buttons up to the end of row 3, then the cancel button at row 4, column 0,
and an empty button. -/
theorem GetCreateOptionButtons_grid (labels : OptionLabels) (msgs : Messages)
    (session : BotRedisSession) :
    ∃ btns, GetCreateOptionButtons labels msgs session = some btns ∧
      btns.length = 5 ∧ (∀ row ∈ btns, row.length = 2) ∧
      (optionButtons labels msgs session).length ≤ 7 ∧
      btns.flatten = optionButtons labels msgs session ++
        List.replicate (8 - (optionButtons labels msgs session).length) InlineButton.zero ++
        [optionButton msgs.CreateCancelText, InlineButton.zero] := by
  obtain ⟨isDate, isCreate, step, event, infoMsg⟩ := session
  obtain ⟨uid, start, stop, fullDay, title, description, location, organizer, attendees,
    calendar, call⟩ := event
  cases step <;> cases fullDay <;>
    exact ⟨_, rfl, rfl, by simp, Nat.le_of_ble_eq_true rfl, rfl⟩

/-! ### The shared key-value store -/

/-- On a shared store whose entry for the user is a session or nothing, `getSession`
is `getSession` on the session entries. -/
theorem getSessionShared_eq (json : Json) (env : Env) (r : Redis) (uid : Int)
    (h : ∀ v, r (userKey uid) ≠ some (.text v)) :
    getSessionShared json env r uid = getSession env (sessionEntries r) uid := by
  unfold getSessionShared getSession sessionEntries
  rcases hr : r (userKey uid) with _ | b
  · cases env.getErr <;> rfl
  · cases b with
    | session s => cases env.getErr <;> rfl
    | text v => exact absurd hr (h v)

/-- C28, as the code has it: session entries and correlation entries share one key
space.  For an event whose `Uid` is not the key `strconv.Itoa(u.ID)` of user `u`,
`EventShowMoreInlineKeyboard` leaves what `getSession(u)` does and returns unchanged;
and `setSession` for `u` leaves the calendar identifier looked up for every token other
than that key unchanged. -/
theorem shared_store_other_keys (json : Json) (msgs : Messages) (env later : Env)
    (r : Redis) (event : Event) (u : Int) :
    (event.Uid ≠ userKey u →
      getSessionShared json later
          (redisTrace r (EventShowMoreInlineKeyboard msgs env event).1) u =
        getSessionShared json later r u) ∧
    (∀ (s : BotRedisSession) (res : SetResult) (token : String), token ≠ userKey u →
      lookupCalendar json (redisTrace r (setSession res s u).1) token =
        lookupCalendar json r token) := by
  constructor
  · intro hne
    have hk : redisTrace r (EventShowMoreInlineKeyboard msgs env event).1 (userKey u) =
        r (userKey u) := by
      unfold EventShowMoreInlineKeyboard
      split <;> simp [redisTrace, redisEffect, Ne.symm hne]
    unfold getSessionShared
    rw [hk]
  · intro s res token hne
    have hk : redisTrace r (setSession res s u).1 token = r token := by
      cases res <;> simp [redisTrace, redisEffect, setSession, hne]
    unfold lookupCalendar
    rw [hk]

theorem shared_store_other_keys_witness :
    getSessionShared sampleJson sampleEnv
        (redisTrace sampleRedis
          (EventShowMoreInlineKeyboard sampleMessages sampleEnv sampleEvent).1) 1 =
      getSessionShared sampleJson sampleEnv sampleRedis 1 :=
  (shared_store_other_keys sampleJson sampleMessages sampleEnv sampleEnv sampleRedis
    sampleEvent 1).1 (by decide)

/-- C28 fails as stated: for an event whose `Uid` is the decimal text of a user's ID,
`EventShowMoreInlineKeyboard` overwrites that user's session entry, so that
`getSession` returns no session where it returned the stored one; and `setSession` for
that user overwrites the correlation entry of that token. -/
theorem shared_store_key_clash :
    (getSessionShared sampleJson sampleEnv sampleRedis 1).2.1 = some sampleSession ∧
      (getSessionShared sampleJson sampleEnv
        (redisTrace sampleRedis
          (EventShowMoreInlineKeyboard sampleMessages sampleEnv sampleClash).1) 1).2.1 =
        none ∧
      lookupCalendar sampleJson
        (redisTrace (fun _ => none)
          (EventShowMoreInlineKeyboard sampleMessages sampleEnv sampleClash).1) "1" =
        some "cal-1" ∧
      lookupCalendar sampleJson
        (redisTrace
          (redisTrace (fun _ => none)
            (EventShowMoreInlineKeyboard sampleMessages sampleEnv sampleClash).1)
          (setSession .ok sampleSession 1).1) "1" = some "{}" := by
  decide

/-! ### The handlers on the shared store -/

/-- On the shared store `getSession`, run on the session view, is `getSession` reading
the user key of the store. -/
theorem getSession_view (json : Json) (env : Env) (r : Redis) (uid : Int) :
    getSession (envView json env r uid) (sessionView json r) uid =
      getSessionShared json env r uid := by
  unfold getSessionShared getSession sessionView envView
  rcases hr : r (userKey uid) with _ | b
  · cases env.getErr <;> rfl
  · cases b with
    | session s => cases env.getErr <;> rfl
    | text v => cases hd : json.unmarshalText v <;> cases hg : env.getErr <;> simp [hd, hg]

theorem envEvents_envView (json : Json) (env : Env) (r : Redis) (uid : Int) :
    envEvents (envView json env r uid) = envEvents env := by
  unfold envView
  split <;> rfl

theorem corrWrites_append (a b : List Effect) :
    corrWrites (a ++ b) = corrWrites a ++ corrWrites b := by
  induction a with
  | nil => rfl
  | cons e a ih => cases e <;> simp [corrWrites, ih]

theorem corrWrites_AuthMiddleware (env : Env) (uid chat : Int) :
    corrWrites (AuthMiddleware env uid chat).1 = [] := by
  unfold AuthMiddleware
  rcases env.auth with _ | _ | _ <;> rfl

theorem corrWrites_GroupMiddleware (msgs : Messages) (m : Message) :
    corrWrites (GroupMiddleware msgs m).1 = [] := by
  unfold GroupMiddleware
  split_ifs <;> rfl

theorem corrWrites_setSession (r : SetResult) (s : BotRedisSession) (uid : Int) :
    corrWrites (setSession r s uid).1 = [] := by
  cases r <;> rfl

theorem corrWrites_getSession (env : Env) (st : Store) (uid : Int) :
    corrWrites (getSession env st uid).1 = [] := by
  unfold getSession
  cases env.getErr <;> cases st uid <;> cases env.defaultSet <;>
    cases env.unmarshalErr <;> simp [setSession, corrWrites]

theorem corrWrites_resetEffects (s : BotRedisSession) :
    corrWrites (resetEffects s) = [] := by
  unfold resetEffects; split <;> rfl

theorem corrWrites_ParseDate (env : Env) (m : Message) :
    corrWrites (ParseDate env m) = [] := by
  unfold ParseDate
  cases env.parse <;> rfl

theorem corrWrites_EventShowMoreInlineKeyboard (msgs : Messages) (env : Env)
    (event : Event) :
    corrWrites (EventShowMoreInlineKeyboard msgs env event).1 =
      [(event.Uid, event.Calendar.UID)] := by
  unfold EventShowMoreInlineKeyboard
  split <;> rfl

theorem savedSessions_EventShowMoreInlineKeyboard (msgs : Messages) (env : Env)
    (event : Event) :
    savedSessions (EventShowMoreInlineKeyboard msgs env event).1 = [] := by
  unfold EventShowMoreInlineKeyboard
  split <;> rfl

/-- The correlation entries `sendShortEvents` writes are those of the events it lists. -/
theorem corrWrites_sendShortEvents (msgs : Messages) (env : Env) (events : List Event)
    (isPrivate : Bool) (chat : Int) :
    ∀ p ∈ corrWrites (sendShortEvents msgs env events isPrivate chat),
      ∃ event ∈ events, p = (event.Uid, event.Calendar.UID) := by
  induction events with
  | nil => intro p hp; simp [sendShortEvents, corrWrites] at hp
  | cons e rest ih =>
    intro p hp
    cases isPrivate <;>
      simp only [sendShortEvents, corrWrites_append, corrWrites, List.mem_append,
        corrWrites_EventShowMoreInlineKeyboard, Bool.false_eq_true, if_false, if_true,
        List.mem_singleton, List.not_mem_nil, false_or, or_false, List.nil_append,
        List.mem_cons] at hp
    · obtain ⟨x, hx, rfl⟩ := ih p hp
      exact ⟨x, List.mem_cons_of_mem _ hx, rfl⟩
    · rcases hp with rfl | hp
      · exact ⟨e, List.mem_cons_self _ _, rfl⟩
      · obtain ⟨x, hx, rfl⟩ := ih p hp
        exact ⟨x, List.mem_cons_of_mem _ hx, rfl⟩

theorem corrWrites_parseOrReturn (env : Env) (m : Message) (k : Time → BotRedisSession) :
    match parseOrReturn env m k with
    | .returned t => corrWrites t = []
    | .left t _ => corrWrites t = [] := by
  unfold parseOrReturn
  cases hp : env.parse with
  | none => simp [corrWrites_ParseDate]
  | some d =>
    by_cases hd : d.IsZero = true <;>
      simp [hd, corrWrites_ParseDate, corrWrites_append, corrWrites]

theorem corrWrites_createSwitch (msgs : Messages) (env : Env) (m : Message)
    (session : BotRedisSession) :
    match createSwitch msgs env m session with
    | .returned t => corrWrites t = []
    | .left t _ => corrWrites t = [] := by
  unfold createSwitch
  cases session.Step <;> simp only [] <;>
    first
    | exact corrWrites_parseOrReturn env m _
    | rfl
    | (split_ifs <;> first | rfl | exact corrWrites_parseOrReturn env m _)

/-- The function `handleCreateText` writes no correlation entry. -/
theorem corrWrites_handleCreateText (msgs : Messages) (env : Env) (m : Message)
    (s : BotRedisSession) : corrWrites (handleCreateText msgs env m s).trace = [] := by
  have hsw := corrWrites_createSwitch msgs env m s
  unfold handleCreateText
  split_ifs with hc
  · cases hr : env.setRes <;>
      simp [setSession, corrWrites_append, corrWrites_resetEffects, corrWrites]
  · cases hcs : createSwitch msgs env m s with
    | returned t =>
      rw [hcs] at hsw
      simpa using hsw
    | left t s1 =>
      rw [hcs] at hsw
      simp only at hsw ⊢
      cases hs : env.sendRes with
      | none => simp [corrWrites_append, corrWrites_resetEffects, corrWrites, hsw]
      | some sig =>
        cases hr : env.setRes <;> simp only [setSession] <;> split_ifs <;>
          simp [corrWrites_append, corrWrites_resetEffects, corrWrites, hsw]

/-- The correlation entries `handleDateText` writes are those of the events of the
date. -/
theorem corrWrites_handleDateText (msgs : Messages) (env : Env) (m : Message)
    (s : BotRedisSession) :
    ∀ p ∈ corrWrites (handleDateText msgs env m s).trace,
      ∃ event ∈ envEvents env, p = (event.Uid, event.Calendar.UID) := by
  intro p hp
  unfold handleDateText at hp
  have hpd := corrWrites_ParseDate env m
  cases hr : env.setRes <;> cases hpar : env.parse <;> cases htok : env.token <;>
    rcases hev : env.events with _ | _ | events <;>
    simp only [hr, hpar, htok, hev, setSession] at hp <;> split_ifs at hp <;>
    simp [corrWrites_append, corrWrites, hpd] at hp
  all_goals
    obtain ⟨e, he, rfl⟩ := corrWrites_sendShortEvents msgs env events _ _ p hp
    exact ⟨e, by simp [envEvents, hev, he], rfl⟩

theorem corrWrites_HandleDate (msgs : Messages) (env : Env) (st : Store) (m : Message) :
    corrWrites (HandleDate msgs env st m).trace = [] := by
  have ha := corrWrites_AuthMiddleware env m.SenderID m.ChatID
  have hg := corrWrites_GroupMiddleware msgs m
  have hs := corrWrites_getSession env st m.SenderID
  unfold HandleDate
  generalize AuthMiddleware env m.SenderID m.ChatID = a at ha ⊢
  generalize GroupMiddleware msgs m = g at hg ⊢
  generalize getSession env st m.SenderID = gs at hs ⊢
  obtain ⟨t1, isAuth⟩ := a
  obtain ⟨t2, isGroup⟩ := g
  obtain ⟨t3, os, e⟩ := gs
  simp only at ha hg hs
  cases isAuth <;> cases isGroup <;> cases e <;> cases os <;>
    simp [corrWrites_append, ha, hg, hs]
  split_ifs <;> simp [corrWrites_append, ha, hg, hs, corrWrites_setSession, corrWrites]

theorem corrWrites_HandleCreate (env : Env) (st : Store) (m : Message) :
    corrWrites (HandleCreate env st m).trace = [] := by
  have ha := corrWrites_AuthMiddleware env m.SenderID m.ChatID
  have hs := corrWrites_getSession env st m.SenderID
  unfold HandleCreate
  generalize AuthMiddleware env m.SenderID m.ChatID = a at ha ⊢
  generalize getSession env st m.SenderID = gs at hs ⊢
  obtain ⟨t1, isAuth⟩ := a
  obtain ⟨t3, os, e⟩ := gs
  simp only at ha hs
  cases isAuth <;> cases e <;> cases os <;> simp [corrWrites_append, ha, hs, corrWrites]
  cases env.token with
  | none => simp [corrWrites_append, ha, hs, corrWrites]
  | some token =>
    simp only []
    split_ifs <;> simp [corrWrites_append, ha, hs, corrWrites_setSession, corrWrites]

theorem corrWrites_HandleText (msgs : Messages) (env : Env) (st : Store) (m : Message) :
    ∀ p ∈ corrWrites (HandleText msgs env st m).trace,
      ∃ event ∈ envEvents env, p = (event.Uid, event.Calendar.UID) := by
  intro p hp
  have hs := corrWrites_getSession env st m.SenderID
  unfold HandleText at hp
  generalize getSession env st m.SenderID = gs at hp hs
  obtain ⟨t3, os, e⟩ := gs
  simp only at hs hp
  cases e <;> cases os <;> simp only [] at hp
  · simp [hs] at hp
  · rename_i s0
    split_ifs at hp <;>
      simp [corrWrites_append, corrWrites, hs, corrWrites_handleCreateText] at hp
    exact corrWrites_handleDateText msgs env m s0 p hp
  · simp [hs] at hp
  · simp [hs] at hp

theorem corrWrites_HandleCancelCreateEvent (env : Env) (st : Store) (c : Callback) :
    corrWrites (HandleCancelCreateEvent env st c).trace = [] := by
  have hs := corrWrites_getSession env st c.SenderID
  unfold HandleCancelCreateEvent
  generalize getSession env st c.SenderID = gs at hs ⊢
  obtain ⟨t3, os, e⟩ := gs
  simp only at hs
  cases c.ReplyToSender with
  | none => rfl
  | some owner =>
    simp only []
    split_ifs
    · rfl
    · cases e <;> cases os <;> simp only [] <;> (try split_ifs) <;>
        simp [corrWrites_append, corrWrites, hs, corrWrites_resetEffects,
          corrWrites_setSession]

theorem corrWrites_HandleCreateEvent (env : Env) (st : Store) (c : Callback) :
    corrWrites (HandleCreateEvent env st c).trace = [] := by
  have hs := corrWrites_getSession env st c.SenderID
  unfold HandleCreateEvent
  generalize getSession env st c.SenderID = gs at hs ⊢
  obtain ⟨t3, os, e⟩ := gs
  simp only at hs
  cases hrt : c.ReplyToSender with
  | none => rfl
  | some owner =>
    by_cases hown : c.SenderID = owner
    · cases e <;> cases os <;> cases htok : env.token <;> cases hco : env.createOk <;>
        simp [hown, htok, hco, corrWrites_append, corrWrites_resetEffects,
          corrWrites_setSession, corrWrites, hs]
    · simp [hown, corrWrites]

/-- What `getEventByIdForCallback` does: it writes nothing, and the event it returns is
the one the calendar service handed out. -/
theorem getEventByIdForCallback_spec (env : Env) (cs : CorrStore) (c : Callback) :
    corrWrites (getEventByIdForCallback env cs c).1 = [] ∧
      savedSessions (getEventByIdForCallback env cs c).1 = [] ∧
      ∀ event, (getEventByIdForCallback env cs c).2 = some event →
        env.eventById = some event := by
  unfold getEventByIdForCallback
  cases env.getErr <;> cases cs c.Data <;> cases env.token <;> cases env.eventById <;>
    simp [corrWrites, savedSessions]

theorem corrWrites_HandleShowMore (msgs : Messages) (env : Env) (cs : CorrStore)
    (c : Callback) : corrWrites (HandleShowMore msgs env cs c).trace = [] := by
  have ha := corrWrites_AuthMiddleware env c.SenderID c.ChatID
  obtain ⟨hg, -, -⟩ := getEventByIdForCallback_spec env cs c
  unfold HandleShowMore
  generalize AuthMiddleware env c.SenderID c.ChatID = a at ha ⊢
  generalize getEventByIdForCallback env cs c = g at hg ⊢
  obtain ⟨t1, isAuth⟩ := a
  obtain ⟨t2, oe⟩ := g
  simp only at ha hg
  cases isAuth <;> cases oe <;> simp [corrWrites_append, corrWrites, ha, hg]

theorem corrWrites_HandleShowLess (msgs : Messages) (env : Env) (cs : CorrStore)
    (c : Callback) :
    ∀ p ∈ corrWrites (HandleShowLess msgs env cs c).trace,
      ∃ event ∈ envEvents env, p = (event.Uid, event.Calendar.UID) := by
  intro p hp
  have ha := corrWrites_AuthMiddleware env c.SenderID c.ChatID
  obtain ⟨hg, -, he⟩ := getEventByIdForCallback_spec env cs c
  unfold HandleShowLess at hp
  generalize AuthMiddleware env c.SenderID c.ChatID = a at ha hp
  generalize getEventByIdForCallback env cs c = g at hg he hp
  obtain ⟨t1, isAuth⟩ := a
  obtain ⟨t2, oe⟩ := g
  simp only at ha hg he hp
  cases isAuth <;> cases oe <;>
    simp [corrWrites_append, corrWrites, ha, hg,
      corrWrites_EventShowMoreInlineKeyboard] at hp
  rename_i event
  subst hp
  exact ⟨event, by simp [envEvents, he event rfl], rfl⟩

theorem corrWrites_HandleToday (msgs : Messages) (env : Env) (m : Message) :
    ∀ p ∈ corrWrites (HandleToday msgs env m).trace,
      ∃ event ∈ envEvents env, p = (event.Uid, event.Calendar.UID) := by
  intro p hp
  have ha := corrWrites_AuthMiddleware env m.SenderID m.ChatID
  have hg := corrWrites_GroupMiddleware msgs m
  unfold HandleToday at hp
  generalize AuthMiddleware env m.SenderID m.ChatID = a at ha hp
  generalize GroupMiddleware msgs m = g at hg hp
  obtain ⟨t1, isAuth⟩ := a
  obtain ⟨t2, isGroup⟩ := g
  simp only at ha hg hp
  cases isAuth <;> cases isGroup <;> cases htok : env.token <;>
    rcases hev : env.eventsToday with _ | _ | events <;>
    simp [htok, hev, corrWrites_append, corrWrites, ha, hg] at hp
  obtain ⟨e, he, rfl⟩ := corrWrites_sendShortEvents msgs env events _ _ p hp
  exact ⟨e, by simp [envEvents, hev, he], rfl⟩

theorem corrWrites_HandleNext (msgs : Messages) (env : Env) (m : Message) :
    ∀ p ∈ corrWrites (HandleNext msgs env m).trace,
      ∃ event ∈ envEvents env, p = (event.Uid, event.Calendar.UID) := by
  intro p hp
  have ha := corrWrites_AuthMiddleware env m.SenderID m.ChatID
  have hg := corrWrites_GroupMiddleware msgs m
  unfold HandleNext at hp
  generalize AuthMiddleware env m.SenderID m.ChatID = a at ha hp
  generalize GroupMiddleware msgs m = g at hg hp
  obtain ⟨t1, isAuth⟩ := a
  obtain ⟨t2, isGroup⟩ := g
  simp only at ha hg hp
  cases isAuth <;> cases isGroup <;> cases htok : env.token <;>
    rcases hev : env.closest with _ | _ | event <;> cases hpriv : m.Private <;>
    simp [htok, hev, hpriv, corrWrites_append, corrWrites, ha, hg,
      corrWrites_EventShowMoreInlineKeyboard] at hp
  subst hp
  exact ⟨event, by simp [envEvents, hev], rfl⟩

theorem corrWrites_HandleAlertNo (c : Callback) :
    corrWrites (HandleAlertNo c).trace = [] := by
  unfold HandleAlertNo
  cases c.ReplyToSender with
  | none => rfl
  | some owner => simp only []; split_ifs <;> rfl

theorem corrWrites_HandleAlertYes (cmds : Commands) (msgs : Messages) (env : Env)
    (st : Store) (c : Callback) :
    ∀ p ∈ corrWrites (HandleAlertYes cmds msgs env st c).trace,
      ∃ event ∈ envEvents env, p = (event.Uid, event.Calendar.UID) := by
  intro p hp
  unfold HandleAlertYes at hp
  cases hrt : c.ReplyToSender with
  | none => simp [hrt, corrWrites] at hp
  | some owner =>
    simp only [hrt] at hp
    split_ifs at hp <;> simp [corrWrites_append, corrWrites, corrWrites_HandleDate] at hp
    · exact corrWrites_HandleToday msgs env _ p hp
    · exact corrWrites_HandleNext msgs env _ p hp

/-- Every correlation entry a handler writes is that of an event the calendar service
handed out in the run. -/
theorem dispatch_corrWrites (cmds : Commands) (msgs : Messages) (env : Env) (st : Store)
    (cs : CorrStore) (u : Inbound) :
    ∀ p ∈ corrWrites (dispatch cmds msgs env st cs u).trace,
      ∃ event ∈ envEvents env, p = (event.Uid, event.Calendar.UID) := by
  intro p hp
  cases u with
  | today m => exact corrWrites_HandleToday msgs env m p hp
  | next m => exact corrWrites_HandleNext msgs env m p hp
  | date m => simp [dispatch, corrWrites_HandleDate] at hp
  | create m => simp [dispatch, corrWrites_HandleCreate] at hp
  | text m => exact corrWrites_HandleText msgs env st m p hp
  | showMore c => simp [dispatch, corrWrites_HandleShowMore] at hp
  | showLess c => exact corrWrites_HandleShowLess msgs env cs c p hp
  | alertYes c => exact corrWrites_HandleAlertYes cmds msgs env st c p hp
  | alertNo c => simp [dispatch, corrWrites_HandleAlertNo] at hp
  | cancelCreate c => simp [dispatch, corrWrites_HandleCancelCreateEvent] at hp
  | createEvent c => simp [dispatch, corrWrites_HandleCreateEvent] at hp

/-! ### Sessions written by the other handlers -/

theorem savedSessions_HandleToday (msgs : Messages) (env : Env) (m : Message) :
    savedSessions (HandleToday msgs env m).trace = [] := by
  have ha := savedSessions_AuthMiddleware env m.SenderID m.ChatID
  have hg := savedSessions_GroupMiddleware msgs m
  unfold HandleToday
  generalize AuthMiddleware env m.SenderID m.ChatID = a at ha ⊢
  generalize GroupMiddleware msgs m = g at hg ⊢
  obtain ⟨t1, isAuth⟩ := a
  obtain ⟨t2, isGroup⟩ := g
  simp only at ha hg
  cases isAuth <;> cases isGroup <;> cases env.token <;>
    rcases env.eventsToday with _ | _ | events <;>
    simp [savedSessions_append, savedSessions, ha, hg, savedSessions_sendShortEvents]

theorem savedSessions_HandleNext (msgs : Messages) (env : Env) (m : Message) :
    savedSessions (HandleNext msgs env m).trace = [] := by
  have ha := savedSessions_AuthMiddleware env m.SenderID m.ChatID
  have hg := savedSessions_GroupMiddleware msgs m
  unfold HandleNext
  generalize AuthMiddleware env m.SenderID m.ChatID = a at ha ⊢
  generalize GroupMiddleware msgs m = g at hg ⊢
  obtain ⟨t1, isAuth⟩ := a
  obtain ⟨t2, isGroup⟩ := g
  simp only at ha hg
  cases isAuth <;> cases isGroup <;> cases env.token <;>
    rcases env.closest with _ | _ | event <;> cases m.Private <;>
    simp [savedSessions_append, savedSessions, ha, hg,
      savedSessions_EventShowMoreInlineKeyboard]

theorem savedSessions_HandleShowMore (msgs : Messages) (env : Env) (cs : CorrStore)
    (c : Callback) : savedSessions (HandleShowMore msgs env cs c).trace = [] := by
  have ha := savedSessions_AuthMiddleware env c.SenderID c.ChatID
  obtain ⟨-, hg, -⟩ := getEventByIdForCallback_spec env cs c
  unfold HandleShowMore
  generalize AuthMiddleware env c.SenderID c.ChatID = a at ha ⊢
  generalize getEventByIdForCallback env cs c = g at hg ⊢
  obtain ⟨t1, isAuth⟩ := a
  obtain ⟨t2, oe⟩ := g
  simp only at ha hg
  cases isAuth <;> cases oe <;> simp [savedSessions_append, savedSessions, ha, hg]

theorem savedSessions_HandleShowLess (msgs : Messages) (env : Env) (cs : CorrStore)
    (c : Callback) : savedSessions (HandleShowLess msgs env cs c).trace = [] := by
  have ha := savedSessions_AuthMiddleware env c.SenderID c.ChatID
  obtain ⟨-, hg, -⟩ := getEventByIdForCallback_spec env cs c
  unfold HandleShowLess
  generalize AuthMiddleware env c.SenderID c.ChatID = a at ha ⊢
  generalize getEventByIdForCallback env cs c = g at hg ⊢
  obtain ⟨t1, isAuth⟩ := a
  obtain ⟨t2, oe⟩ := g
  simp only at ha hg
  cases isAuth <;> cases oe <;>
    simp [savedSessions_append, savedSessions, ha, hg,
      savedSessions_EventShowMoreInlineKeyboard]

theorem savedSessions_HandleAlertNo (c : Callback) :
    savedSessions (HandleAlertNo c).trace = [] := by
  unfold HandleAlertNo
  cases c.ReplyToSender with
  | none => rfl
  | some owner => simp only []; split_ifs <;> rfl

theorem HandleAlertYes_saved (cmds : Commands) (msgs : Messages) (env : Env) (st : Store)
    (c : Callback) (s' : BotRedisSession)
    (h : s' ∈ savedSessions (HandleAlertYes cmds msgs env st c).trace) :
    s' = newSession ∨ ∃ s, Loaded st c.SenderID s ∧ Trans msgs s s' := by
  unfold HandleAlertYes at h
  cases hrt : c.ReplyToSender with
  | none => simp [hrt, savedSessions] at h
  | some owner =>
    simp only [hrt] at h
    by_cases hown : c.SenderID = owner
    · subst hown
      split_ifs at h <;>
        simp [savedSessions_append, savedSessions, savedSessions_HandleToday,
          savedSessions_HandleNext] at h
      exact HandleDate_saved msgs env st ⟨c.SenderID, c.ChatID, c.Private, c.Text⟩ s' h
    · simp [hown, savedSessions] at h

/-- Every session one of the eleven handlers passes to `setSession` is the default
session or comes from the session the handler loaded for the user. -/
theorem dispatch_saved (cmds : Commands) (msgs : Messages) (env : Env) (st : Store)
    (cs : CorrStore) (u : Inbound) (s' : BotRedisSession)
    (h : s' ∈ savedSessions (dispatch cmds msgs env st cs u).trace) :
    s' = newSession ∨ ∃ s, Loaded st u.user s ∧ Trans msgs s s' := by
  cases u with
  | today m => simp [dispatch, savedSessions_HandleToday] at h
  | next m => simp [dispatch, savedSessions_HandleNext] at h
  | date m => exact HandleDate_saved msgs env st m s' h
  | create m => exact HandleCreate_saved msgs env st m s' h
  | text m => exact HandleText_saved msgs env st m s' h
  | showMore c => simp [dispatch, savedSessions_HandleShowMore] at h
  | showLess c => simp [dispatch, savedSessions_HandleShowLess] at h
  | alertYes c => exact HandleAlertYes_saved cmds msgs env st c s' h
  | alertNo c => simp [dispatch, savedSessions_HandleAlertNo] at h
  | cancelCreate c => exact HandleCancelCreateEvent_saved msgs env st c s' h
  | createEvent c => exact HandleCreateEvent_saved msgs env st c s' h

/-! ### Invariants of the shared store -/

theorem RedisInv_emptyRedis (P : BotRedisSession → Prop) (json : Json) :
    RedisInv P json emptyRedis :=
  ⟨fun _ _ h => by simp [emptyRedis] at h, fun _ _ h => by simp [emptyRedis] at h⟩

/-- One external call keeps the store invariant when the session it saves has the
property and the correlation entry it writes cannot be read as a session. -/
theorem redisEffect_inv (P : BotRedisSession → Prop) (json : Json) (r : Redis) (e : Effect)
    (hr : RedisInv P json r) (hs : ∀ s ∈ savedSessions [e], P s)
    (hc : ∀ p ∈ corrWrites [e],
      (∀ uid : Int, p.1 ≠ userKey uid) ∨ json.unmarshalText p.2 = none) :
    RedisInv P json (redisEffect r e) := by
  cases e with
  | SetSession uid s res =>
    cases res with
    | ok =>
      refine ⟨fun key s1 h => ?_, fun uid1 v h => ?_⟩
      · simp only [redisEffect] at h
        split_ifs at h
        · have : s = s1 := by simpa using h
          subst this
          exact hs s (by simp [savedSessions])
        · exact hr.1 key s1 h
      · simp only [redisEffect] at h
        split_ifs at h
        · simp at h
        · exact hr.2 uid1 v h
    | _ => exact hr
  | SetCorrelation token cal b =>
    cases b with
    | false => exact hr
    | true =>
      refine ⟨fun key s1 h => ?_, fun uid1 v h => ?_⟩
      · simp only [redisEffect] at h
        split_ifs at h
        · simp at h
        · exact hr.1 key s1 h
      · simp only [redisEffect] at h
        split_ifs at h with hk
        · have hv : cal = v := by simpa using h
          subst hv
          rcases hc (token, cal) (by simp [corrWrites]) with h1 | h1
          · exact absurd hk.symm (h1 uid1)
          · exact h1
        · exact hr.2 uid1 v h
  | _ => exact hr

theorem redisTrace_inv (P : BotRedisSession → Prop) (json : Json) (t : List Effect) :
    ∀ r : Redis, RedisInv P json r → (∀ s ∈ savedSessions t, P s) →
      (∀ p ∈ corrWrites t,
        (∀ uid : Int, p.1 ≠ userKey uid) ∨ json.unmarshalText p.2 = none) →
      RedisInv P json (redisTrace r t) := by
  induction t with
  | nil => intro r hr _ _; exact hr
  | cons e t ih =>
    intro r hr hs hc
    have hs2 : savedSessions (e :: t) = savedSessions [e] ++ savedSessions t :=
      savedSessions_append [e] t
    have hc2 : corrWrites (e :: t) = corrWrites [e] ++ corrWrites t :=
      corrWrites_append [e] t
    rw [hs2] at hs
    rw [hc2] at hc
    exact ih (redisEffect r e)
      (redisEffect_inv P json r e hr
        (fun s h => hs s (List.mem_append_left _ h))
        (fun p h => hc p (List.mem_append_left _ h)))
      (fun s h => hs s (List.mem_append_right _ h))
      (fun p h => hc p (List.mem_append_right _ h))

/-- The sessions of the session view of a store with the invariant have the property. -/
theorem sessionView_inv (P : BotRedisSession → Prop) (json : Json) (r : Redis)
    (h0 : P newSession) (hr : RedisInv P json r) (uid : Int) (s : BotRedisSession)
    (h : sessionView json r uid = some s) : P s := by
  unfold sessionView at h
  rcases hb : r (userKey uid) with _ | b
  · simp [hb] at h
  · cases b with
    | session s1 =>
      simp [hb] at h
      subst h
      exact hr.1 _ _ hb
    | text v =>
      simp [hb, hr.2 uid v hb] at h
      subst h
      exact h0

/-- A handler run on the shared store keeps the store invariant, when the calendar
service hands out only harmless events in the run. -/
theorem handleShared_inv (msgs : Messages) (P : BotRedisSession → Prop)
    (h0 : P newSession) (htr : ∀ s s', P s → Trans msgs s s' → P s')
    (json : Json) (cmds : Commands) (env : Env) (r : Redis) (u : Inbound)
    (hr : RedisInv P json r) (hh : HarmlessEvents json env) :
    RedisInv P json (redisTrace r (handleShared json cmds msgs env r u).trace) := by
  refine redisTrace_inv P json _ r hr (fun s' hs' => ?_) (fun p hp => ?_)
  · rcases dispatch_saved cmds msgs _ _ _ u s' hs' with rfl | ⟨s, hl, ht⟩
    · exact h0
    · rcases hl with rfl | hl
      · exact htr _ _ h0 ht
      · exact htr _ _ (sessionView_inv P json r h0 hr _ s hl) ht
  · obtain ⟨event, he, rfl⟩ := dispatch_corrWrites cmds msgs _ _ _ u p hp
    rw [envEvents_envView] at he
    exact hh event he

theorem runShared_inv (msgs : Messages) (P : BotRedisSession → Prop)
    (h0 : P newSession) (htr : ∀ s s', P s → Trans msgs s s' → P s')
    (json : Json) (cmds : Commands) (run : List (Env × Inbound)) :
    ∀ r : Redis, RedisInv P json r → (∀ p ∈ run, HarmlessEvents json p.1) →
      RedisInv P json (runShared json cmds msgs r run) := by
  induction run with
  | nil => intro r hr _; exact hr
  | cons a run ih =>
    obtain ⟨env, u⟩ := a
    intro r hr hh
    exact ih _
      (handleShared_inv msgs P h0 htr json cmds env r u hr
        (hh (env, u) (List.mem_cons_self _ _)))
      (fun p hp => hh p (List.mem_cons_of_mem _ hp))

/-- On a store with the invariant every session text holds a session with the property,
and so does every session `getSession` returns. -/
theorem RedisInv_sessions (P : BotRedisSession → Prop) (json : Json) (r : Redis)
    (h0 : P newSession) (hr : RedisInv P json r) :
    (∀ key s, r key = some (.session s) → P s) ∧
      ∀ (env : Env) (uid : Int) (s : BotRedisSession),
        (getSessionShared json env r uid).2.1 = some s → P s := by
  refine ⟨hr.1, fun env uid s h => ?_⟩
  unfold getSessionShared at h
  cases hg : env.getErr <;> rcases hb : r (userKey uid) with _ | b | v <;>
    cases hd : env.defaultSet <;> cases hu : env.unmarshalErr <;>
    simp [hg, hb, hd, hu, setSession] at h
  all_goals first
    | (subst h; exact h0)
    | (subst h; exact hr.1 _ _ hb)
    | (rw [hr.2 uid v hb] at h; simp at h)

/-- After any list of inbound updates handled from the empty shared store, with only
harmless events handed out, a property of sessions that holds of the default session and
survives every transformation of a handler holds of every stored session and of every
session `getSession` returns. -/
theorem shared_sessions_inv (msgs : Messages) (P : BotRedisSession → Prop)
    (h0 : P newSession) (htr : ∀ s s', P s → Trans msgs s s' → P s')
    (json : Json) (cmds : Commands) (run : List (Env × Inbound))
    (hrun : ∀ p ∈ run, HarmlessEvents json p.1) :
    (∀ key s, runShared json cmds msgs emptyRedis run key = some (.session s) → P s) ∧
      ∀ (env : Env) (uid : Int) (s : BotRedisSession),
        (getSessionShared json env (runShared json cmds msgs emptyRedis run) uid).2.1 =
          some s → P s :=
  RedisInv_sessions P json _ h0
    (runShared_inv msgs P h0 htr json cmds run emptyRedis (RedisInv_emptyRedis P json) hrun)

/-- A property of sessions that holds of the default session and survives every
transformation a handler applies holds of every session one of the eleven handlers
passes to `setSession`, provided it holds of the stored session of the user. -/
theorem dispatch_preserves (msgs : Messages) (P : BotRedisSession → Prop)
    (h0 : P newSession) (htr : ∀ s s', P s → Trans msgs s s' → P s')
    (cmds : Commands) (env : Env) (st : Store) (cs : CorrStore) (u : Inbound)
    (hst : ∀ s, st u.user = some s → P s) (s' : BotRedisSession)
    (h : s' ∈ savedSessions (dispatch cmds msgs env st cs u).trace) : P s' := by
  rcases dispatch_saved cmds msgs env st cs u s' h with rfl | ⟨s, hl, ht⟩
  · exact h0
  · rcases hl with rfl | hl
    · exact htr _ _ h0 ht
    · exact htr _ _ (hst s hl) ht

/-! ### The invariants -/

/-- C8: every session a handler passes to `setSession` (the default session of
`getSession` included) has not both `IsCreate` and `IsDate` set whenever the stored
session of the user has not, for the handlers of the dialog and for all eleven
registered handlers; hence, after any list of inbound updates handled from the empty
shared store, in which the calendar service hands out no event whose `Uid` is a user key
while its calendar identifier is read as a session, no stored session and no session
`getSession` returns has both flags set. -/
theorem flags_never_both (msgs : Messages) :
    (∀ (env : Env) (st : Store) (u : Update),
      (∀ s, st u.user = some s → ¬ (s.IsCreate = true ∧ s.IsDate = true)) →
      ∀ s' ∈ savedSessions (handle msgs env st u).trace,
        ¬ (s'.IsCreate = true ∧ s'.IsDate = true)) ∧
    (∀ (cmds : Commands) (env : Env) (st : Store) (cs : CorrStore) (u : Inbound),
      (∀ s, st u.user = some s → ¬ (s.IsCreate = true ∧ s.IsDate = true)) →
      ∀ s' ∈ savedSessions (dispatch cmds msgs env st cs u).trace,
        ¬ (s'.IsCreate = true ∧ s'.IsDate = true)) ∧
    (∀ (json : Json) (cmds : Commands) (run : List (Env × Inbound)),
      (∀ p ∈ run, HarmlessEvents json p.1) →
      (∀ key s, runShared json cmds msgs emptyRedis run key = some (.session s) →
        ¬ (s.IsCreate = true ∧ s.IsDate = true)) ∧
      ∀ (env : Env) (uid : Int) (s : BotRedisSession),
        (getSessionShared json env (runShared json cmds msgs emptyRedis run) uid).2.1 =
          some s → ¬ (s.IsCreate = true ∧ s.IsDate = true)) :=
  ⟨fun env st u hst s' hs' =>
      handle_preserves msgs FlagsExclusive (by simp [FlagsExclusive, newSession])
        (FlagsExclusive_trans msgs) env st u hst s' hs',
    fun cmds env st cs u hst s' hs' =>
      dispatch_preserves msgs FlagsExclusive (by simp [FlagsExclusive, newSession])
        (FlagsExclusive_trans msgs) cmds env st cs u hst s' hs',
    fun json cmds run hrun =>
      shared_sessions_inv msgs FlagsExclusive (by simp [FlagsExclusive, newSession])
        (FlagsExclusive_trans msgs) json cmds run hrun⟩

theorem flags_never_both_witness :
    (∀ p ∈ sampleRun, HarmlessEvents sampleJson p.1) ∧
      runShared sampleJson sampleCommands sampleMessages emptyRedis sampleRun "1" =
        some (.session sampleAfterRun) ∧
      ¬ (sampleAfterRun.IsCreate = true ∧ sampleAfterRun.IsDate = true) :=
  ⟨fun _ _ _ _ => Or.inr rfl, by decide,
    ((flags_never_both sampleMessages).2.2 sampleJson sampleCommands sampleRun
      (fun _ _ _ _ => Or.inr rfl)).1 "1" sampleAfterRun (by decide)⟩

/-- C9: after any list of inbound updates (commands, text messages and button presses of
all eleven registered handlers) handled from the empty shared store, with arbitrary
outcomes of the resolver and of every other external call but for the calendar service
handing out no event whose `Uid` is a user key while its calendar identifier is read as
a session, in every stored session and in every session `getSession` returns the
draft's `To` is set only when its `From` is set. -/
theorem to_set_only_with_from (msgs : Messages) (json : Json) (cmds : Commands)
    (run : List (Env × Inbound)) (hrun : ∀ p ∈ run, HarmlessEvents json p.1) :
    (∀ key s, runShared json cmds msgs emptyRedis run key = some (.session s) →
      s.Event.To.IsZero = false → s.Event.From.IsZero = false) ∧
    ∀ (env : Env) (uid : Int) (s : BotRedisSession),
      (getSessionShared json env (runShared json cmds msgs emptyRedis run) uid).2.1 =
        some s → s.Event.To.IsZero = false → s.Event.From.IsZero = false :=
  have h := shared_sessions_inv msgs FromInv
    (by simp [FromInv, ToNeedsFrom, newSession, Event.empty, Time.IsZero, Time.zero])
    (FromInv_trans msgs) json cmds run hrun
  ⟨fun key s hs => (h.1 key s hs).2, fun env uid s hs => (h.2 env uid s hs).2⟩

theorem to_set_only_with_from_witness :
    (∀ p ∈ sampleRun, HarmlessEvents sampleJson p.1) ∧
      runShared sampleJson sampleCommands sampleMessages emptyRedis sampleRun "1" =
        some (.session sampleAfterRun) ∧
      sampleAfterRun.Event.To.IsZero = false ∧ sampleAfterRun.Event.From.IsZero = false :=
  ⟨fun _ _ _ _ => Or.inr rfl, by decide, by decide,
    (to_set_only_with_from sampleMessages sampleJson sampleCommands sampleRun
      (fun _ _ _ _ => Or.inr rfl)).1 "1" sampleAfterRun (by decide) (by decide)⟩

/-- C10: after any list of inbound updates (commands, text messages and button presses
of all eleven registered handlers) handled from the empty shared store, in which the
calendar service hands out no event whose `Uid` is a user key while its calendar
identifier is read as a session, in every stored session and in every session
`getSession` returns a full-day draft ends exactly 24 hours after it starts. -/
theorem full_day_spans_24h (msgs : Messages) (json : Json) (cmds : Commands)
    (run : List (Env × Inbound)) (hrun : ∀ p ∈ run, HarmlessEvents json p.1) :
    (∀ key s, runShared json cmds msgs emptyRedis run key = some (.session s) →
      s.Event.FullDay = true → s.Event.To = s.Event.From.Add (24 * Hour)) ∧
    ∀ (env : Env) (uid : Int) (s : BotRedisSession),
      (getSessionShared json env (runShared json cmds msgs emptyRedis run) uid).2.1 =
        some s → s.Event.FullDay = true → s.Event.To = s.Event.From.Add (24 * Hour) :=
  have h := shared_sessions_inv msgs FullDayInv
    (by simp [FullDayInv, FullDaySpan, newSession, Event.empty])
    (FullDayInv_trans msgs) json cmds run hrun
  ⟨fun key s hs => (h.1 key s hs).2, fun env uid s hs => (h.2 env uid s hs).2⟩

theorem full_day_spans_24h_witness :
    (∀ p ∈ sampleRun, HarmlessEvents sampleJson p.1) ∧
      runShared sampleJson sampleCommands sampleMessages emptyRedis sampleRun "1" =
        some (.session sampleAfterRun) ∧
      sampleAfterRun.Event.FullDay = true ∧
      sampleAfterRun.Event.To = sampleAfterRun.Event.From.Add (24 * Hour) :=
  ⟨fun _ _ _ _ => Or.inr rfl, by decide, by decide,
    (full_day_spans_24h sampleMessages sampleJson sampleCommands sampleRun
      (fun _ _ _ _ => Or.inr rfl)).1 "1" sampleAfterRun (by decide) (by decide)⟩

end CalendarBot
